import Mathlib

/-!
# radclient-ng: credential encoding and the transmit path

A shallow embedding of the parts of `src/bin/radclient-ng.c` that load the
requests of a file pair (`radclient_init`), encode their credentials
(`send_one_packet`, `mschapv1_encode`), pick the next request to transmit
(`client_write`), release an identifier (`deallocate_id`), judge a reply
(`recv_one_packet`, `client_read`) and compute the exit status of `main`; of
the per-request data list, the string copies, the list names, the command
splitter and the packet rate of `src/main/util.c`; and of the line and header
readers of `src/modules/rlm_csv/rlm_csv.c`.

Conventions of the embedding.

* An attribute list (`fr_pair_list_t`) is a `List fr_pair_t` holding the
  top-level pairs in list order.
* A pointer to a pair of a list (`request->password`, the `vp` of a loop) is
  the position of that pair in the list.
* A pointer to a request of `rc_request_list` (`current`) is the position of
  that request in the list; `NULL` is `none`.
* Library routines whose bodies are outside this file (the MD5 digest, the
  NT hash, the DES transform, the transport write, the random generator) are
  parameters, gathered in `env_t`.
* A string of `util.c` or `rlm_csv.c` is a list of octets, and a pointer into
  a buffer is an offset; a read or write outside the memory at hand has no
  defined result, which is `none`.
-/

namespace Radclient

/-! ## Data model -/

/-- One octet. -/
abbrev uint8_t := Fin 256

/-- Value types of the attributes the client autoloads. -/
inductive fr_type_t where
  | string
  | octets
  | uint32
  | other
deriving DecidableEq, Repr

/-- Dictionary attributes.  The named constructors are the entries of
`radclient_dict_attr`; `other` stands for every further dictionary entry. -/
inductive fr_dict_attr_t where
  | cleartext_password
  | ms_chap_challenge
  | ms_chap_password
  | ms_chap_response
  | radclient_test_name
  | request_authenticator
  | chap_password
  | chap_challenge
  | packet_type
  | user_password
  | user_name
  | other (n : Nat) (t : fr_type_t)
deriving DecidableEq, Repr

/-- The value type of an attribute, as fixed by `radclient_dict_attr`. -/
def fr_dict_attr_t.type : fr_dict_attr_t → fr_type_t
  | .cleartext_password => .string
  | .ms_chap_challenge => .octets
  | .ms_chap_password => .string
  | .ms_chap_response => .octets
  | .radclient_test_name => .string
  | .request_authenticator => .octets
  | .chap_password => .octets
  | .chap_challenge => .octets
  | .packet_type => .uint32
  | .user_password => .string
  | .user_name => .string
  | .other _ t => t

abbrev attr_cleartext_password : fr_dict_attr_t := .cleartext_password
abbrev attr_ms_chap_challenge : fr_dict_attr_t := .ms_chap_challenge
abbrev attr_ms_chap_password : fr_dict_attr_t := .ms_chap_password
abbrev attr_ms_chap_response : fr_dict_attr_t := .ms_chap_response
abbrev attr_radclient_test_name : fr_dict_attr_t := .radclient_test_name
abbrev attr_request_authenticator : fr_dict_attr_t := .request_authenticator
abbrev attr_chap_password : fr_dict_attr_t := .chap_password
abbrev attr_chap_challenge : fr_dict_attr_t := .chap_challenge
abbrev attr_packet_type : fr_dict_attr_t := .packet_type
abbrev attr_user_password : fr_dict_attr_t := .user_password
abbrev attr_user_name : fr_dict_attr_t := .user_name

/-- An attribute-value pair.  `vp_octets` is the value buffer of a string or
octets pair (`vp_strvalue` is the same buffer), `vp_uint32` the value of an
integer pair. -/
structure fr_pair_t where
  da : fr_dict_attr_t
  vp_octets : List uint8_t := []
  vp_uint32 : Nat := 0
deriving DecidableEq, Repr

/-- The length of the value buffer: `vp->vp_length`. -/
def fr_pair_t.vp_length (vp : fr_pair_t) : Nat := vp.vp_octets.length

/-- The value type of a pair: `vp->vp_type`. -/
def fr_pair_t.vp_type (vp : fr_pair_t) : fr_type_t := vp.da.type

/-- Length of the authenticator vector. -/
def RADIUS_AUTH_VECTOR_LENGTH : Nat := 16

/-- The packet fields the client reads and writes. -/
structure fr_packet_t where
  code : Nat := 0
  id : Int := -1
  vector : List uint8_t := List.replicate 16 0
  data : Option (List uint8_t) := none
  dst_port : Nat := 0
deriving DecidableEq, Repr

/-- One request of the batch: the fields of `rc_request_t` the client uses. -/
structure rc_request_t where
  num : Nat := 0
  name : Option (List uint8_t) := none
  packet : fr_packet_t := {}
  reply : Option fr_packet_t := none
  request_pairs : List fr_pair_t := []
  filter : List fr_pair_t := []
  reply_pairs : List fr_pair_t := []
  filter_code : Nat := 0
  password : Option Nat := none
  timestamp : Nat := 0
  tries : Nat := 0
  resend : Nat := 0
  done : Bool := false
deriving DecidableEq, Repr

/-! ## Attribute list primitives -/

/-- Modelled from the spec: `fr_pair_find_by_da(list, NULL, da)` of the pair
library, whose body is not among the sources.  It looks an attribute up in a
list: the result is the first pair of the list with the given attribute, as a
position, or `none` when there is no such pair. -/
def fr_pair_find_by_da : List fr_pair_t → fr_dict_attr_t → Option Nat
  | [], _ => none
  | vp :: rest, da =>
    if vp.da = da then some 0
    else (fr_pair_find_by_da rest da).map Nat.succ

/-- Modelled from the spec: `fr_pair_delete_by_da` of the pair library, whose
body is not among the sources.  It deletes any previous occurrence of the
attribute: every pair of the list with the given attribute is removed. -/
def fr_pair_delete_by_da (list : List fr_pair_t) (da : fr_dict_attr_t) : List fr_pair_t :=
  list.filter (fun vp => !decide (vp.da = da))

/-- Modelled from the spec: `fr_pair_afrom_da` of the pair library, whose body
is not among the sources.  A new pair of the given attribute, with an empty
value. -/
def fr_pair_afrom_da (da : fr_dict_attr_t) : fr_pair_t := { da := da }

/-- Modelled from the spec: `fr_pair_append` of the pair library, whose body is
not among the sources.  The pair is appended to the list. -/
def fr_pair_append (list : List fr_pair_t) (vp : fr_pair_t) : List fr_pair_t :=
  list ++ [vp]

/-- Modelled from the spec: the value setters of the pair library
(`fr_pair_value_bstrndup`, `fr_pair_value_strdup`, `fr_pair_value_memdup`,
`fr_pair_value_memdup_buffer_shallow`), whose bodies are not among the
sources.  Seen from the list, each replaces the value buffer of the pair at
position `i` and leaves every other pair alone. -/
def pair_set_value (list : List fr_pair_t) (i : Nat) (value : List uint8_t) :
    List fr_pair_t :=
  match list[i]? with
  | some vp => list.set i { vp with vp_octets := value }
  | none => list

/-- The value buffer of the pair at position `i` (empty when there is none). -/
def pair_value (list : List fr_pair_t) (i : Nat) : List uint8_t :=
  match list[i]? with
  | some vp => vp.vp_octets
  | none => []

/-! ## The loader: special attributes -/

/-- The scan of `already_hex`: is some octet below 32? -/
def already_hex (vp : Option fr_pair_t) : Bool :=
  match vp with
  | none => true
  | some vp =>
    if vp.vp_type ≠ fr_type_t.octets then true
    else vp.vp_octets.any (fun b => decide (b.val < 32))

/-- The macro `pair_update_request(request->password, attr_cleartext_password)`:
point `request->password` at the first cleartext password pair, appending a
fresh one when the list has none. -/
def pair_update_request (request : rc_request_t) (da : fr_dict_attr_t) : rc_request_t :=
  match fr_pair_find_by_da request.request_pairs da with
  | some j => { request with password := some j }
  | none =>
    { request with
      request_pairs := fr_pair_append request.request_pairs (fr_pair_afrom_da da)
      password := some request.request_pairs.length }

/-- Copy the value of `vp` into the pair `request->password` points at:
`fr_pair_value_bstrndup(request->password, vp->vp_strvalue, vp->vp_length, true)`. -/
def password_bstrndup (request : rc_request_t) (vp : fr_pair_t) : rc_request_t :=
  match request.password with
  | some j =>
    { request with
      request_pairs := pair_set_value request.request_pairs j (vp.vp_octets.take vp.vp_length) }
  | none => request

/-- The authenticator preset from a Request-Authenticator value: the first 16
octets when the value is longer than the vector, else the value over zeros. -/
def set_vector (value : List uint8_t) : List uint8_t :=
  if value.length > 16 then value.take 16
  else value ++ List.replicate (16 - value.length) 0

/-- The body of the special-attribute loop of `radclient_init`, for the pair
`vp` at position `i` of the request list. -/
def special_attribute (request : rc_request_t) (i : Nat) (vp : fr_pair_t) : rc_request_t :=
  if vp.da = attr_packet_type then
    { request with packet := { request.packet with code := vp.vp_uint32 } }
  else if vp.da = attr_request_authenticator then
    { request with packet := { request.packet with vector := set_vector vp.vp_octets } }
  else if vp.da = attr_cleartext_password then
    { request with password := some i }
  else if vp.da = attr_chap_password then
    if vp.vp_length == 17 && already_hex (some vp) then request
    else password_bstrndup (pair_update_request request attr_cleartext_password) vp
  else if vp.da = attr_user_password ∨ vp.da = attr_ms_chap_password then
    password_bstrndup (pair_update_request request attr_cleartext_password) vp
  else if vp.da = attr_radclient_test_name then
    { request with name := some vp.vp_octets }
  else request

/-- The special-attribute loop from position `i` on.  The list can grow while
it is walked (by the one cleartext password pair `pair_update_request` may
append), so the walk is bounded by `fuel`. -/
def special_attributes_from : Nat → Nat → rc_request_t → rc_request_t
  | 0, _, request => request
  | fuel + 1, i, request =>
    match request.request_pairs[i]? with
    | none => request
    | some vp => special_attributes_from fuel (i + 1) (special_attribute request i vp)

/-- The whole special-attribute loop of `radclient_init` on a request whose
attribute list has just been read. -/
def special_attributes (request : rc_request_t) : rc_request_t :=
  special_attributes_from (request.request_pairs.length + 1) 0 request

/-! ## Library routines taken as parameters -/

/-- The library routines the client calls whose bodies lie outside this file.
Buffer sizes are those of the C declarations: a 16-octet digest, a 16-octet NT
hash (or an error), a 24-octet DES response.  `fr_bio_packet_write` returns its
status and the packet as the transport leaves it. -/
structure env_t where
  md5 : List uint8_t → { d : List uint8_t // d.length = 16 }
  mschap_nt_password_hash : List uint8_t → Option { h : List uint8_t // h.length = 16 }
  smbdes_mschap : List uint8_t → List uint8_t → { r : List uint8_t // r.length = 24 }
  fr_bio_packet_write : fr_packet_t → List fr_pair_t → Int × fr_packet_t

/-- Modelled from the spec: `fr_chap_encode`, the CHAP encoder of the utility
library, whose body is not among the sources.  It computes
digest = MD5(identifier || password || challenge) and emits
identifier || digest, 17 octets. -/
def fr_chap_encode (md5 : List uint8_t → { d : List uint8_t // d.length = 16 })
    (id : uint8_t) (challenge : List uint8_t) (challenge_len : Nat)
    (password : List uint8_t) (password_len : Nat) : List uint8_t :=
  id :: (md5 (id :: (password.take password_len ++ challenge.take challenge_len))).val

/-- The octets of a buffer read as a C string: those before the first NUL. -/
def c_str (buf : List uint8_t) : List uint8_t :=
  buf.takeWhile (fun b => !decide (b = 0))

/-- Overwrite the octets of `p` from offset `off` on with `src`. -/
def write_at (p : List uint8_t) (off : Nat) (src : List uint8_t) : List uint8_t :=
  p.take off ++ src ++ p.drop (off + src.length)

/-- Modelled from the spec: `fr_pair_find_by_da_nested` of the pair library,
whose body is not among the sources.  Lists here hold top-level pairs only,
so the nested search is the flat search. -/
def fr_pair_find_by_da_nested (list : List fr_pair_t) (da : fr_dict_attr_t) : Option Nat :=
  fr_pair_find_by_da list da

/-- Where the pair at position `i` sits once `fr_pair_delete_by_da list da` has
run; `none` when there is no such pair or it was itself deleted. -/
def position_after_delete (list : List fr_pair_t) (da : fr_dict_attr_t) (i : Nat) :
    Option Nat :=
  match list[i]? with
  | none => none
  | some vp =>
    if vp.da = da then none
    else some (fr_pair_delete_by_da (list.take i) da).length

/-! ## MS-CHAPv1 -/

/-- The loop of `mschapv1_encode` that fills the challenge buffer: for each
`i` below `n`, `p[i] = fr_rand()` (truncated to an octet). -/
def rand_fill (rand : Nat → Nat) (n : Nat) (p : List uint8_t) : List uint8_t :=
  (List.range n).foldl (fun q i => q.set i (Fin.ofNat (rand i))) p

/-- The function `mschapv1_encode`: the status returned and the list left.
`rand i` is the value of the i-th call of `fr_rand` made here. -/
def mschapv1_encode (env : env_t) (rand : Nat → Nat) (list : List fr_pair_t)
    (password : List uint8_t) : Int × List fr_pair_t :=
  let list := fr_pair_delete_by_da list attr_ms_chap_challenge
  let list := fr_pair_delete_by_da list attr_ms_chap_response
  let challenge := list.length
  let list := fr_pair_append list (fr_pair_afrom_da attr_ms_chap_challenge)
  let list := pair_set_value list challenge (List.replicate 8 0)
  let p := rand_fill rand (pair_value list challenge).length (pair_value list challenge)
  let list := pair_set_value list challenge p
  let reply := list.length
  let list := fr_pair_append list (fr_pair_afrom_da attr_ms_chap_response)
  let p := (List.replicate 50 (0 : uint8_t)).set 1 1
  let list := pair_set_value list reply p
  match env.mschap_nt_password_hash password with
  | none => (0, list)
  | some nthash =>
    (1, pair_set_value list reply
          (write_at p 26 (env.smbdes_mschap nthash.val (pair_value list challenge)).val))

/-! ## Sending one packet -/

/-- The challenge `send_one_packet` selects in its CHAP branch (the local
`vector`): the first CHAP-Challenge pair when it has 16 octets, else the
authenticator vector of the packet. -/
def chap_vector (request : rc_request_t) : List uint8_t :=
  match fr_pair_find_by_da request.request_pairs attr_chap_challenge with
  | some challenge =>
    if (pair_value request.request_pairs challenge).length = RADIUS_AUTH_VECTOR_LENGTH then
      pair_value request.request_pairs challenge
    else request.packet.vector
  | none => request.packet.vector

/-- The credential step of `send_one_packet`: the block guarded by
`if (request->password)`.  `rand i` is the value of the i-th call of `fr_rand`
made during the step. -/
def send_one_packet_password (env : env_t) (rand : Nat → Nat) (request : rc_request_t) :
    rc_request_t :=
  match request.password with
  | none => request
  | some password =>
    match fr_pair_find_by_da request.request_pairs attr_user_password with
    | some vp =>
      { request with
        request_pairs := pair_set_value request.request_pairs vp
          (c_str (pair_value request.request_pairs password)) }
    | none =>
      match fr_pair_find_by_da request.request_pairs attr_chap_password with
      | some vp =>
        let buffer := fr_chap_encode env.md5 (Fin.ofNat (rand 0 &&& 0xff))
          (chap_vector request) RADIUS_AUTH_VECTOR_LENGTH
          (pair_value request.request_pairs password)
          (pair_value request.request_pairs password).length
        { request with
          request_pairs := pair_set_value request.request_pairs vp (buffer.take 17) }
      | none =>
        match fr_pair_find_by_da_nested request.request_pairs attr_ms_chap_password with
        | some _ =>
          let kept := fr_pair_delete_by_da request.request_pairs attr_ms_chap_challenge
          { request with
            request_pairs := (mschapv1_encode env rand request.request_pairs
              (c_str (pair_value request.request_pairs password))).2
            password := (position_after_delete request.request_pairs
              attr_ms_chap_challenge password).bind
                (position_after_delete kept attr_ms_chap_response) }
        | none => request

/-- What one call of `send_one_packet` leaves: the request, the packet and
list handed to `fr_bio_packet_write`, and the status returned. -/
structure send_result where
  request : rc_request_t
  written : Option (fr_packet_t × List fr_pair_t)
  rcode : Int

/-- The function `send_one_packet`.  `now` is the value of `fr_time()`. -/
def send_one_packet (env : env_t) (rand : Nat → Nat) (now : Nat) (request : rc_request_t) :
    send_result :=
  let request := send_one_packet_password env rand request
  let request := { request with timestamp := now, tries := 1, resend := request.resend + 1 }
  let w := env.fr_bio_packet_write request.packet request.request_pairs
  { request := { request with packet := w.2 }
    written := some (request.packet, request.request_pairs)
    rcode := if w.1 < 0 then -1 else 0 }

/-! ## The write callback -/

/-- The process-wide state the write callback works on: the request list, the
send cursor `current`, the resend count set by option `-c`, whether write
interest on the socket has been suspended (`pause_write` applied), and whether
an `fr_assert(0)` has been reached. -/
structure client_state where
  rc_request_list : List rc_request_t := []
  current : Option Nat := none
  resend_count : Nat := 1
  write_paused : Bool := false
  assert_failed : Bool := false
deriving DecidableEq, Repr

/-- Modelled from the spec: `fr_dlist_next` of the list library, whose body is
not among the sources.  It walks the ordered collection in insertion order:
the item after `ptr`, the head when `ptr` is `NULL`, and `NULL` past the
tail. -/
def fr_dlist_next (list : List rc_request_t) (ptr : Option Nat) : Option Nat :=
  match ptr with
  | none => if 0 < list.length then some 0 else none
  | some i => if i + 1 < list.length then some (i + 1) else none

/-- The callback `client_write`: the state it leaves and the request, if any,
it has passed to `send_one_packet`.  The call of `fr_event_filter_update` with
`pause_write` is the suspension of write interest. -/
def client_write (env : env_t) (rand : Nat → Nat) (now : Nat) (st : client_state) :
    client_state × Option Nat :=
  match fr_dlist_next st.rc_request_list st.current with
  | none => ({ st with write_paused := true }, none)
  | some i =>
    match st.rc_request_list[i]? with
    | none => (st, none)
    | some request =>
      let r := send_one_packet env rand now request
      ({ st with
         current := some i
         rc_request_list := st.rc_request_list.set i r.request
         assert_failed := st.assert_failed || decide (r.rcode < 0) }, some i)

/-- The state after the first `k` invocations of `client_write`; invocation
number `j` (from 0) draws its random values from `rand j` at time `now j`. -/
def client_write_iter (env : env_t) (rand : Nat → Nat → Nat) (now : Nat → Nat) :
    Nat → client_state → client_state
  | 0, st => st
  | k + 1, st => (client_write env (rand k) (now k) (client_write_iter env rand now k st)).1

/-- Modelled from the spec: the event loop of the I/O dispatcher
(`fr_event_loop`, whose body is not among the sources) as far as writing
goes.  While write interest is held the writable callback `client_write` is
invoked again; once interest is withdrawn it is invoked no more.  Returns the
final state and the requests passed to `send_one_packet`, in order.  `k`
numbers the invocations; the loop is bounded by `fuel`. -/
def client_writes (env : env_t) (rand : Nat → Nat → Nat) (now : Nat → Nat) :
    Nat → Nat → client_state → client_state × List Nat
  | 0, _, st => (st, [])
  | fuel + 1, k, st =>
    if st.write_paused then (st, [])
    else
      let step := client_write env (rand k) (now k) st
      let rest := client_writes env rand now fuel (k + 1) step.1
      (rest.1, step.2.toList ++ rest.2)

/-! ## Releasing the identifier -/

/-- The function `deallocate_id`.  `cancel` is the effect of
`fr_radius_client_fd_bio_cancel` on the packet (a library routine, taken as a
parameter).  The request and its packet are always allocated here, so of the
guards only `request->packet->id < 0` can hold. -/
def deallocate_id (cancel : fr_packet_t → fr_packet_t) (request : rc_request_t) :
    rc_request_t :=
  if request.packet.id < 0 then request
  else
    let packet := cancel request.packet
    let packet := { packet with id := -1 }
    let packet := { packet with data := none }
    { request with packet := packet, reply := none }

/-! ## Statistics and the exit status -/

/-- The counters of `rc_stats_t`. -/
structure rc_stats_t where
  accepted : Nat := 0
  rejected : Nat := 0
  lost : Nat := 0
  passed : Nat := 0
  failed : Nat := 0
deriving DecidableEq, Repr

/-- The exit status of `stdlib.h` for success. -/
def EXIT_SUCCESS : Int := 0

/-- The exit status of `stdlib.h` for failure. -/
def EXIT_FAILURE : Int := 1

/-- The end of `main`, from `fr_dict_autofree` on: the status returned for the
final statistics.  `dict_autofree` is the value `fr_dict_autofree` returns. -/
def main_exit_status (dict_autofree : Int) (stats : rc_stats_t) : Int :=
  let ret := if dict_autofree < 0 then EXIT_FAILURE else EXIT_SUCCESS
  if stats.lost > 0 ∨ stats.failed > 0 then EXIT_FAILURE
  else ret

/-! ## The read callback -/

/-- The callback `client_read`, on the process state and the statistics.
`rcode` is the value `fr_bio_packet_read` returns; the request and reply it
yields are only logged.  Every path runs into `fr_assert(0)`. -/
def client_read (rcode : Int) (st : client_state) (stats : rc_stats_t) :
    client_state × rc_stats_t :=
  let st := if rcode < 0 then { st with assert_failed := true } else st
  let st := if rcode = 0 then { st with assert_failed := true } else st
  ({ st with assert_failed := true }, stats)

/-! ## Per-request data (`util.c`) -/

/-- One entry of the per-request data list: `request_data_t` without its
`next` link, which is the order of the list.  Pointers are addresses, `NULL`
is 0. -/
structure request_data_t where
  unique_ptr : Nat
  unique_int : Int
  opaque_ptr : Nat
  free_opaque_flag : Bool
deriving DecidableEq, Repr

/-- The part of `REQUEST` the data functions use: the list `request->data`. -/
structure REQUEST where
  data : List request_data_t := []
deriving DecidableEq, Repr

/-- The search-and-replace loop of `request_data_add` over the list: the
first entry with the key is overwritten in place (its `free_opaque` flag is
only ever raised); when no entry has the key a new one goes to the tail.
Freeing the old opaque pointer is a heap effect and leaves the list alone. -/
def request_data_add_list (unique_ptr : Nat) (unique_int : Int) (opaque_ptr : Nat)
    (free_opaque_flag : Bool) : List request_data_t → List request_data_t
  | [] =>
    [ { unique_ptr := unique_ptr, unique_int := unique_int, opaque_ptr := opaque_ptr
        free_opaque_flag := free_opaque_flag } ]
  | this :: next =>
    if this.unique_ptr = unique_ptr ∧ this.unique_int = unique_int then
      { unique_ptr := unique_ptr, unique_int := unique_int, opaque_ptr := opaque_ptr
        free_opaque_flag := if free_opaque_flag then free_opaque_flag else this.free_opaque_flag } :: next
    else this :: request_data_add_list unique_ptr unique_int opaque_ptr free_opaque_flag next

/-- The function `request_data_add`: the status returned and the request
left.  A `NULL` request is `none`, a `NULL` opaque pointer is 0. -/
def request_data_add (request : Option REQUEST) (unique_ptr : Nat) (unique_int : Int)
    (opaque_ptr : Nat) (free_opaque_flag : Bool) : Int × Option REQUEST :=
  match request with
  | none => (-1, none)
  | some req =>
    if opaque_ptr = 0 then (-1, some req)
    else
      (0, some { req with
        data := request_data_add_list unique_ptr unique_int opaque_ptr free_opaque_flag req.data })

/-- The function `request_data_reference` on the list: the opaque pointer of
the first entry with the key, `NULL` when there is none. -/
def request_data_reference_list (unique_ptr : Nat) (unique_int : Int) :
    List request_data_t → Nat
  | [] => 0
  | this :: next =>
    if this.unique_ptr = unique_ptr ∧ this.unique_int = unique_int then this.opaque_ptr
    else request_data_reference_list unique_ptr unique_int next

/-- The function `request_data_reference`. -/
def request_data_reference (request : REQUEST) (unique_ptr : Nat) (unique_int : Int) : Nat :=
  request_data_reference_list unique_ptr unique_int request.data

/-- The function `request_data_get` on the list: the opaque pointer of the
first entry with the key and the list without that entry; `NULL` and the list
as it was when there is none. -/
def request_data_get_list (unique_ptr : Nat) (unique_int : Int) :
    List request_data_t → Nat × List request_data_t
  | [] => (0, [])
  | this :: next =>
    if this.unique_ptr = unique_ptr ∧ this.unique_int = unique_int then
      (this.opaque_ptr, next)
    else
      ((request_data_get_list unique_ptr unique_int next).1,
       this :: (request_data_get_list unique_ptr unique_int next).2)

/-- The function `request_data_get`: the pointer returned and the request
left. -/
def request_data_get (request : Option REQUEST) (unique_ptr : Nat) (unique_int : Int) :
    Nat × Option REQUEST :=
  match request with
  | none => (0, none)
  | some req =>
    ((request_data_get_list unique_ptr unique_int req.data).1,
     some { req with data := (request_data_get_list unique_ptr unique_int req.data).2 })

/-! ## Packet codes and ports -/

/-- Modelled from the spec: the packet codes of `fr_radius_packet_code_t`,
declared outside the sources, with their values in the RADIUS header.  The
undefined code is 0, the value of a zeroed field. -/
def FR_RADIUS_CODE_UNDEFINED : Nat := 0

/-- Modelled from the spec: the code of Access-Request (see
`FR_RADIUS_CODE_UNDEFINED`). -/
def FR_RADIUS_CODE_ACCESS_REQUEST : Nat := 1

/-- Modelled from the spec: the code of Access-Accept. -/
def FR_RADIUS_CODE_ACCESS_ACCEPT : Nat := 2

/-- Modelled from the spec: the code of Access-Reject. -/
def FR_RADIUS_CODE_ACCESS_REJECT : Nat := 3

/-- Modelled from the spec: the code of Accounting-Request. -/
def FR_RADIUS_CODE_ACCOUNTING_REQUEST : Nat := 4

/-- Modelled from the spec: the code of Accounting-Response. -/
def FR_RADIUS_CODE_ACCOUNTING_RESPONSE : Nat := 5

/-- Modelled from the spec: the code of Access-Challenge. -/
def FR_RADIUS_CODE_ACCESS_CHALLENGE : Nat := 11

/-- Modelled from the spec: the code of Status-Server. -/
def FR_RADIUS_CODE_STATUS_SERVER : Nat := 12

/-- Modelled from the spec: the code of Disconnect-Request. -/
def FR_RADIUS_CODE_DISCONNECT_REQUEST : Nat := 40

/-- Modelled from the spec: the code of Disconnect-ACK. -/
def FR_RADIUS_CODE_DISCONNECT_ACK : Nat := 41

/-- Modelled from the spec: the code of Disconnect-NAK. -/
def FR_RADIUS_CODE_DISCONNECT_NAK : Nat := 42

/-- Modelled from the spec: the code of CoA-Request. -/
def FR_RADIUS_CODE_COA_REQUEST : Nat := 43

/-- Modelled from the spec: the code of CoA-ACK. -/
def FR_RADIUS_CODE_COA_ACK : Nat := 44

/-- Modelled from the spec: the code of CoA-NAK. -/
def FR_RADIUS_CODE_COA_NAK : Nat := 45

/-- What the port functions take from outside the sources: the ports
`getport` finds in the services database for "radius" and "radacct" (0 when
the service is unknown) and the port constants of the protocol header. -/
structure ports_t where
  getport_radius : Nat
  getport_radacct : Nat
  FR_AUTH_UDP_PORT : Nat
  FR_AUTH_UDP_PORT_ALT : Nat
  FR_ACCT_UDP_PORT : Nat
  FR_ACCT_UDP_PORT_ALT : Nat
  FR_POD_UDP_PORT : Nat
  FR_COA_UDP_PORT : Nat

/-- The function `radclient_get_port`: the port left in `*port`. -/
def radclient_get_port (ports : ports_t) (type : Nat) (port : Nat) : Nat :=
  if type = FR_RADIUS_CODE_ACCOUNTING_REQUEST then
    let port := if port = 0 then ports.getport_radacct else port
    if port = 0 then ports.FR_ACCT_UDP_PORT else port
  else if type = FR_RADIUS_CODE_DISCONNECT_REQUEST then
    if port = 0 then ports.FR_POD_UDP_PORT else port
  else if type = FR_RADIUS_CODE_COA_REQUEST then
    if port = 0 then ports.FR_COA_UDP_PORT else port
  else if type = FR_RADIUS_CODE_UNDEFINED then
    if port = 0 then 0 else port
  else
    let port := if port = 0 then ports.getport_radius else port
    if port = 0 then ports.FR_AUTH_UDP_PORT else port

/-- The function `radclient_get_code`: the request type a port stands for. -/
def radclient_get_code (ports : ports_t) (port : Nat) : Nat :=
  if port = 0 then FR_RADIUS_CODE_UNDEFINED
  else if port = ports.getport_radius ∨ port = ports.FR_AUTH_UDP_PORT ∨
      port = ports.FR_AUTH_UDP_PORT_ALT then
    FR_RADIUS_CODE_ACCESS_REQUEST
  else if port = ports.getport_radacct ∨ port = ports.FR_ACCT_UDP_PORT ∨
      port = ports.FR_ACCT_UDP_PORT_ALT then
    FR_RADIUS_CODE_ACCOUNTING_REQUEST
  else if port = ports.FR_COA_UDP_PORT then FR_RADIUS_CODE_COA_REQUEST
  else FR_RADIUS_CODE_UNDEFINED

/-! ## The loader: one file pair -/

/-- A packets or filters file as the loader sees it: the records that
successive reads return, `none` for a record that does not parse.  A blank
tail after the last record shows as a final empty record. -/
abbrev rc_file := List (Option (List fr_pair_t))

/-- Modelled from the spec: `fr_pair_list_afrom_file` of the pair library,
whose body is not among the sources.  One read yields the next record of the
description (an error when it does not parse), the flag `*pfiledone`, which
is set once the stream has nothing after that record, and the rest of the
stream.  A read at the end of the stream yields an empty record. -/
def fr_pair_list_afrom_file (fp : rc_file) : Option (List fr_pair_t) × Bool × rc_file :=
  match fp with
  | [] => (some [], true, [])
  | record :: rest => (record, rest.isEmpty, rest)

/-- One `-f` argument, as the loader finds it: the packets name, whether it is
"-" (standard input), the packets stream (`none` when it cannot be opened) and
the filters name, if any, with its stream (`none` when it cannot be opened). -/
structure rc_file_pair_t where
  name : List uint8_t := []
  packets_stdin : Bool := false
  packets : Option rc_file
  filters : Option (Option rc_file) := none

/-- The globals and library routines `radclient_init` reads: the default
packet code of the command line, the destination port of `fd_config`, the
ports, the packet as `fr_packet_alloc` returns it, the effect of
`fr_packet_pairs_to_packet` on the packet, and the list sort. -/
structure loader_t where
  packet_code : Nat
  dst_port : Nat
  ports : ports_t
  fr_packet_alloc : fr_packet_t
  fr_packet_pairs_to_packet : fr_packet_t → List fr_pair_t → fr_packet_t
  fr_pair_list_sort : List fr_pair_t → List fr_pair_t

/-- The filter of a request once its record has been read: a Packet-Type pair,
if the filter has one, sets `filter_code` and is deleted; the rest is sorted. -/
def load_filter (cfg : loader_t) (request : rc_request_t) (filter : List fr_pair_t) :
    rc_request_t :=
  let request := { request with filter := filter }
  let request :=
    match fr_pair_find_by_da request.filter attr_packet_type with
    | some vp =>
      { request with
        filter_code := (match request.filter[vp]? with
          | some p => p.vp_uint32
          | none => 0)
        filter := request.filter.eraseIdx vp }
    | none => request
  { request with filter := cfg.fr_pair_list_sort request.filter }

/-- The two switches of `radclient_init` that set the expected reply code
from the request code, or the request code from the expected reply code;
`none` is the jump to `error`. -/
def infer_codes (ports : ports_t) (request : rc_request_t) : Option rc_request_t :=
  if request.filter_code = FR_RADIUS_CODE_UNDEFINED then
    if request.packet.code = FR_RADIUS_CODE_ACCESS_REQUEST then
      some { request with filter_code := FR_RADIUS_CODE_ACCESS_ACCEPT }
    else if request.packet.code = FR_RADIUS_CODE_ACCOUNTING_REQUEST then
      some { request with filter_code := FR_RADIUS_CODE_ACCOUNTING_RESPONSE }
    else if request.packet.code = FR_RADIUS_CODE_COA_REQUEST then
      some { request with filter_code := FR_RADIUS_CODE_COA_ACK }
    else if request.packet.code = FR_RADIUS_CODE_DISCONNECT_REQUEST then
      some { request with filter_code := FR_RADIUS_CODE_DISCONNECT_ACK }
    else if request.packet.code = FR_RADIUS_CODE_STATUS_SERVER then
      if radclient_get_code ports request.packet.dst_port = FR_RADIUS_CODE_ACCESS_REQUEST then
        some { request with filter_code := FR_RADIUS_CODE_ACCESS_ACCEPT }
      else if radclient_get_code ports request.packet.dst_port =
          FR_RADIUS_CODE_ACCOUNTING_REQUEST then
        some { request with filter_code := FR_RADIUS_CODE_ACCOUNTING_RESPONSE }
      else some { request with filter_code := FR_RADIUS_CODE_UNDEFINED }
    else if request.packet.code = FR_RADIUS_CODE_UNDEFINED then none
    else none
  else if request.packet.code = FR_RADIUS_CODE_UNDEFINED then
    if request.filter_code = FR_RADIUS_CODE_ACCESS_ACCEPT ∨
        request.filter_code = FR_RADIUS_CODE_ACCESS_REJECT then
      some { request with
        packet := { request.packet with code := FR_RADIUS_CODE_ACCESS_REQUEST } }
    else if request.filter_code = FR_RADIUS_CODE_ACCOUNTING_RESPONSE then
      some { request with
        packet := { request.packet with code := FR_RADIUS_CODE_ACCOUNTING_REQUEST } }
    else if request.filter_code = FR_RADIUS_CODE_DISCONNECT_ACK ∨
        request.filter_code = FR_RADIUS_CODE_DISCONNECT_NAK then
      some { request with
        packet := { request.packet with code := FR_RADIUS_CODE_DISCONNECT_REQUEST } }
    else if request.filter_code = FR_RADIUS_CODE_COA_ACK ∨
        request.filter_code = FR_RADIUS_CODE_COA_NAK then
      some { request with
        packet := { request.packet with code := FR_RADIUS_CODE_COA_REQUEST } }
    else none
  else some request

/-- The destination port of a request whose codes are settled; `none` is the
jump to `error`. -/
def set_dst_port (ports : ports_t) (request : rc_request_t) : Option rc_request_t :=
  if request.packet.dst_port = 0 then
    let port := radclient_get_port ports request.packet.code request.packet.dst_port
    if port = 0 then none
    else some { request with packet := { request.packet with dst_port := port } }
  else some request

/-- The default of the command line: `if (request->packet->code ==
FR_RADIUS_CODE_UNDEFINED) request->packet->code = packet_code`. -/
def set_default_code (cfg : loader_t) (request : rc_request_t) : rc_request_t :=
  if request.packet.code = FR_RADIUS_CODE_UNDEFINED then
    { request with packet := { request.packet with code := cfg.packet_code } }
  else request

/-- The packet header filled in from the attributes:
`fr_packet_pairs_to_packet(request->packet, &request->request_pairs)`. -/
def set_packet_header (cfg : loader_t) (request : rc_request_t) : rc_request_t :=
  { request with
    packet := cfg.fr_packet_pairs_to_packet request.packet request.request_pairs }

/-- The default name: `if (!request->name) request->name =
request->files->packets`. -/
def set_default_name (name : List uint8_t) (request : rc_request_t) : rc_request_t :=
  match request.name with
  | none => { request with name := some name }
  | some _ => request

/-- The body of the loop of `radclient_init` after the records have been
read: special attributes, the default code, the packet header, the default
name, the codes and the port.  `name` is the name of the packets file. -/
def radclient_init_request (cfg : loader_t) (name : List uint8_t) (request : rc_request_t) :
    Option rc_request_t :=
  match infer_codes cfg.ports
      (set_default_name name (set_packet_header cfg (set_default_code cfg
        (special_attributes request)))) with
  | none => none
  | some request => set_dst_port cfg.ports request

/-- The filter read of the loop of `radclient_init`, for a request whose
packet record has been read: with no filters stream the request is kept as it
is; otherwise a filter record is read, and a parse error or an end of one
stream without the end of the other is the jump to `error` (`none`). -/
def read_filter (cfg : loader_t) (request : rc_request_t) (filters : Option rc_file)
    (packets_done : Bool) : Option (rc_request_t × Option rc_file) :=
  match filters with
  | none => some (request, none)
  | some fp =>
    match fr_pair_list_afrom_file fp with
    | (none, _, _) => none
    | (some filter, filters_done, rest) =>
      if filters_done && !packets_done then none
      else if !filters_done && packets_done then none
      else some (load_filter cfg request filter, some rest)

/-- The loop of `radclient_init`: the status returned and the request list
left.  `num` is the local counter, `list` is `rc_request_list`.  The loop is
bounded by `fuel`; `none` means the fuel ran out. -/
def radclient_init_loop (cfg : loader_t) (name : List uint8_t) :
    Nat → rc_file → Option rc_file → Nat → List rc_request_t →
      Option (Int × List rc_request_t)
  | 0, _, _, _, _ => none
  | fuel + 1, packets, filters, num, list =>
    let request : rc_request_t :=
      { packet := { cfg.fr_packet_alloc with dst_port := cfg.dst_port, id := -1 }
        num := num }
    match fr_pair_list_afrom_file packets with
    | (none, _, _) => some (-1, list)
    | (some pairs, packets_done, rest) =>
      if pairs.isEmpty then
        if packets_done then some (0, list)
        else radclient_init_loop cfg name fuel rest filters (num + 1) list
      else
        match read_filter cfg { request with request_pairs := pairs } filters packets_done with
        | none => some (-1, list)
        | some (request, filters) =>
          match radclient_init_request cfg name request with
          | none => some (-1, list)
          | some request =>
            if packets_done then some (0, list ++ [request])
            else radclient_init_loop cfg name fuel rest filters (num + 1) (list ++ [request])

/-- The function `radclient_init` for one file pair: the files are opened
(filters only when the packets do not come from standard input), then the loop
runs with the counter at 0. -/
def radclient_init (cfg : loader_t) (files : rc_file_pair_t)
    (list : List rc_request_t) : Option (Int × List rc_request_t) :=
  match files.packets with
  | none => some (-1, list)
  | some packets =>
    if files.packets_stdin then
      radclient_init_loop cfg files.name (packets.length + 1) packets none 0 list
    else
      match files.filters with
      | some none => some (-1, list)
      | some (some filters) =>
        radclient_init_loop cfg files.name (packets.length + 1) packets (some filters) 0 list
      | none => radclient_init_loop cfg files.name (packets.length + 1) packets none 0 list

/-- The part of `main` that builds the request list: one `radclient_init` call
per file pair, all on the same list; `none` when the process exits (a load
fails, or nothing was read). -/
def main_load_files (cfg : loader_t) :
    List rc_file_pair_t → List rc_request_t → Option (List rc_request_t)
  | [], list => some list
  | files :: rest, list =>
    match radclient_init cfg files list with
    | some (rcode, list) =>
      if rcode = 0 then main_load_files cfg rest list else none
    | none => none

/-- The walk over the filenames in `main`, with the check that something was
read.  With no `-f` argument the one file pair is standard input, whose stream
is `stdin`. -/
def main_load (cfg : loader_t) (stdin : rc_file)
    (filenames : List rc_file_pair_t) : Option (List rc_request_t) :=
  let loaded :=
    if filenames.isEmpty then
      main_load_files cfg [{ name := [45], packets_stdin := true, packets := some stdin }] []
    else main_load_files cfg filenames []
  match loaded with
  | none => none
  | some list => if list.isEmpty then none else some list

/-! ## Receiving one packet -/

/-- The library routines `recv_one_packet` calls: the cancel of the
transport, the reply decoder (the attribute list it leaves in
`request->reply_pairs`, `none` when it fails), the list sort and the filter
comparison. -/
structure recv_env_t where
  fr_radius_client_fd_bio_cancel : fr_packet_t → fr_packet_t
  fr_radius_decode_simple : List fr_pair_t → fr_packet_t → List uint8_t →
    Option (List fr_pair_t)
  fr_pair_list_sort : List fr_pair_t → List fr_pair_t
  fr_pair_validate : List fr_pair_t → List fr_pair_t → Bool

/-- The counter switch of `recv_one_packet` on the reply code. -/
def count_reply_code (stats : rc_stats_t) (code : Nat) : rc_stats_t :=
  if code = FR_RADIUS_CODE_ACCESS_ACCEPT ∨ code = FR_RADIUS_CODE_ACCOUNTING_RESPONSE ∨
      code = FR_RADIUS_CODE_COA_ACK ∨ code = FR_RADIUS_CODE_DISCONNECT_ACK then
    { stats with accepted := stats.accepted + 1 }
  else if code = FR_RADIUS_CODE_ACCESS_CHALLENGE then stats
  else { stats with rejected := stats.rejected + 1 }

/-- The body of `recv_one_packet` (the text between `#if 0` and `#endif`)
from `deallocate_id` on, for the request `request` the reply `reply` has been
correlated to: the statistics and the request it leaves. -/
def recv_one_packet (renv : recv_env_t) (resend_count : Nat) (stats : rc_stats_t)
    (request : rc_request_t) (reply : fr_packet_t) : rc_stats_t × rc_request_t :=
  let request := deallocate_id renv.fr_radius_client_fd_bio_cancel request
  let request := { request with reply := some reply }
  match renv.fr_radius_decode_simple request.reply_pairs reply request.packet.vector with
  | none => ({ stats with lost := stats.lost + 1 }, { request with reply := none })
  | some reply_pairs =>
    let request := { request with reply_pairs := reply_pairs }
    let stats := count_reply_code stats reply.code
    let verdict : rc_stats_t × rc_request_t :=
      if request.filter_code ≠ FR_RADIUS_CODE_UNDEFINED ∧ reply.code ≠ request.filter_code then
        ({ stats with failed := stats.failed + 1 }, request)
      else if request.filter.isEmpty then
        ({ stats with passed := stats.passed + 1 }, request)
      else
        let request :=
          { request with reply_pairs := renv.fr_pair_list_sort request.reply_pairs }
        if renv.fr_pair_validate request.filter request.reply_pairs then
          ({ stats with passed := stats.passed + 1 }, request)
        else ({ stats with failed := stats.failed + 1 }, request)
    let request :=
      if verdict.2.resend = resend_count then { verdict.2 with done := true } else verdict.2
    (verdict.1, { request with reply := none })

/-- The statistics after `recv_one_packet` has run on each reply of a
sequence of correlated replies, in arrival order. -/
def recv_packets (renv : recv_env_t) (resend_count : Nat) :
    rc_stats_t → List (rc_request_t × fr_packet_t) → rc_stats_t
  | stats, [] => stats
  | stats, (request, reply) :: rest =>
    recv_packets renv resend_count (recv_one_packet renv resend_count stats request reply).1 rest

/-! ## Per-request data: a history of calls -/

/-- The request left by a sequence of `request_data_add` calls, each given as
(unique_ptr, unique_int, opaque, free_opaque), made in order. -/
def request_data_adds (request : Option REQUEST) :
    List (Nat × Int × Nat × Bool) → Option REQUEST
  | [] => request
  | call :: rest =>
    request_data_adds
      (request_data_add request call.1 call.2.1 call.2.2.1 call.2.2.2).2 rest

/-! ## Packets per second (`util.c`) -/

/-- The macro `USEC`. -/
def USEC : Int := 1000000

/-- What `rad_pps` leaves: the value returned and the three locations it
updates. -/
structure rad_pps_result where
  pps : Nat
  past : Nat
  present : Nat
  then_sec : Int
deriving DecidableEq, Repr

/-- The function `rad_pps`.  The counts and `pps` are `uint32_t`: every
assignment to `pps` is reduced modulo 2^32.  `now_sec` and `now_usec` are
`now->tv_sec` and `now->tv_usec`. -/
def rad_pps (past present : Nat) (then_sec now_sec now_usec : Int) : rad_pps_result :=
  let rolled := decide (then_sec ≠ now_sec)
  let then_sec := if rolled then now_sec else then_sec
  let past := if rolled then present else past
  let present := if rolled then 0 else present
  let pps := ((USEC - now_usec) % 2 ^ 32).toNat
  let pps := (pps / 1000) % 2 ^ 32
  let pps := (pps * past) % 2 ^ 32
  let pps := (pps / 1000) % 2 ^ 32
  let pps := (pps + present) % 2 ^ 32
  { pps := pps, past := past, present := present, then_sec := then_sec }

/-! ## The assertions of `send_one_packet` -/

/-- The four assertions at the head of `send_one_packet`: the request is not
done, has no reply, has no identifier and has no encoded data. -/
def send_one_packet_asserts (request : rc_request_t) : Prop :=
  request.done = false ∧ request.reply = none ∧ request.packet.id < 0 ∧
    request.packet.data = none

/-! ## Strings (`util.c`)

A `char const *` is the list of the octets of memory from the pointer on: for
a C string its characters, the NUL, and whatever accessible memory follows.
A read past the end of the list is a read outside accessible memory; a
function that makes one has no defined result, which is `none`. -/

/-- The octets of a string literal. -/
def str (s : String) : List uint8_t := s.toList.map (fun c => Fin.ofNat c.toNat)

/-- The position of the first occurrence of `c` in the characters `s` of a C
string (its NUL left out): `strchr(s, c)` for `c` other than NUL. -/
def strchr : List uint8_t → uint8_t → Option Nat
  | [], _ => none
  | x :: rest, c => if x = c then some 0 else (strchr rest c).map Nat.succ

/-- The test `isdigit` on an octet. -/
def isdigit (c : uint8_t) : Bool := decide (48 ≤ c.val ∧ c.val ≤ 57)

/-- The loop of `rad_copy_string_bare` with what follows it.  `out` holds the
octets written so far; the result is the value returned and the octets
written. -/
def rad_copy_string_bare_loop (quote : uint8_t) :
    List uint8_t → List uint8_t → Option (Int × List uint8_t)
  | [], _ => none
  | c :: rest, out =>
    if c ≠ 0 ∧ c ≠ quote then
      if c = 92 then
        match rest with
        | [] => none
        | d :: rest2 => rad_copy_string_bare_loop quote rest2 (out ++ [c, d])
      else rad_copy_string_bare_loop quote rest (out ++ [c])
    else if c ≠ quote then some (-1, out)
    else some (out.length, out ++ [0])

/-- The function `rad_copy_string_bare`: the value returned and the octets
written to `to`. -/
def rad_copy_string_bare (src : List uint8_t) : Option (Int × List uint8_t) :=
  match src with
  | [] => none
  | quote :: rest => rad_copy_string_bare_loop quote rest []

/-- The end of `rad_copy_string`, at the character `e` that stopped its loop. -/
def rad_copy_string_finish (quote e : uint8_t) (out : List uint8_t) :
    Option (Int × List uint8_t) :=
  if e ≠ quote then some (-1, out)
  else some (out.length + 1, out ++ [quote, 0])

/-- The `do ... while` loop of `rad_copy_string` with what follows it. -/
def rad_copy_string_loop (quote : uint8_t) :
    List uint8_t → List uint8_t → Option (Int × List uint8_t)
  | [], _ => none
  | c :: rest, out =>
    if c = 92 then
      match rest with
      | [] => none
      | d :: rest2 =>
        match rest2 with
        | [] => none
        | e :: _ =>
          if e ≠ 0 ∧ e ≠ quote then rad_copy_string_loop quote rest2 (out ++ [c, d])
          else rad_copy_string_finish quote e (out ++ [c, d])
    else
      match rest with
      | [] => none
      | e :: _ =>
        if e ≠ 0 ∧ e ≠ quote then rad_copy_string_loop quote rest (out ++ [c])
        else rad_copy_string_finish quote e (out ++ [c])

/-- The function `rad_copy_string`: the value returned and the octets written
to `to`. -/
def rad_copy_string (src : List uint8_t) : Option (Int × List uint8_t) :=
  match src with
  | [] => none
  | quote :: _ => rad_copy_string_loop quote src []

/-- The `while` loop of `rad_copy_variable` with the `return -1` after it.
`out` holds the octets written to `to` so far, so `length` is its length.  The nested
call for `%{` is the same loop started on the character after the `%`.  The
recursion is bounded by `fuel`; `none` is also the result when it runs out. -/
def rad_copy_variable_loop :
    Nat → List uint8_t → List uint8_t → Option (Int × List uint8_t)
  | 0, _, _ => none
  | _ + 1, [], _ => none
  | fuel + 1, c :: rest, out =>
    if c = 0 then some (-1, out)
    else if c = 34 ∨ c = 39 then
      match rad_copy_string (c :: rest) with
      | none => none
      | some (sublen, written) =>
        if sublen < 0 then some (sublen, out ++ written)
        else rad_copy_variable_loop fuel ((c :: rest).drop sublen.toNat)
          (out ++ written.take sublen.toNat)
    else if c = 125 then some (out.length + 1, out ++ [c, 0])
    else if c = 92 then
      match rest with
      | [] => none
      | d :: rest2 => rad_copy_variable_loop fuel rest2 (out ++ [c, d])
    else if c = 37 ∧ rest.head? = some 123 then
      match rest with
      | [] => none
      | b :: rest2 =>
        match rad_copy_variable_loop fuel rest2 [b] with
        | none => none
        | some (sublen, written) =>
          if sublen < 0 then some (sublen, out ++ [c] ++ written)
          else rad_copy_variable_loop fuel (rest.drop sublen.toNat)
            (out ++ [c] ++ written.take sublen.toNat)
    else rad_copy_variable_loop fuel rest (out ++ [c])

/-- The function `rad_copy_variable`: the value returned and the octets
written to `to`. -/
def rad_copy_variable (src : List uint8_t) : Option (Int × List uint8_t) :=
  match src with
  | [] => none
  | c :: rest => rad_copy_variable_loop (src.length + 1) rest [c]

/-! ## List names (`util.c`) -/

/-- The values of `pair_lists_t` the table `pair_lists` uses. -/
inductive pair_lists_t where
  | PAIR_LIST_UNKNOWN
  | PAIR_LIST_REQUEST
  | PAIR_LIST_REPLY
  | PAIR_LIST_CONTROL
  | PAIR_LIST_PROXY_REQUEST
  | PAIR_LIST_PROXY_REPLY
  | PAIR_LIST_COA
  | PAIR_LIST_COA_REPLY
  | PAIR_LIST_DM
  | PAIR_LIST_DM_REPLY
deriving DecidableEq, Repr

/-- The table `pair_lists`, for a build with or without `WITH_PROXY` and
`WITH_COA`. -/
def pair_lists (with_proxy with_coa : Bool) : List (List uint8_t × pair_lists_t) :=
  [ (str "request", pair_lists_t.PAIR_LIST_REQUEST),
    (str "reply", pair_lists_t.PAIR_LIST_REPLY),
    (str "control", pair_lists_t.PAIR_LIST_CONTROL),
    (str "config", pair_lists_t.PAIR_LIST_CONTROL) ] ++
  (if with_proxy then
    [ (str "proxy-request", pair_lists_t.PAIR_LIST_PROXY_REQUEST),
      (str "proxy-reply", pair_lists_t.PAIR_LIST_PROXY_REPLY) ]
   else []) ++
  (if with_coa then
    [ (str "coa", pair_lists_t.PAIR_LIST_COA),
      (str "coa-reply", pair_lists_t.PAIR_LIST_COA_REPLY),
      (str "disconnect", pair_lists_t.PAIR_LIST_DM),
      (str "disconnect-reply", pair_lists_t.PAIR_LIST_DM_REPLY) ]
   else [])

/-- The tag test of `radius_list_name` on the characters after the ':': they
start with a digit, and the digits run to the end of the string or to '['. -/
def tag_follows (after : List uint8_t) : Bool :=
  match after with
  | [] => false
  | first :: _ =>
    if isdigit first then
      match after.dropWhile isdigit with
      | [] => true
      | d :: _ => decide (d = 91)
    else false

/-- The function `radius_list_name` on the characters of `*name`: the list
returned and the characters `*name` points at afterwards.  The table lookup
`fr_substr2int(pair_lists, p, PAIR_LIST_UNKNOWN, q - p)` is a library routine
taken as a parameter; it is handed the table, the `q - p` characters it may
look at, and the default. -/
def radius_list_name
    (fr_substr2int : List (List uint8_t × pair_lists_t) → List uint8_t → pair_lists_t →
      pair_lists_t)
    (with_proxy with_coa : Bool) (name : List uint8_t) (default_list : pair_lists_t) :
    pair_lists_t × List uint8_t :=
  match strchr name 58 with
  | some q =>
    if tag_follows (name.drop (q + 1)) then (default_list, name)
    else
      let output := fr_substr2int (pair_lists with_proxy with_coa) (name.take q)
        pair_lists_t.PAIR_LIST_UNKNOWN
      if output ≠ pair_lists_t.PAIR_LIST_UNKNOWN then (output, name.drop (q + 1))
      else (pair_lists_t.PAIR_LIST_UNKNOWN, name)
  | none =>
    let output := fr_substr2int (pair_lists with_proxy with_coa) name
      pair_lists_t.PAIR_LIST_UNKNOWN
    if output ≠ pair_lists_t.PAIR_LIST_UNKNOWN then (output, [])
    else (default_list, name)

/-! ## Splitting a command line (`util.c`) -/

/-- Write `src` into the buffer `buf` at offset `off`; a write that does not
fit the buffer is a write outside it, `none`. -/
def poke (buf : List uint8_t) (off : Nat) (src : List uint8_t) : Option (List uint8_t) :=
  if off + src.length ≤ buf.length then some (write_at buf off src) else none

/-- The call `strlcpy(dst, src, size)` on the characters `src` of a C string:
the buffer afterwards. -/
def strlcpy (dst src : List uint8_t) (size : Nat) : List uint8_t :=
  if size = 0 then dst else write_at dst 0 (src.take (size - 1) ++ [0])

/-- The inner loop of `rad_expand_xlat`, which copies one word.  `src` is the
memory at `from`, `off` the offset of `to` in `argv_buf`.  The result is
`none` when the behaviour is undefined (or `fuel` runs out), `some none` when
the function returns -1, and else the three after the loop. -/
def rad_expand_xlat_word (argv_buflen : Nat) :
    Nat → List uint8_t → Nat → List uint8_t →
      Option (Option (List uint8_t × Nat × List uint8_t))
  | 0, _, _, _ => none
  | _ + 1, [], _, _ => none
  | fuel + 1, c :: rest, off, buf =>
    if ¬ (c ≠ 0 ∧ c ≠ 32 ∧ c ≠ 9) then some (some (c :: rest, off, buf))
    else if off + 1 ≥ argv_buflen then some none
    else if c = 34 ∨ c = 39 then
      match rad_copy_string_bare (c :: rest) with
      | none => none
      | some (length, written) =>
        if length < 0 then some none
        else
          match poke buf off written with
          | none => none
          | some buf2 =>
            rad_expand_xlat_word argv_buflen fuel ((c :: rest).drop (length.toNat + 2))
              (off + length.toNat) buf2
    else if c = 37 then
      match rest with
      | [] => none
      | d :: _ =>
        if d = 123 then
          match poke buf off [c] with
          | none => none
          | some buf1 =>
            match rad_copy_variable rest with
            | none => none
            | some (length, written) =>
              if length < 0 then some none
              else
                match poke buf1 (off + 1) written with
                | none => none
                | some buf2 =>
                  rad_expand_xlat_word argv_buflen fuel (rest.drop length.toNat)
                    (off + 1 + length.toNat) buf2
        else
          match poke buf off [c] with
          | none => none
          | some buf1 => rad_expand_xlat_word argv_buflen fuel rest (off + 1) buf1
    else if c = 92 then
      match rest with
      | [] => none
      | d :: rest2 =>
        if d = 32 then
          match poke buf off [d] with
          | none => none
          | some buf1 => rad_expand_xlat_word argv_buflen fuel rest2 (off + 1) buf1
        else
          match poke buf off [c] with
          | none => none
          | some buf1 => rad_expand_xlat_word argv_buflen fuel rest (off + 1) buf1
    else
      match poke buf off [c] with
      | none => none
      | some buf1 => rad_expand_xlat_word argv_buflen fuel rest (off + 1) buf1

/-- The first loop of `rad_expand_xlat`, which splits the command into words.
`argv` holds the offsets in `argv_buf` written to `argv[0..argc)`, so `argc`
is its length; the array `argv` is taken to have room for them.  The result
is `none` when the behaviour is undefined (or `fuel` runs out), `some none`
when the function returns -1, and else `to`, `argv_buf` and `argv` after the
loop. -/
def rad_expand_xlat_split (max_argc : Int) (argv_buflen : Nat) :
    Nat → List uint8_t → Nat → List uint8_t → List Nat →
      Option (Option (Nat × List uint8_t × List Nat))
  | 0, _, _, _, _ => none
  | _ + 1, [], _, _, _ => none
  | fuel + 1, c :: rest, off, buf, argv =>
    if c = 0 then some (some (off, buf, argv))
    else if c = 32 ∨ c = 9 then rad_expand_xlat_split max_argc argv_buflen fuel rest off buf argv
    else
      let argv := argv ++ [off]
      if (argv.length : Int) ≥ max_argc - 1 then some (some (off, buf, argv))
      else
        match rad_expand_xlat_word argv_buflen (fuel + 1) (c :: rest) off buf with
        | none => none
        | some none => some none
        | some (some (src2, off2, buf2)) =>
          match poke buf2 off2 [0] with
          | none => none
          | some buf3 =>
            rad_expand_xlat_split max_argc argv_buflen fuel src2 (off2 + 1) buf3 argv

/-- The second loop of `rad_expand_xlat`, over the entries `i, i + 1, ...` of
`argv`, `todo` of them.  The routine `radius_xlat` of the server is taken as
a parameter: from `outlen`, the request and the format it gives the value it
returns and the octets it writes to `out`. -/
def rad_expand_xlat_expand
    (radius_xlat : Int → REQUEST → List uint8_t → Int × List uint8_t)
    (request : Option REQUEST) (can_fail : Bool) :
    Nat → Nat → Nat → Int → List uint8_t → List Nat →
      Option (Option (List uint8_t × List Nat))
  | 0, _, _, _, buf, argv => some (some (buf, argv))
  | todo + 1, i, off, left, buf, argv =>
    match argv[i]? with
    | none => none
    | some arg =>
      if strchr (c_str (buf.drop arg)) 37 = none then
        rad_expand_xlat_expand radius_xlat request can_fail todo (i + 1) off left buf argv
      else
        match request with
        | none =>
          rad_expand_xlat_expand radius_xlat request can_fail todo (i + 1) off left buf argv
        | some r =>
          let result := radius_xlat (left - 1) r (c_str (buf.drop arg))
          match poke buf off result.2 with
          | none => none
          | some buf1 =>
            if result.1 ≤ 0 ∧ can_fail = false then some none
            else
              let sublen := if result.1 ≤ 0 then 0 else result.1
              match poke buf1 (off + sublen.toNat) [0] with
              | none => none
              | some buf2 =>
                if left - sublen - 1 ≤ 0 then some none
                else
                  rad_expand_xlat_expand radius_xlat request can_fail todo (i + 1)
                    (off + sublen.toNat + 1) (left - sublen - 1) buf2 (argv.set i off)

/-- The function `rad_expand_xlat` on the characters `cmd` of the command and
the buffer `argv_buf`, whose length is `argv_buflen`.  The result is `none`
when the behaviour is undefined, `some none` when the function returns -1,
and else the value returned, `argv_buf` afterwards, and the entries of `argv`
as offsets in `argv_buf`, `none` for `NULL`.  The arithmetic of `size_t` is
taken at 64 bits. -/
def rad_expand_xlat
    (radius_xlat : Int → REQUEST → List uint8_t → Int × List uint8_t)
    (request : Option REQUEST) (cmd : List uint8_t) (max_argc : Int) (can_fail : Bool)
    (argv_buf : List uint8_t) : Option (Option (Int × List uint8_t × List (Option Nat))) :=
  let argv_buflen := argv_buf.length
  if cmd.length > (argv_buflen + 2 ^ 64 - 1) % 2 ^ 64 then some none
  else
    match cmd.getLast? with
    | none => none
    | some last =>
      if last = 92 then some none
      else
        let buf := strlcpy argv_buf cmd argv_buflen
        match rad_expand_xlat_split max_argc argv_buflen (cmd.length + 2) (cmd ++ [0]) 0 buf
            [] with
        | none => none
        | some none => some none
        | some (some (off, buf1, argv)) =>
          if (argv.length : Int) ≤ 0 then some none
          else
            match rad_expand_xlat_expand radius_xlat request can_fail argv.length 0 off
                ((argv_buflen : Int) - off) buf1 argv with
            | none => none
            | some none => some none
            | some (some (buf2, argv2)) =>
              some (some ((argv.length : Int), buf2, argv2.map some ++ [none]))

/-- The strings the entries of `argv` point at in `argv_buf`. -/
def argv_strings (argv_buf : List uint8_t) (argv : List (Option Nat)) :
    List (Option (List uint8_t)) :=
  argv.map (Option.map (fun off => c_str (argv_buf.drop off)))

/-! ## The CSV module (`rlm_csv.c`)

A `char *` into a line or into the header is the list of the characters of
the C string at the pointer, its NUL left out.  A read or a write past the NUL,
or outside an array, has no defined result, which is `none`. -/

/-- The fields of `rlm_csv_t` the header mark-up and `file2csv` use.  The
strings are their characters; the arrays `field_names` and `field_offsets` are
lists of `num_fields` entries. -/
structure rlm_csv_t where
  delimiter : List uint8_t := []
  header : List uint8_t := []
  key : List uint8_t := []
  num_fields : Int := 0
  used_fields : Int := 0
  key_field : Int := 0
  field_names : List (List uint8_t) := []
  field_offsets : List Int := []
deriving DecidableEq, Repr

/-- The fields `key` and `data` of `rlm_csv_entry_t`; `none` is `NULL`. -/
structure rlm_csv_entry_t where
  key : Option (List uint8_t) := none
  data : List (Option (List uint8_t)) := []
deriving DecidableEq, Repr

/-- The message `file2csv` logs when it returns `NULL`. -/
inductive csv_error where
  | malformed_entry
  | too_many_fields
  | too_few_fields
  | duplicate_entry
deriving DecidableEq, Repr

/-- What `file2csv` returns: `NULL` after one of its messages, or the entry. -/
inductive file2csv_result where
  | failed (error : csv_error)
  | entry (e : rlm_csv_entry_t)
deriving DecidableEq, Repr

/-- The test `c < ' '` on a `char`, which is taken as signed. -/
def below_space (c : uint8_t) : Bool := decide (c.val < 32 ∨ 128 ≤ c.val)

/-- The loop of `buf2entry` for a field that starts with a double quote, with
the `return false` after it.  `p` is the characters from `p` on, `pos` the
offset of `p` from `buf`, and `written` the characters written through `q` so
far.  The result is the value returned, the string left at `buf`, and `*out`
as an offset from `buf` (`none` for `NULL`). -/
def buf2entry_quoted (delimiter : uint8_t) :
    List uint8_t → Nat → List uint8_t → Bool × List uint8_t × Option Nat
  | [], _, written => (false, written, none)
  | [c], _, written =>
    if c = 34 then (true, written, none)
    else (false, written ++ [c], none)
  | c :: d :: rest, pos, written =>
    if c = 34 ∧ d = 34 then buf2entry_quoted delimiter rest (pos + 2) (written ++ [34])
    else if c = 34 ∧ below_space d then (true, written, none)
    else if c = 34 ∧ d = delimiter then (true, written, some (pos + 1))
    else buf2entry_quoted delimiter (d :: rest) (pos + 1) (written ++ [c])

/-- The function `buf2entry`: the value returned, the string at `buf`
afterwards, and `*out` as an offset from `buf` (`none` for `NULL`). -/
def buf2entry (inst : rlm_csv_t) (buf : List uint8_t) :
    Option (Bool × List uint8_t × Option Nat) :=
  match buf with
  | [] => none
  | c :: rest =>
    if c ≠ 34 then
      match strchr rest (inst.delimiter.headD 0) with
      | some k => some (true, buf, some (k + 1))
      | none => some (true, buf, none)
    else some (buf2entry_quoted (inst.delimiter.headD 0) rest 1 [])

/-- The number of entries of `data` the allocation of `file2csv` has room
for: it asks for `sizeof(*e) + used_fields + sizeof(e->data[0])` octets, of
which `sizeof(*e)` are the two pointers before `data`.  Pointers are taken at
8 octets. -/
def data_room (inst : rlm_csv_t) : Nat := (inst.used_fields.toNat + 8) / 8

/-- The `for` loop of `file2csv` with what follows it.  `p` is the characters
from `p` on (`none` for `NULL`), and `field` the string at `p` once the
delimiter at `q` is overwritten with NUL.  The routine `rbtree_insert` of the server is
taken as a parameter: whether it inserts the entry. -/
def file2csv_loop (rbtree_insert : rlm_csv_entry_t → Bool) (inst : rlm_csv_t) :
    Nat → Option (List uint8_t) → Int → rlm_csv_entry_t → Option file2csv_result
  | 0, _, _, _ => none
  | _ + 1, none, i, e =>
    if i < inst.num_fields then some (file2csv_result.failed csv_error.too_few_fields)
    else if rbtree_insert e then some (file2csv_result.entry e)
    else some (file2csv_result.failed csv_error.duplicate_entry)
  | fuel + 1, some p, i, e =>
    match buf2entry inst p with
    | none => none
    | some (false, _, _) => some (file2csv_result.failed csv_error.malformed_entry)
    | some (true, left, out) =>
      let field := match out with
        | some q => if q < left.length then left.take q else left
        | none => left
      let q := out.map (fun q => p.drop (q + 1))
      if i ≥ inst.num_fields then some (file2csv_result.failed csv_error.too_many_fields)
      else if i = inst.key_field then
        file2csv_loop rbtree_insert inst fuel q (i + 1) { e with key := some field }
      else
        match inst.field_offsets[i.toNat]? with
        | none => none
        | some offset =>
          if offset < 0 then file2csv_loop rbtree_insert inst fuel q (i + 1) e
          else if offset.toNat < e.data.length then
            file2csv_loop rbtree_insert inst fuel q (i + 1)
              { e with data := e.data.set offset.toNat (some field) }
          else none

/-- The function `file2csv` on the characters of `buffer`: `none` when the
behaviour is undefined. -/
def file2csv (rbtree_insert : rlm_csv_entry_t → Bool) (inst : rlm_csv_t)
    (buffer : List uint8_t) : Option file2csv_result :=
  file2csv_loop rbtree_insert inst (buffer.length + 2) (some buffer) 0
    { key := none, data := List.replicate (data_room inst) none }

/-- The loop of `mod_instantiate` that counts the fields of the header: the
number of times it adds one to `num_fields`.  `p` is the characters from `p`
on. -/
def count_fields (delimiter : uint8_t) : Nat → List uint8_t → Option Nat
  | 0, _ => none
  | _ + 1, [] => none
  | fuel + 1, _ :: rest =>
    match strchr rest delimiter with
    | none => some 1
    | some k => (count_fields delimiter fuel (rest.drop k)).map Nat.succ

/-- What the mark-up does with a field name it takes as not empty. -/
def mark_field (inst : rlm_csv_t) (i : Nat) (name : List uint8_t) : rlm_csv_t :=
  if name = inst.key then { inst with key_field := i }
  else
    { inst with
      field_offsets := inst.field_offsets.set i inst.used_fields,
      used_fields := inst.used_fields + 1 }

/-- The loop of `mod_instantiate` that marks up the field names.  `p` is the
characters from `p` on in the copy of the header. -/
def mark_up (delimiter : uint8_t) : Nat → List uint8_t → Nat → rlm_csv_t → Option rlm_csv_t
  | 0, _, _, _ => none
  | fuel + 1, p, i, inst =>
    if i < inst.field_names.length then
      match strchr p delimiter with
      | some q =>
        let inst1 := if q > 1 then mark_field inst i (p.take q) else inst
        mark_up delimiter fuel (p.drop (q + 1)) (i + 1)
          { inst1 with field_names := inst1.field_names.set i (p.take q) }
      | none =>
        let inst1 := if p ≠ [] then mark_field inst i p else inst
        some { inst1 with field_names := inst1.field_names.set i p }
    else none

/-- The function `mod_instantiate` up to the test of `key_field`: the value
it returns there, or 0 when it goes on to read the file, and the instance.
The allocations are taken to succeed. -/
def mod_instantiate_header (inst : rlm_csv_t) : Option (Int × rlm_csv_t) :=
  match inst.delimiter with
  | [] => none
  | delimiter :: more =>
    if more ≠ [] then some (-1, inst)
    else
      match count_fields delimiter (inst.header.length + 1) inst.header with
      | none => none
      | some count =>
        let inst := { inst with num_fields := inst.num_fields + count }
        if inst.num_fields < 2 then some (-1, inst)
        else
          let inst := { inst with
            field_names := List.replicate inst.num_fields.toNat [],
            field_offsets := List.replicate inst.num_fields.toNat (-1),
            key_field := -1 }
          match mark_up delimiter (inst.header.length + 1) inst.header 0 inst with
          | none => none
          | some inst => if inst.key_field < 0 then some (-1, inst) else some (0, inst)

/-! ## Sample requests -/

/-- A CHAP-Password value that looks encoded: 17 octets, the first a control
octet. -/
def encoded_chap_value : List uint8_t := 1 :: List.replicate 16 0xAA

/-- A pair holding `encoded_chap_value`. -/
def encoded_chap_pair : fr_pair_t :=
  { da := attr_chap_password, vp_octets := encoded_chap_value }

/-- A request as read from the input: a user name and an encoded CHAP-Password. -/
def encoded_chap_request : rc_request_t :=
  { request_pairs := [ { da := attr_user_name, vp_octets := [98, 111, 98] }, encoded_chap_pair ] }

/-- A request as read from the input: a cleartext password next to an encoded
CHAP-Password. -/
def mixed_request : rc_request_t :=
  { request_pairs := [ { da := attr_cleartext_password, vp_octets := [112, 119] },
                       encoded_chap_pair ] }

/-- A request as read from the input: a cleartext CHAP-Password, then a
CHAP-Challenge of 8 octets, then a CHAP-Challenge of 16 octets. -/
def two_challenge_input : rc_request_t :=
  { request_pairs := [ { da := attr_chap_password, vp_octets := [120] },
                       { da := attr_chap_challenge, vp_octets := List.replicate 8 1 },
                       { da := attr_chap_challenge, vp_octets := List.replicate 16 2 } ] }

/-- A request as read from the input: a cleartext CHAP-Password and one
CHAP-Challenge of 16 octets. -/
def one_challenge_input : rc_request_t :=
  { request_pairs := [ { da := attr_chap_password, vp_octets := [120] },
                       { da := attr_chap_challenge, vp_octets := List.replicate 16 2 } ] }

/-- A request as read from the input: a user name and an MS-CHAP password
that is not valid UTF-8 (the single octet 0xff). -/
def mschap_input : rc_request_t :=
  { request_pairs := [ { da := attr_user_name, vp_octets := [98, 111, 98] },
                       { da := attr_ms_chap_password, vp_octets := [0xff] } ] }

/-- Two loaded requests queued with the resend count set to 2 (`-c 2`). -/
def resend_twice_state : client_state :=
  { rc_request_list := [special_attributes encoded_chap_request,
                        special_attributes { mixed_request with num := 1 }]
    resend_count := 2 }

/-- Stand-ins for the library routines, for evaluating the client on concrete
requests: a constant digest, an NT hash that always reports an error, a
constant DES response, a transport that accepts every packet. -/
def sample_env : env_t :=
  { md5 := fun _ => ⟨List.replicate 16 0, rfl⟩
    mschap_nt_password_hash := fun _ => none
    smbdes_mschap := fun _ _ => ⟨List.replicate 24 0, rfl⟩
    fr_bio_packet_write := fun packet _ => (0, packet) }

/-- The two queued requests once both have been sent: the cursor is on the
last one. -/
def exhausted_state : client_state :=
  { resend_twice_state with current := some 1 }

/-- A request in flight: identifier 7, encoded data and a stale reply. -/
def in_flight_request : rc_request_t :=
  { encoded_chap_request with
    packet := { id := 7, data := some [1, 7, 0, 20] }
    reply := some { code := 2, id := 7 } }

/-- Ports for evaluating the loader: an empty services database and common
values for the port constants. -/
def sample_ports : ports_t :=
  { getport_radius := 0
    getport_radacct := 0
    FR_AUTH_UDP_PORT := 1812
    FR_AUTH_UDP_PORT_ALT := 1645
    FR_ACCT_UDP_PORT := 1813
    FR_ACCT_UDP_PORT_ALT := 1646
    FR_POD_UDP_PORT := 3799
    FR_COA_UDP_PORT := 3799 }

/-- Globals for evaluating the loader: `auth` on the command line, port 1812,
a packet header that the attributes do not change, a sort that keeps the
order. -/
def sample_loader : loader_t :=
  { packet_code := FR_RADIUS_CODE_ACCESS_REQUEST
    dst_port := 1812
    ports := sample_ports
    fr_packet_alloc := {}
    fr_packet_pairs_to_packet := fun packet _ => packet
    fr_pair_list_sort := fun list => list }

/-- A packet record: a user name. -/
def user_record : List fr_pair_t := [ { da := attr_user_name, vp_octets := [98, 111, 98] } ]

/-- A filter record: a reply message. -/
def reply_record : List fr_pair_t := [ { da := .other 18 .string, vp_octets := [111, 107] } ]

/-- A file pair with one packet record and no filters. -/
def one_record_files : rc_file_pair_t := { packets := some [some user_record] }

/-- A file pair whose packets file holds one record and a blank tail, and
whose filters file holds three records. -/
def blank_tail_files : rc_file_pair_t :=
  { packets := some [some user_record, some []]
    filters := some (some [some reply_record, some reply_record, some reply_record]) }

/-- The file pair `blank_tail_files` without the blank tail. -/
def no_tail_files : rc_file_pair_t :=
  { packets := some [some user_record]
    filters := some (some [some reply_record, some reply_record, some reply_record]) }

/-- A file pair with two packet records and the two filter records for them. -/
def two_record_files : rc_file_pair_t :=
  { packets := some [some user_record, some user_record]
    filters := some (some [some reply_record, some reply_record]) }

/-- The requests the loader queues for `two_record_files`. -/
def two_record_requests : List rc_request_t :=
  match radclient_init sample_loader two_record_files [] with
  | some (_, list) => list
  | none => []

/-- A filter record that gives Packet-Type the value 0. -/
def zero_type_filter : List fr_pair_t := [ { da := attr_packet_type, vp_uint32 := 0 } ]

/-- A file pair with one packet record and a filter record that gives
Packet-Type the value 0. -/
def zero_type_files : rc_file_pair_t :=
  { packets := some [some user_record]
    filters := some (some [some zero_type_filter]) }

/-- A filter record that asks for an Access-Reject. -/
def reject_filter : List fr_pair_t :=
  [ { da := attr_packet_type, vp_uint32 := FR_RADIUS_CODE_ACCESS_REJECT } ]

/-- A request with the code of Access-Request and no expected reply code yet. -/
def access_request : rc_request_t :=
  { packet := { code := FR_RADIUS_CODE_ACCESS_REQUEST, dst_port := 1812 } }

/-- Stand-ins for the library routines of the receive path: a cancel that
leaves the packet alone, a decoder that succeeds and finds no attribute, a
sort that keeps the order, a comparison that accepts. -/
def sample_recv_env : recv_env_t :=
  { fr_radius_client_fd_bio_cancel := fun packet => packet
    fr_radius_decode_simple := fun pairs _ _ => some pairs
    fr_pair_list_sort := fun list => list
    fr_pair_validate := fun _ _ => true }

/-- A loaded Status-Server request to a port that is neither an
authentication nor an accounting port: it has no expected reply code. -/
def status_request : rc_request_t :=
  { packet := { code := FR_RADIUS_CODE_STATUS_SERVER, dst_port := 18120, id := 3 }
    filter_code := FR_RADIUS_CODE_UNDEFINED }

/-- An Access-Accept reply. -/
def accept_reply : fr_packet_t := { code := FR_RADIUS_CODE_ACCESS_ACCEPT, id := 3 }

/-- An Access-Challenge reply. -/
def challenge_reply : fr_packet_t := { code := FR_RADIUS_CODE_ACCESS_CHALLENGE, id := 3 }

/-- A loaded Access-Request in flight, expecting an Access-Accept. -/
def accept_expected_request : rc_request_t :=
  { packet := { code := FR_RADIUS_CODE_ACCESS_REQUEST, dst_port := 1812, id := 3 }
    filter_code := FR_RADIUS_CODE_ACCESS_ACCEPT }

/-- Three `request_data_add` calls under two keys: the second call replaces
the value of the first. -/
def sample_data_calls : List (Nat × Int × Nat × Bool) :=
  [(100, 1, 500, false), (100, 1, 501, true), (100, 2, 502, false)]

/-- A Request-Authenticator pair of three octets. -/
def short_authenticator : fr_pair_t :=
  { da := attr_request_authenticator, vp_octets := [1, 2, 3] }

/-- Globals for evaluating the loader on two file pairs. -/
def two_pair_filenames : List rc_file_pair_t := [two_record_files, one_record_files]

/-- The request the loader queues for `one_record_files`. -/
def one_record_requests : List rc_request_t :=
  match radclient_init sample_loader one_record_files [] with
  | some (_, list) => list
  | none => []

/-- A table lookup that compares the characters handed to it with each name
of the table in turn, used to instantiate `fr_substr2int`. -/
def sample_substr2int (table : List (List uint8_t × pair_lists_t)) (s : List uint8_t)
    (default_value : pair_lists_t) : pair_lists_t :=
  match table.find? (fun e => decide (e.1 = s)) with
  | some e => e.2
  | none => default_value

/-- A configuration of the CSV module with the header `key,value`. -/
def sample_csv_config : rlm_csv_t :=
  { delimiter := str ",", header := str "key,value", key := str "key" }

/-- The instance `mod_instantiate` makes of `sample_csv_config`. -/
def sample_csv : rlm_csv_t :=
  { sample_csv_config with
    num_fields := 2, used_fields := 1, key_field := 0,
    field_names := [str "key", str "value"], field_offsets := [-1, 0] }

/-! # Theorems -/

/-! ## Facts about the list primitives -/

theorem fr_pair_find_by_da_some (list : List fr_pair_t) (da : fr_dict_attr_t) (j : Nat)
    (h : fr_pair_find_by_da list da = some j) :
    ∃ p, list[j]? = some p ∧ p.da = da := by
  induction list generalizing j with
  | nil => simp [fr_pair_find_by_da] at h
  | cons vp rest ih =>
    unfold fr_pair_find_by_da at h
    split at h
    · cases h
      exact ⟨vp, by simp, by assumption⟩
    · cases hr : fr_pair_find_by_da rest da with
      | none => simp [hr] at h
      | some k =>
        simp [hr] at h
        subst h
        obtain ⟨p, hp, hpd⟩ := ih k hr
        exact ⟨p, by simpa using hp, hpd⟩

theorem fr_pair_find_by_da_none (list : List fr_pair_t) (da : fr_dict_attr_t)
    (h : fr_pair_find_by_da list da = none) :
    ∀ p ∈ list, p.da ≠ da := by
  induction list with
  | nil => simp
  | cons vp rest ih =>
    unfold fr_pair_find_by_da at h
    split at h
    · cases h
    · intro p hp
      rcases List.mem_cons.mp hp with rfl | hp
      · assumption
      · exact ih (by simpa using h) p hp

theorem pair_set_value_get (list : List fr_pair_t) (j : Nat) (p : fr_pair_t)
    (value : List uint8_t) (h : list[j]? = some p) :
    (pair_set_value list j value)[j]? = some { p with vp_octets := value } := by
  have hj : j < list.length := by
    rcases Nat.lt_or_ge j list.length with hlt | hge
    · exact hlt
    · rw [List.getElem?_eq_none hge] at h
      cases h
  simp [pair_set_value, h, List.getElem?_set, hj]

/-! ## The loader and CHAP-Password -/

/-- The condition under which the loader leaves a CHAP-Password pair alone,
evaluated as the source does. -/
theorem chap_skip_iff (vp : fr_pair_t) (hda : vp.da = attr_chap_password) :
    (vp.vp_length == 17 && already_hex (some vp)) = true ↔
      (vp.vp_octets.length = 17 ∧ ∃ b ∈ vp.vp_octets, b.val < 32) := by
  simp [already_hex, fr_pair_t.vp_type, fr_pair_t.vp_length, hda, fr_dict_attr_t.type]

/-- C1.  For a CHAP-Password pair met by the special-attribute loop of
`radclient_init`, the loader takes its skip branch exactly when the value has
17 octets and one of them is below 0x20; then the request is left as it was.
In every other case `request->password` points at a cleartext password pair
of the list whose value is exactly the octets of the CHAP-Password pair. -/
theorem chap_password_loader (request : rc_request_t) (i : Nat) (vp : fr_pair_t)
    (hda : vp.da = attr_chap_password) :
    ((vp.vp_length == 17 && already_hex (some vp)) = true ↔
        (vp.vp_octets.length = 17 ∧ ∃ b ∈ vp.vp_octets, b.val < 32)) ∧
    ((vp.vp_octets.length = 17 ∧ ∃ b ∈ vp.vp_octets, b.val < 32) →
        special_attribute request i vp = request) ∧
    (¬ (vp.vp_octets.length = 17 ∧ ∃ b ∈ vp.vp_octets, b.val < 32) →
        ∃ j p, (special_attribute request i vp).password = some j ∧
          (special_attribute request i vp).request_pairs[j]? = some p ∧
          p.da = attr_cleartext_password ∧ p.vp_octets = vp.vp_octets) := by
  have hiff := chap_skip_iff vp hda
  refine ⟨hiff, ?_, ?_⟩
  · intro hc
    have hb := hiff.mpr hc
    simp only [special_attribute, hda]
    simp [hb]
  · intro hc
    have hb : ¬ ((vp.vp_length == 17 && already_hex (some vp)) = true) :=
      fun hb => hc (hiff.mp hb)
    have hstep : special_attribute request i vp =
        password_bstrndup (pair_update_request request attr_cleartext_password) vp := by
      simp only [special_attribute, hda]
      simp [hb]
    rw [hstep]
    cases hf : fr_pair_find_by_da request.request_pairs attr_cleartext_password with
    | some j =>
      obtain ⟨q, hq, hqd⟩ := fr_pair_find_by_da_some _ _ _ hf
      refine ⟨j, { q with vp_octets := vp.vp_octets }, ?_, ?_, hqd, rfl⟩
      · simp [password_bstrndup, pair_update_request, hf]
      · simp only [password_bstrndup, pair_update_request, hf, fr_pair_t.vp_length,
          List.take_length]
        exact pair_set_value_get _ _ _ _ hq
    | none =>
      refine ⟨request.request_pairs.length,
        { da := attr_cleartext_password, vp_octets := vp.vp_octets }, ?_, ?_, rfl, rfl⟩
      · simp [password_bstrndup, pair_update_request, hf]
      · simp only [password_bstrndup, pair_update_request, hf, fr_pair_t.vp_length,
          List.take_length]
        have hq : (fr_pair_append request.request_pairs
            (fr_pair_afrom_da attr_cleartext_password))[request.request_pairs.length]? =
            some (fr_pair_afrom_da attr_cleartext_password) := by
          simp [fr_pair_append]
        exact pair_set_value_get _ _ _ _ hq

/-- Witness of C1: the encoded value is skipped. -/
theorem chap_password_loader_witness :
    encoded_chap_pair.da = attr_chap_password ∧
      special_attribute encoded_chap_request 1 encoded_chap_pair = encoded_chap_request :=
  ⟨rfl, (chap_password_loader encoded_chap_request 1 encoded_chap_pair rfl).2.1
    (by decide)⟩

/-! ## The loader never rewrites a pair that is not a cleartext password -/

theorem pair_set_value_get_ne (list : List fr_pair_t) (j k : Nat) (value : List uint8_t)
    (h : j ≠ k) : (pair_set_value list k value)[j]? = list[j]? := by
  unfold pair_set_value
  split
  · rw [List.getElem?_set_ne (Ne.symm h)]
  · rfl

theorem password_update_keeps (request : rc_request_t) (vp : fr_pair_t) (j : Nat)
    (p : fr_pair_t) (hj : request.request_pairs[j]? = some p)
    (hp : p.da ≠ attr_cleartext_password) :
    (password_bstrndup (pair_update_request request attr_cleartext_password)
      vp).request_pairs[j]? = some p := by
  have hlt : j < request.request_pairs.length := by
    rcases Nat.lt_or_ge j request.request_pairs.length with hlt | hge
    · exact hlt
    · rw [List.getElem?_eq_none hge] at hj
      cases hj
  cases hf : fr_pair_find_by_da request.request_pairs attr_cleartext_password with
  | some k =>
    obtain ⟨q, hq, hqd⟩ := fr_pair_find_by_da_some _ _ _ hf
    have hne : j ≠ k := by
      intro hjk
      subst hjk
      rw [hj] at hq
      cases hq
      exact hp hqd
    simp only [password_bstrndup, pair_update_request, hf]
    rw [pair_set_value_get_ne _ _ _ _ hne]
    exact hj
  | none =>
    simp only [password_bstrndup, pair_update_request, hf]
    rw [pair_set_value_get_ne _ _ _ _ (Nat.ne_of_lt hlt)]
    simp only [fr_pair_append]
    rw [List.getElem?_append_left hlt]
    exact hj

theorem special_attribute_keeps (request : rc_request_t) (i : Nat) (vp : fr_pair_t)
    (j : Nat) (p : fr_pair_t) (hj : request.request_pairs[j]? = some p)
    (hp : p.da ≠ attr_cleartext_password) :
    (special_attribute request i vp).request_pairs[j]? = some p := by
  unfold special_attribute
  split
  · exact hj
  · split
    · exact hj
    · split
      · exact hj
      · split
        · split
          · exact hj
          · exact password_update_keeps request vp j p hj hp
        · split
          · exact password_update_keeps request vp j p hj hp
          · split
            · exact hj
            · exact hj

theorem special_attributes_from_keeps (fuel i : Nat) (request : rc_request_t)
    (j : Nat) (p : fr_pair_t) (hj : request.request_pairs[j]? = some p)
    (hp : p.da ≠ attr_cleartext_password) :
    (special_attributes_from fuel i request).request_pairs[j]? = some p := by
  induction fuel generalizing i request with
  | zero => exact hj
  | succ fuel ih =>
    unfold special_attributes_from
    split
    · exact hj
    · exact ih (i + 1) _ (special_attribute_keeps request i _ j p hj hp)

theorem send_one_packet_password_none (env : env_t) (rand : Nat → Nat)
    (request : rc_request_t) (h : request.password = none) :
    send_one_packet_password env rand request = request := by
  simp [send_one_packet_password, h]

/-! ## CHAP-Password pass-through -/

/-- C2, as stated, fails: a request read with a cleartext password and an
encoded CHAP-Password (17 octets, first octet 0x01) has its CHAP-Password
rewritten by `send_one_packet`; with the identifier 2 drawn, the value
begins with 2, whatever the digest. -/
theorem chap_passthrough_counterexample :
    mixed_request.request_pairs[1]? = some encoded_chap_pair ∧
    encoded_chap_pair.da = attr_chap_password ∧
    encoded_chap_pair.vp_octets.length = 17 ∧
    (∃ b ∈ encoded_chap_pair.vp_octets, b.val < 32) ∧
    ∀ (env : env_t) (now : Nat),
      pair_value (send_one_packet env (fun _ => 2) now
        (special_attributes mixed_request)).request.request_pairs 1
        ≠ encoded_chap_pair.vp_octets := by
  refine ⟨by decide, rfl, by decide, by decide, ?_⟩
  intro env now
  have h : special_attributes mixed_request = { mixed_request with password := some 0 } := by
    decide
  rw [h]
  simp [send_one_packet, send_one_packet_password, mixed_request, fr_pair_find_by_da,
    pair_value, pair_set_value, fr_chap_encode, encoded_chap_value, encoded_chap_pair]
  intro hid
  exact absurd hid (by decide)

/-- C2, amended.  For a request read with a CHAP-Password of 17 octets one of
which is below 0x20, and on which the loader has set no cleartext password,
the CHAP-Password pair in the list after `send_one_packet` is the pair that
was supplied. -/
theorem chap_passthrough_without_password (env : env_t) (rand : Nat → Nat) (now : Nat)
    (request : rc_request_t) (j : Nat) (vp : fr_pair_t)
    (hj : request.request_pairs[j]? = some vp)
    (hda : vp.da = attr_chap_password)
    (_hlen : vp.vp_octets.length = 17)
    (_hctl : ∃ b ∈ vp.vp_octets, b.val < 32)
    (hpw : (special_attributes request).password = none) :
    (send_one_packet env rand now (special_attributes request)).request.request_pairs[j]?
      = some vp := by
  have hne : vp.da ≠ attr_cleartext_password := by
    rw [hda]
    decide
  have hload : (special_attributes request).request_pairs[j]? = some vp :=
    special_attributes_from_keeps _ 0 request j vp hj hne
  simp only [send_one_packet]
  rw [send_one_packet_password_none env rand _ hpw]
  exact hload

/-- Witness of C2 amended: a user name and an encoded CHAP-Password. -/
theorem chap_passthrough_without_password_witness :
    (send_one_packet
      sample_env
      (fun _ => 2) 0 (special_attributes encoded_chap_request)).request.request_pairs[1]?
      = some encoded_chap_pair :=
  chap_passthrough_without_password sample_env _ _ encoded_chap_request 1 encoded_chap_pair
    (by decide) rfl (by decide) (by decide) (by decide)

/-! ## No cleartext password, no mutation -/

/-- C7.  When `request->password` is unset, the credential step of
`send_one_packet` returns the request as it was, and the list held by the
request after the call, like the list handed to the transport, is the list
the request had. -/
theorem no_password_no_mutation (env : env_t) (rand : Nat → Nat) (now : Nat)
    (request : rc_request_t) (h : request.password = none) :
    send_one_packet_password env rand request = request ∧
    (send_one_packet env rand now request).request.request_pairs = request.request_pairs ∧
    (send_one_packet env rand now request).written =
      some (request.packet, request.request_pairs) := by
  have hs := send_one_packet_password_none env rand request h
  refine ⟨hs, ?_, ?_⟩
  · simp [send_one_packet, hs]
  · simp [send_one_packet, hs]

/-- Witness of C7: the request with a user name and an encoded CHAP-Password,
as the loader leaves it. -/
theorem no_password_no_mutation_witness :
    encoded_chap_request.password = none ∧
    (send_one_packet
      sample_env
      (fun _ => 7) 0 encoded_chap_request).request.request_pairs
      = encoded_chap_request.request_pairs :=
  ⟨rfl, (no_password_no_mutation sample_env _ 0 encoded_chap_request rfl).2.1⟩

/-! ## The CHAP branch of `send_one_packet` -/

theorem fr_pair_find_by_da_eq_none (list : List fr_pair_t) (da : fr_dict_attr_t)
    (h : ∀ p ∈ list, p.da ≠ da) : fr_pair_find_by_da list da = none := by
  induction list with
  | nil => rfl
  | cons vp rest ih =>
    have hvp : vp.da ≠ da := h vp (List.mem_cons_self _ _)
    have hrest : ∀ p ∈ rest, p.da ≠ da := fun p hp => h p (List.mem_cons_of_mem _ hp)
    simp [fr_pair_find_by_da, hvp, ih hrest]

theorem fr_pair_find_by_da_first (pre post : List fr_pair_t) (c : fr_pair_t)
    (da : fr_dict_attr_t) (hpre : ∀ p ∈ pre, p.da ≠ da) (hc : c.da = da) :
    fr_pair_find_by_da (pre ++ c :: post) da = some pre.length := by
  induction pre with
  | nil => simp [fr_pair_find_by_da, hc]
  | cons vp rest ih =>
    have hvp : vp.da ≠ da := hpre vp (List.mem_cons_self _ _)
    have hrest : ∀ p ∈ rest, p.da ≠ da := fun p hp => hpre p (List.mem_cons_of_mem _ hp)
    simp [fr_pair_find_by_da, hvp, ih hrest]

theorem pair_value_first (pre post : List fr_pair_t) (c : fr_pair_t) :
    pair_value (pre ++ c :: post) pre.length = c.vp_octets := by
  have h : (pre ++ c :: post)[pre.length]? = some c := by
    rw [List.getElem?_append_right (Nat.le_refl _)]
    simp
  simp only [pair_value, h]

theorem fr_chap_encode_length (md5 : List uint8_t → { d : List uint8_t // d.length = 16 })
    (id : uint8_t) (challenge : List uint8_t) (n : Nat) (password : List uint8_t) (m : Nat) :
    (fr_chap_encode md5 id challenge n password m).length = 17 := by
  simp [fr_chap_encode, (md5 _).property]

theorem send_one_packet_password_chap (env : env_t) (rand : Nat → Nat)
    (request : rc_request_t) (password vp : Nat)
    (hpw : request.password = some password)
    (hup : fr_pair_find_by_da request.request_pairs attr_user_password = none)
    (hcp : fr_pair_find_by_da request.request_pairs attr_chap_password = some vp) :
    send_one_packet_password env rand request =
      { request with
        request_pairs := pair_set_value request.request_pairs vp
          (fr_chap_encode env.md5 (Fin.ofNat (rand 0 &&& 0xff)) (chap_vector request)
            RADIUS_AUTH_VECTOR_LENGTH (pair_value request.request_pairs password)
            (pair_value request.request_pairs password).length) } := by
  have hlen := fr_chap_encode_length env.md5 (Fin.ofNat (rand 0 &&& 0xff))
    (chap_vector request) RADIUS_AUTH_VECTOR_LENGTH
    (pair_value request.request_pairs password)
    (pair_value request.request_pairs password).length
  simp only [send_one_packet_password, hpw, hup, hcp]
  rw [List.take_of_length_le (Nat.le_of_eq hlen)]

/-- C3, as stated, fails: in a request whose first CHAP-Challenge has 8 octets
and whose second has 16, the CHAP branch is taken, the list does contain a
CHAP-Challenge of length 16, and yet the challenge handed to the encoder is
the authenticator vector, which is the value of no CHAP-Challenge pair. -/
theorem chap_challenge_counterexample :
    (special_attributes two_challenge_input).password = some 3 ∧
    fr_pair_find_by_da (special_attributes two_challenge_input).request_pairs
      attr_user_password = none ∧
    fr_pair_find_by_da (special_attributes two_challenge_input).request_pairs
      attr_chap_password = some 0 ∧
    (∃ c ∈ (special_attributes two_challenge_input).request_pairs,
      c.da = attr_chap_challenge ∧ c.vp_length = 16) ∧
    chap_vector (special_attributes two_challenge_input) =
      (special_attributes two_challenge_input).packet.vector ∧
    ¬ (∃ c ∈ (special_attributes two_challenge_input).request_pairs,
      c.da = attr_chap_challenge ∧
        chap_vector (special_attributes two_challenge_input) = c.vp_octets) := by
  decide

/-- C3, amended.  In the CHAP branch of `send_one_packet` the CHAP-Password is
set to the encoder output for a challenge which is: the value of the first
CHAP-Challenge pair of the list when that first pair has 16 octets, and the
authenticator vector of the packet when the first CHAP-Challenge pair has
another length or the list has no CHAP-Challenge pair. -/
theorem chap_challenge_selection (env : env_t) (rand : Nat → Nat)
    (request : rc_request_t) (password vp : Nat)
    (hpw : request.password = some password)
    (hup : fr_pair_find_by_da request.request_pairs attr_user_password = none)
    (hcp : fr_pair_find_by_da request.request_pairs attr_chap_password = some vp) :
    ∃ challenge : List uint8_t,
      send_one_packet_password env rand request =
        { request with
          request_pairs := pair_set_value request.request_pairs vp
            (fr_chap_encode env.md5 (Fin.ofNat (rand 0 &&& 0xff)) challenge 16
              (pair_value request.request_pairs password)
              (pair_value request.request_pairs password).length) } ∧
      (∀ pre c post, request.request_pairs = pre ++ c :: post →
        (∀ x ∈ pre, x.da ≠ attr_chap_challenge) → c.da = attr_chap_challenge →
        challenge = if c.vp_octets.length = 16 then c.vp_octets else request.packet.vector) ∧
      ((∀ x ∈ request.request_pairs, x.da ≠ attr_chap_challenge) →
        challenge = request.packet.vector) := by
  refine ⟨chap_vector request, send_one_packet_password_chap env rand request password vp
    hpw hup hcp, ?_, ?_⟩
  · intro pre c post hl hpre hc
    simp only [chap_vector, hl, fr_pair_find_by_da_first pre post c _ hpre hc,
      pair_value_first, RADIUS_AUTH_VECTOR_LENGTH]
  · intro hno
    simp only [chap_vector, fr_pair_find_by_da_eq_none _ _ hno]

/-- Witness of C3 amended: the two-challenge request, as loaded. -/
theorem chap_challenge_selection_witness :
    (special_attributes two_challenge_input).password = some 3 ∧
    ∃ challenge : List uint8_t,
      send_one_packet_password sample_env (fun _ => 5) (special_attributes two_challenge_input) =
        { special_attributes two_challenge_input with
          request_pairs := pair_set_value (special_attributes two_challenge_input).request_pairs 0
            (fr_chap_encode sample_env.md5 (Fin.ofNat (5 &&& 0xff)) challenge 16
              (pair_value (special_attributes two_challenge_input).request_pairs 3)
              (pair_value (special_attributes two_challenge_input).request_pairs 3).length) } ∧
      (∀ pre c post, (special_attributes two_challenge_input).request_pairs = pre ++ c :: post →
        (∀ x ∈ pre, x.da ≠ attr_chap_challenge) → c.da = attr_chap_challenge →
        challenge = if c.vp_octets.length = 16 then c.vp_octets
          else (special_attributes two_challenge_input).packet.vector) ∧
      ((∀ x ∈ (special_attributes two_challenge_input).request_pairs,
          x.da ≠ attr_chap_challenge) →
        challenge = (special_attributes two_challenge_input).packet.vector) :=
  ⟨by decide, chap_challenge_selection sample_env (fun _ => 5)
    (special_attributes two_challenge_input) 3 0 (by decide) (by decide) (by decide)⟩

/-- C4.  In the CHAP branch two executions of the credential step with the
same identifier octet, the same cleartext password and the same 16 challenge
octets write the same CHAP-Password value; that value has 17 octets, the
first is the identifier and the other 16 are the MD5 digest of
identifier || password || challenge. -/
theorem chap_encoding_deterministic (env : env_t) (rand1 rand2 : Nat → Nat)
    (r1 r2 : rc_request_t) (pw1 vp1 pw2 vp2 : Nat)
    (hpw1 : r1.password = some pw1)
    (hup1 : fr_pair_find_by_da r1.request_pairs attr_user_password = none)
    (hcp1 : fr_pair_find_by_da r1.request_pairs attr_chap_password = some vp1)
    (hpw2 : r2.password = some pw2)
    (hup2 : fr_pair_find_by_da r2.request_pairs attr_user_password = none)
    (hcp2 : fr_pair_find_by_da r2.request_pairs attr_chap_password = some vp2)
    (hid : rand1 0 &&& 0xff = rand2 0 &&& 0xff)
    (hpw : pair_value r1.request_pairs pw1 = pair_value r2.request_pairs pw2)
    (hch : (chap_vector r1).take 16 = (chap_vector r2).take 16) :
    pair_value (send_one_packet_password env rand1 r1).request_pairs vp1 =
      pair_value (send_one_packet_password env rand2 r2).request_pairs vp2 ∧
    (pair_value (send_one_packet_password env rand1 r1).request_pairs vp1).length = 17 ∧
    pair_value (send_one_packet_password env rand1 r1).request_pairs vp1 =
      (Fin.ofNat (rand1 0 &&& 0xff) : uint8_t) ::
        (env.md5 ((Fin.ofNat (rand1 0 &&& 0xff) : uint8_t) ::
          (pair_value r1.request_pairs pw1 ++ (chap_vector r1).take 16))).val := by
  have key : ∀ (rand : Nat → Nat) (r : rc_request_t) (pw vp : Nat),
      r.password = some pw →
      fr_pair_find_by_da r.request_pairs attr_user_password = none →
      fr_pair_find_by_da r.request_pairs attr_chap_password = some vp →
      pair_value (send_one_packet_password env rand r).request_pairs vp =
        (Fin.ofNat (rand 0 &&& 0xff) : uint8_t) ::
          (env.md5 ((Fin.ofNat (rand 0 &&& 0xff) : uint8_t) ::
            (pair_value r.request_pairs pw ++ (chap_vector r).take 16))).val := by
    intro rand r pw vp h1 h2 h3
    obtain ⟨q, hq, _⟩ := fr_pair_find_by_da_some _ _ _ h3
    rw [send_one_packet_password_chap env rand r pw vp h1 h2 h3]
    simp only [pair_value, pair_set_value_get _ _ _ _ hq]
    simp [fr_chap_encode, RADIUS_AUTH_VECTOR_LENGTH]
  have k1 := key rand1 r1 pw1 vp1 hpw1 hup1 hcp1
  have k2 := key rand2 r2 pw2 vp2 hpw2 hup2 hcp2
  refine ⟨?_, ?_, k1⟩
  · rw [k1, k2, hid, hpw, hch]
  · rw [k1]
    simp [(env.md5 _).property]

/-- Witness of C4: the one-challenge request encoded twice with identifiers
drawn as 5 and as 261, which leave the same octet. -/
theorem chap_encoding_deterministic_witness :
    (261 &&& 0xff = 5 &&& 0xff) ∧
    pair_value (send_one_packet_password sample_env (fun _ => 261)
        (special_attributes one_challenge_input)).request_pairs 0 =
      pair_value (send_one_packet_password sample_env (fun _ => 5)
        (special_attributes one_challenge_input)).request_pairs 0 :=
  ⟨by decide, (chap_encoding_deterministic sample_env (fun _ => 261) (fun _ => 5)
    (special_attributes one_challenge_input) (special_attributes one_challenge_input)
    2 0 2 0 (by decide) (by decide) (by decide) (by decide) (by decide) (by decide)
    (by decide) rfl rfl).1⟩

/-! ## MS-CHAPv1 encoding -/

theorem pair_set_value_first (pre post : List fr_pair_t) (c : fr_pair_t)
    (value : List uint8_t) :
    pair_set_value (pre ++ c :: post) pre.length value =
      pre ++ { c with vp_octets := value } :: post := by
  have h : (pre ++ c :: post)[pre.length]? = some c := by
    rw [List.getElem?_append_right (Nat.le_refl _)]
    simp
  simp only [pair_set_value, h]
  simp

theorem rand_fill_length (rand : Nat → Nat) (n : Nat) (p : List uint8_t) :
    (rand_fill rand n p).length = p.length := by
  unfold rand_fill
  generalize List.range n = idx
  induction idx generalizing p with
  | nil => rfl
  | cons i rest ih =>
    simp only [List.foldl_cons]
    rw [ih]
    simp

theorem fr_pair_delete_by_da_mem (list : List fr_pair_t) (da : fr_dict_attr_t) :
    ∀ p ∈ fr_pair_delete_by_da list da, p ∈ list ∧ p.da ≠ da := by
  intro p hp
  simpa [fr_pair_delete_by_da] using hp

theorem fr_pair_find_by_da_second (base : List fr_pair_t) (a b : fr_pair_t)
    (da : fr_dict_attr_t) (hbase : ∀ p ∈ base, p.da ≠ da) (ha : a.da ≠ da) (hb : b.da = da) :
    fr_pair_find_by_da (base ++ [a, b]) da = some (base.length + 1) := by
  have hpre : ∀ p ∈ base ++ [a], p.da ≠ da := by
    intro p hp
    rcases List.mem_append.mp hp with hp | hp
    · exact hbase p hp
    · rw [List.mem_singleton.mp hp]
      exact ha
  have h := fr_pair_find_by_da_first (base ++ [a]) [] b da hpre hb
  simpa using h

theorem pair_value_second (base : List fr_pair_t) (a b : fr_pair_t) :
    pair_value (base ++ [a, b]) (base.length + 1) = b.vp_octets := by
  have h := pair_value_first (base ++ [a]) [] b
  simpa using h

theorem mschapv1_base_clean (list : List fr_pair_t) :
    ∀ p ∈ fr_pair_delete_by_da (fr_pair_delete_by_da list attr_ms_chap_challenge)
        attr_ms_chap_response,
      p.da ≠ attr_ms_chap_challenge ∧ p.da ≠ attr_ms_chap_response := by
  intro p hp
  obtain ⟨hp1, hr⟩ := fr_pair_delete_by_da_mem _ _ p hp
  obtain ⟨_, hc⟩ := fr_pair_delete_by_da_mem _ _ p hp1
  exact ⟨hc, hr⟩

/-- The result of `mschapv1_encode` in closed form: the old list without its
MS-CHAP-Challenge and MS-CHAP-Response pairs, then the new challenge, then
the new response. -/
theorem mschapv1_encode_list (env : env_t) (rand : Nat → Nat) (list : List fr_pair_t)
    (password : List uint8_t) :
    mschapv1_encode env rand list password =
      match env.mschap_nt_password_hash password with
      | none =>
        (0, fr_pair_delete_by_da (fr_pair_delete_by_da list attr_ms_chap_challenge)
              attr_ms_chap_response ++
            [ { da := attr_ms_chap_challenge,
                vp_octets := rand_fill rand 8 (List.replicate 8 0) },
              { da := attr_ms_chap_response,
                vp_octets := 0 :: 1 :: List.replicate 48 0 } ])
      | some nthash =>
        (1, fr_pair_delete_by_da (fr_pair_delete_by_da list attr_ms_chap_challenge)
              attr_ms_chap_response ++
            [ { da := attr_ms_chap_challenge,
                vp_octets := rand_fill rand 8 (List.replicate 8 0) },
              { da := attr_ms_chap_response,
                vp_octets := 0 :: 1 :: List.replicate 24 0 ++
                  (env.smbdes_mschap nthash.val
                    (rand_fill rand 8 (List.replicate 8 0))).val } ]) := by
  unfold mschapv1_encode
  simp only [fr_pair_append, fr_pair_afrom_da, pair_set_value_first, pair_value_first,
    List.length_replicate]
  cases h : env.mschap_nt_password_hash password with
  | none =>
    simp only [List.append_assoc, List.singleton_append]
    rfl
  | some nthash =>
    simp only [List.append_assoc, List.singleton_append, pair_value_first]
    have hseg := (env.smbdes_mschap nthash.val (rand_fill rand 8 (List.replicate 8 0))).property
    have h1 : List.take 26 ((List.replicate 50 (0 : uint8_t)).set 1 1) =
        0 :: 1 :: List.replicate 24 0 := by decide
    have h2 : List.drop (26 + 24) ((List.replicate 50 (0 : uint8_t)).set 1 1) = [] := by
      decide
    simp only [write_at, hseg, h1, h2, List.append_nil]

/-- C5.  When the NT hash is derived, `mschapv1_encode` returns 1 and leaves
an MS-CHAP-Response value of 50 octets: a zero, a one, 24 zeros, and then at
offsets 26..49 the 24 octets `smbdes_mschap` yields for the NT hash and the
value of the MS-CHAP-Challenge pair now in the list. -/
theorem mschapv1_response_layout (env : env_t) (rand : Nat → Nat) (list : List fr_pair_t)
    (password : List uint8_t) (nthash : { h : List uint8_t // h.length = 16 })
    (h : env.mschap_nt_password_hash password = some nthash) :
    (mschapv1_encode env rand list password).1 = 1 ∧
    ∃ challenge reply,
      fr_pair_find_by_da (mschapv1_encode env rand list password).2
        attr_ms_chap_challenge = some challenge ∧
      fr_pair_find_by_da (mschapv1_encode env rand list password).2
        attr_ms_chap_response = some reply ∧
      (pair_value (mschapv1_encode env rand list password).2 reply).length = 50 ∧
      pair_value (mschapv1_encode env rand list password).2 reply =
        0 :: 1 :: List.replicate 24 0 ++
          (env.smbdes_mschap nthash.val
            (pair_value (mschapv1_encode env rand list password).2 challenge)).val := by
  have hclean := mschapv1_base_clean list
  rw [mschapv1_encode_list]
  simp only [h]
  refine ⟨trivial, _, _, fr_pair_find_by_da_first _ _ _ _ (fun p hp => (hclean p hp).1) rfl,
    fr_pair_find_by_da_second _ _ _ _ (fun p hp => (hclean p hp).2)
      (by intro hx; cases hx) rfl, ?_, ?_⟩
  · rw [pair_value_second]
    simp [(env.smbdes_mschap _ _).property]
  · rw [pair_value_second, pair_value_first]

/-- Witness of C5: an environment whose NT hash succeeds, on the empty list. -/
theorem mschapv1_response_layout_witness :
    (mschapv1_encode { sample_env with
        mschap_nt_password_hash := fun _ => some ⟨List.replicate 16 0, rfl⟩ }
      (fun i => i) [] [112, 119]).1 = 1 :=
  (mschapv1_response_layout { sample_env with
      mschap_nt_password_hash := fun _ => some ⟨List.replicate 16 0, rfl⟩ }
    (fun i => i) [] [112, 119] ⟨List.replicate 16 0, rfl⟩ rfl).1

/-- C6.  Whatever the list held before, after `mschapv1_encode` it holds
exactly one MS-CHAP-Challenge pair, whose value has 8 octets, and exactly one
MS-CHAP-Response pair. -/
theorem mschapv1_single_pairs (env : env_t) (rand : Nat → Nat) (list : List fr_pair_t)
    (password : List uint8_t) :
    (mschapv1_encode env rand list password).2.countP
      (fun vp => decide (vp.da = attr_ms_chap_challenge)) = 1 ∧
    (∀ vp ∈ (mschapv1_encode env rand list password).2,
      vp.da = attr_ms_chap_challenge → vp.vp_length = 8) ∧
    (mschapv1_encode env rand list password).2.countP
      (fun vp => decide (vp.da = attr_ms_chap_response)) = 1 := by
  have hclean := mschapv1_base_clean list
  have hc : (fr_pair_delete_by_da (fr_pair_delete_by_da list attr_ms_chap_challenge)
      attr_ms_chap_response).countP (fun vp => decide (vp.da = attr_ms_chap_challenge)) = 0 := by
    rw [List.countP_eq_zero]
    intro p hp
    simpa using (hclean p hp).1
  have hr : (fr_pair_delete_by_da (fr_pair_delete_by_da list attr_ms_chap_challenge)
      attr_ms_chap_response).countP (fun vp => decide (vp.da = attr_ms_chap_response)) = 0 := by
    rw [List.countP_eq_zero]
    intro p hp
    simpa using (hclean p hp).2
  rw [mschapv1_encode_list]
  cases h : env.mschap_nt_password_hash password with
  | none =>
    simp only [List.countP_append, hc, hr]
    refine ⟨by simp [List.countP_cons], ?_, by simp [List.countP_cons]⟩
    intro vp hvp hda
    rcases List.mem_append.mp hvp with hvp | hvp
    · exact absurd hda (hclean vp hvp).1
    · simp only [List.mem_cons, List.mem_singleton, List.not_mem_nil, or_false] at hvp
      rcases hvp with rfl | rfl
      · simp [fr_pair_t.vp_length, rand_fill_length]
      · cases hda
  | some nthash =>
    simp only [List.countP_append, hc, hr]
    refine ⟨by simp [List.countP_cons], ?_, by simp [List.countP_cons]⟩
    intro vp hvp hda
    rcases List.mem_append.mp hvp with hvp | hvp
    · exact absurd hda (hclean vp hvp).1
    · simp only [List.mem_cons, List.mem_singleton, List.not_mem_nil, or_false] at hvp
      rcases hvp with rfl | rfl
      · simp [fr_pair_t.vp_length, rand_fill_length]
      · cases hda

/-! ## A failed NT hash does not stop the send -/

/-- C8, evaluated on the code.  In the MS-CHAP branch, when
`mschap_nt_password_hash` reports an error, `mschapv1_encode` returns 0 and
`send_one_packet` goes on all the same: the packet is handed to
`fr_bio_packet_write` together with the list `mschapv1_encode` left, whose
MS-CHAP-Response is a zero, a one and 48 zeros. -/
theorem mschap_failure_still_written (env : env_t) (rand : Nat → Nat) (now : Nat)
    (request : rc_request_t) (password ms : Nat)
    (hpw : request.password = some password)
    (hup : fr_pair_find_by_da request.request_pairs attr_user_password = none)
    (hcp : fr_pair_find_by_da request.request_pairs attr_chap_password = none)
    (hms : fr_pair_find_by_da_nested request.request_pairs attr_ms_chap_password = some ms)
    (hfail : env.mschap_nt_password_hash
      (c_str (pair_value request.request_pairs password)) = none) :
    (mschapv1_encode env rand request.request_pairs
      (c_str (pair_value request.request_pairs password))).1 = 0 ∧
    (send_one_packet env rand now request).written =
      some (request.packet, (mschapv1_encode env rand request.request_pairs
        (c_str (pair_value request.request_pairs password))).2) ∧
    ∃ reply,
      fr_pair_find_by_da (mschapv1_encode env rand request.request_pairs
        (c_str (pair_value request.request_pairs password))).2 attr_ms_chap_response
        = some reply ∧
      pair_value (mschapv1_encode env rand request.request_pairs
        (c_str (pair_value request.request_pairs password))).2 reply
        = 0 :: 1 :: List.replicate 48 0 := by
  have hclean := mschapv1_base_clean request.request_pairs
  refine ⟨?_, ?_, ?_⟩
  · rw [mschapv1_encode_list]
    simp only [hfail]
  · simp [send_one_packet, send_one_packet_password, hpw, hup, hcp, hms]
  · rw [mschapv1_encode_list]
    simp only [hfail]
    refine ⟨_, fr_pair_find_by_da_second _ _ _ _ (fun p hp => (hclean p hp).2)
      (by intro hx; cases hx) rfl, ?_⟩
    rw [pair_value_second]

/-- Witness of C8: a request read with an MS-CHAP password that is not valid
UTF-8, in an environment whose NT hash reports the error. -/
theorem mschap_failure_still_written_witness :
    sample_env.mschap_nt_password_hash
      (c_str (pair_value (special_attributes mschap_input).request_pairs 2)) = none ∧
    (mschapv1_encode sample_env (fun i => i) (special_attributes mschap_input).request_pairs
      (c_str (pair_value (special_attributes mschap_input).request_pairs 2))).1 = 0 ∧
    (send_one_packet sample_env (fun i => i) 0 (special_attributes mschap_input)).written =
      some ((special_attributes mschap_input).packet,
        (mschapv1_encode sample_env (fun i => i)
          (special_attributes mschap_input).request_pairs
          (c_str (pair_value (special_attributes mschap_input).request_pairs 2))).2) :=
  ⟨rfl,
   (mschap_failure_still_written sample_env (fun i => i) 0 (special_attributes mschap_input)
      2 1 (by decide) (by decide) (by decide) (by decide) rfl).1,
   (mschap_failure_still_written sample_env (fun i => i) 0 (special_attributes mschap_input)
      2 1 (by decide) (by decide) (by decide) (by decide) rfl).2.1⟩

/-! ## The order of transmission -/

/-- One invocation of `client_write` when `k` requests have been sent: it
passes request `k` to `send_one_packet` if there is one and suspends write
interest otherwise; the other requests are not touched. -/
theorem client_write_step (env : env_t) (rand : Nat → Nat) (now : Nat) (st : client_state)
    (k : Nat)
    (hnext : fr_dlist_next st.rc_request_list st.current =
      if k < st.rc_request_list.length then some k else none) :
    (client_write env rand now st).1.rc_request_list.length = st.rc_request_list.length ∧
    fr_dlist_next (client_write env rand now st).1.rc_request_list
        (client_write env rand now st).1.current =
      (if k + 1 < st.rc_request_list.length then some (k + 1) else none) ∧
    (client_write env rand now st).2 =
      (if k < st.rc_request_list.length then some k else none) ∧
    (∀ j, j ≠ k → (client_write env rand now st).1.rc_request_list[j]? =
      st.rc_request_list[j]?) ∧
    (client_write env rand now st).1.write_paused =
      (if k < st.rc_request_list.length then st.write_paused else true) := by
  by_cases hk : k < st.rc_request_list.length
  · simp only [hk, if_true] at hnext ⊢
    have hget : st.rc_request_list[k]? = some (st.rc_request_list[k]) :=
      List.getElem?_eq_getElem hk
    have hcw : client_write env rand now st =
        ({ st with
           current := some k
           rc_request_list := st.rc_request_list.set k
             (send_one_packet env rand now (st.rc_request_list[k])).request
           assert_failed := st.assert_failed ||
             decide ((send_one_packet env rand now (st.rc_request_list[k])).rcode < 0) },
         some k) := by
      unfold client_write
      rw [hnext]
      simp only [hget]
    rw [hcw]
    refine ⟨by simp, by simp [fr_dlist_next], rfl, ?_, rfl⟩
    intro j hj
    simp only
    rw [List.getElem?_set_ne (Ne.symm hj)]
  · simp only [hk, if_false] at hnext ⊢
    have hk1 : ¬ (k + 1 < st.rc_request_list.length) := by omega
    have hcw : client_write env rand now st = ({ st with write_paused := true }, none) := by
      unfold client_write
      rw [hnext]
    rw [hcw]
    simp only [hk1, if_false]
    exact ⟨trivial, hnext, trivial, fun _ _ => trivial, trivial⟩

theorem fr_dlist_next_head (list : List rc_request_t) :
    fr_dlist_next list none = if 0 < list.length then some 0 else none := rfl

/-- After `k` invocations from an unset cursor the cursor stands before
request `k`, and the requests from `k` on are as they were. -/
theorem client_write_iter_stage (env : env_t) (rand : Nat → Nat → Nat) (now : Nat → Nat)
    (st : client_state) (hcur : st.current = none) (k : Nat) :
    (client_write_iter env rand now k st).rc_request_list.length =
      st.rc_request_list.length ∧
    fr_dlist_next (client_write_iter env rand now k st).rc_request_list
        (client_write_iter env rand now k st).current =
      (if k < st.rc_request_list.length then some k else none) ∧
    (∀ j, k ≤ j → (client_write_iter env rand now k st).rc_request_list[j]? =
      st.rc_request_list[j]?) := by
  induction k with
  | zero =>
    refine ⟨rfl, ?_, fun _ _ => rfl⟩
    simp only [client_write_iter, hcur]
    exact fr_dlist_next_head _
  | succ k ih =>
    obtain ⟨hlen, hnext, hkeep⟩ := ih
    rw [← hlen] at hnext
    obtain ⟨slen, snext, _, skeep, _⟩ :=
      client_write_step env (rand k) (now k) (client_write_iter env rand now k st) k hnext
    simp only [client_write_iter]
    rw [hlen] at slen snext
    refine ⟨slen, snext, ?_⟩
    intro j hj
    rw [skeep j (by omega), hkeep j (by omega)]

/-- C9.  From an unset cursor, for every k with 1 <= k <= n the k-th
invocation of `client_write` passes the k-th request of the list (position
k - 1), still as it was queued, to `send_one_packet`; every invocation after
the n-th passes none. -/
theorem client_write_order (env : env_t) (rand : Nat → Nat → Nat) (now : Nat → Nat)
    (st : client_state) (hcur : st.current = none) (k : Nat) (hk : 1 ≤ k) :
    (k ≤ st.rc_request_list.length →
      (client_write env (rand (k - 1)) (now (k - 1))
        (client_write_iter env rand now (k - 1) st)).2 = some (k - 1) ∧
      (client_write_iter env rand now (k - 1) st).rc_request_list[k - 1]? =
        st.rc_request_list[k - 1]?) ∧
    (st.rc_request_list.length < k →
      (client_write env (rand (k - 1)) (now (k - 1))
        (client_write_iter env rand now (k - 1) st)).2 = none) := by
  obtain ⟨hlen, hnext, hkeep⟩ := client_write_iter_stage env rand now st hcur (k - 1)
  rw [← hlen] at hnext
  obtain ⟨_, _, hev, _, _⟩ := client_write_step env (rand (k - 1)) (now (k - 1))
    (client_write_iter env rand now (k - 1) st) (k - 1) hnext
  rw [hlen] at hev
  constructor
  · intro hkn
    have hlt : k - 1 < st.rc_request_list.length := by omega
    rw [hev]
    simp only [hlt, if_true]
    exact ⟨trivial, hkeep (k - 1) (Nat.le_refl _)⟩
  · intro hkn
    have hge : ¬ (k - 1 < st.rc_request_list.length) := by omega
    rw [hev]
    simp only [hge, if_false]

/-- Witness of C9: the second invocation on two queued requests. -/
theorem client_write_order_witness :
    resend_twice_state.current = none ∧
    (client_write sample_env (fun _ => 0) 0
      (client_write_iter sample_env (fun _ _ => 0) (fun _ => 0) (2 - 1)
        resend_twice_state)).2 = some (2 - 1) :=
  ⟨rfl, ((client_write_order sample_env (fun _ _ => 0) (fun _ => 0) resend_twice_state rfl 2
    (by decide)).1 (by decide)).1⟩

/-! ## The resend count -/

theorem client_writes_from_stage (env : env_t) (rand : Nat → Nat → Nat) (now : Nat → Nat)
    (n fuel k : Nat) (st : client_state)
    (hlen : st.rc_request_list.length = n)
    (hnext : fr_dlist_next st.rc_request_list st.current =
      if k < st.rc_request_list.length then some k else none)
    (hrun : st.write_paused = false) (hk : k ≤ n) (hfuel : n - k + 1 ≤ fuel) :
    (client_writes env rand now fuel k st).2 = List.range' k (n - k) ∧
    (client_writes env rand now fuel k st).1.write_paused = true := by
  induction fuel generalizing k st with
  | zero => omega
  | succ fuel ih =>
    obtain ⟨slen, snext, sev, _, spause⟩ := client_write_step env (rand k) (now k) st k hnext
    simp only [client_writes, hrun, Bool.false_eq_true, if_false]
    by_cases hkn : k < n
    · have hkl : k < st.rc_request_list.length := by omega
      simp only [hkl, if_true] at sev spause
      rw [← slen] at snext
      obtain ⟨h1, h2⟩ := ih (k + 1) (client_write env (rand k) (now k) st).1
        (by omega) snext (by rw [spause]; exact hrun) (by omega) (by omega)
      refine ⟨?_, h2⟩
      rw [sev, h1]
      have hn : n - k = (n - (k + 1)) + 1 := by omega
      rw [hn, List.range'_succ]
      rfl
    · have hkl : ¬ (k < st.rc_request_list.length) := by omega
      simp only [hkl, if_false] at sev spause
      have hstop : client_writes env rand now fuel (k + 1)
          (client_write env (rand k) (now k) st).1 =
          ((client_write env (rand k) (now k) st).1, []) := by
        cases fuel with
        | zero => rfl
        | succ f => simp only [client_writes, spause, if_true]
      rw [hstop, sev]
      have hz : n - k = 0 := by omega
      rw [hz]
      exact ⟨rfl, spause⟩

/-- C10, evaluated on the code.  Whatever the resend count, the run of
`client_write` from an unset cursor passes each of the n queued requests to
`send_one_packet` exactly once, in order, and then suspends write interest:
the requests sent are 0, 1, ..., n - 1. -/
theorem each_request_sent_once (env : env_t) (rand : Nat → Nat → Nat) (now : Nat → Nat)
    (fuel : Nat) (st : client_state)
    (hcur : st.current = none) (hrun : st.write_paused = false)
    (hfuel : st.rc_request_list.length < fuel) :
    (client_writes env rand now fuel 0 st).2 = List.range st.rc_request_list.length ∧
    (client_writes env rand now fuel 0 st).1.write_paused = true ∧
    ∀ i, i < st.rc_request_list.length →
      (client_writes env rand now fuel 0 st).2.count i = 1 := by
  have hnext : fr_dlist_next st.rc_request_list st.current =
      if 0 < st.rc_request_list.length then some 0 else none := by
    rw [hcur]
    rfl
  obtain ⟨h1, h2⟩ := client_writes_from_stage env rand now st.rc_request_list.length fuel 0 st
    rfl hnext hrun (Nat.zero_le _) (by omega)
  rw [Nat.sub_zero, ← List.range_eq_range'] at h1
  refine ⟨h1, h2, ?_⟩
  intro i hi
  rw [h1]
  exact List.count_eq_one_of_mem (List.nodup_range _) (List.mem_range.mpr hi)

/-- Witness of C10: two requests queued with `-c 2`; each is sent once. -/
theorem each_request_sent_once_witness :
    resend_twice_state.resend_count = 2 ∧
    (client_writes sample_env (fun _ _ => 0) (fun _ => 0) 3 0 resend_twice_state).2 = [0, 1] :=
  ⟨rfl, (each_request_sent_once sample_env (fun _ _ => 0) (fun _ => 0) 3 resend_twice_state
    rfl rfl (by decide)).1⟩

/-! ## The special-attribute loop runs to the end of the list -/

theorem pair_set_value_length (list : List fr_pair_t) (k : Nat) (value : List uint8_t) :
    (pair_set_value list k value).length = list.length := by
  unfold pair_set_value
  split <;> simp

theorem pair_set_value_cons_succ (x : fr_pair_t) (xs : List fr_pair_t) (k : Nat)
    (value : List uint8_t) :
    pair_set_value (x :: xs) (k + 1) value = x :: pair_set_value xs k value := by
  simp only [pair_set_value, List.getElem?_cons_succ]
  split <;> simp

theorem fr_pair_find_by_da_set_value (list : List fr_pair_t) (k : Nat)
    (value : List uint8_t) (da : fr_dict_attr_t) :
    fr_pair_find_by_da (pair_set_value list k value) da = fr_pair_find_by_da list da := by
  induction list generalizing k with
  | nil => simp [pair_set_value]
  | cons x xs ih =>
    cases k with
    | zero => simp [pair_set_value, fr_pair_find_by_da]
    | succ k =>
      rw [pair_set_value_cons_succ]
      simp only [fr_pair_find_by_da, ih]

/-- The length of the list plus one if it has no cleartext password pair: the
longest the list can become during the special-attribute loop. -/
theorem special_attribute_bound (request : rc_request_t) (i : Nat) (vp : fr_pair_t) :
    (special_attribute request i vp).request_pairs.length +
        (if fr_pair_find_by_da (special_attribute request i vp).request_pairs
          attr_cleartext_password = none then 1 else 0) =
      request.request_pairs.length +
        (if fr_pair_find_by_da request.request_pairs attr_cleartext_password = none
          then 1 else 0) := by
  have hupd : (password_bstrndup (pair_update_request request attr_cleartext_password)
        vp).request_pairs.length +
        (if fr_pair_find_by_da (password_bstrndup
            (pair_update_request request attr_cleartext_password) vp).request_pairs
          attr_cleartext_password = none then 1 else 0) =
      request.request_pairs.length +
        (if fr_pair_find_by_da request.request_pairs attr_cleartext_password = none
          then 1 else 0) := by
    cases hf : fr_pair_find_by_da request.request_pairs attr_cleartext_password with
    | some k =>
      simp only [password_bstrndup, pair_update_request, hf, pair_set_value_length,
        fr_pair_find_by_da_set_value]
    | none =>
      have hnew : fr_pair_find_by_da
          (request.request_pairs ++ [fr_pair_afrom_da attr_cleartext_password])
          attr_cleartext_password = some request.request_pairs.length :=
        fr_pair_find_by_da_first _ [] _ _ (fr_pair_find_by_da_none _ _ hf) rfl
      simp only [password_bstrndup, pair_update_request, hf, pair_set_value_length,
        fr_pair_find_by_da_set_value, fr_pair_append, hnew]
      simp
  unfold special_attribute
  split
  · rfl
  · split
    · rfl
    · split
      · rfl
      · split
        · split
          · rfl
          · exact hupd
        · split
          · exact hupd
          · split
            · rfl
            · rfl

theorem special_attributes_from_stable (fuel i : Nat) (request : rc_request_t)
    (hfuel : request.request_pairs.length +
        (if fr_pair_find_by_da request.request_pairs attr_cleartext_password = none
          then 1 else 0) ≤ fuel + i) :
    special_attributes_from (fuel + 1) i request = special_attributes_from fuel i request := by
  induction fuel generalizing i request with
  | zero =>
    have hi : request.request_pairs.length ≤ i := by omega
    simp [special_attributes_from, List.getElem?_eq_none hi]
  | succ fuel ih =>
    rw [special_attributes_from.eq_def]
    conv => rhs; rw [special_attributes_from.eq_def]
    simp only
    cases hget : request.request_pairs[i]? with
    | none => rfl
    | some vp =>
      simp only
      apply ih
      rw [special_attribute_bound]
      omega

/-- The fuel given to the special-attribute loop is enough: more fuel gives
the same result, so the loop has reached the end of the list. -/
theorem special_attributes_complete (request : rc_request_t) (extra : Nat) :
    special_attributes_from (request.request_pairs.length + 1 + extra) 0 request =
      special_attributes request := by
  induction extra with
  | zero => rfl
  | succ extra ih =>
    rw [← ih]
    have h := special_attributes_from_stable (request.request_pairs.length + 1 + extra) 0
      request (by split <;> omega)
    exact h

/-! ## An exhausted collection -/

/-- C11.  When no request follows the send cursor, `client_write` passes no
request to `send_one_packet`, leaves the cursor, the request list (every field
of every request) and the other globals as they were, and suspends write
interest. -/
theorem client_write_exhausted (env : env_t) (rand : Nat → Nat) (now : Nat)
    (st : client_state)
    (h : fr_dlist_next st.rc_request_list st.current = none) :
    (client_write env rand now st).2 = none ∧
    (client_write env rand now st).1.current = st.current ∧
    (client_write env rand now st).1.rc_request_list = st.rc_request_list ∧
    (client_write env rand now st).1.write_paused = true ∧
    (client_write env rand now st).1 = { st with write_paused := true } := by
  have hcw : client_write env rand now st = ({ st with write_paused := true }, none) := by
    unfold client_write
    rw [h]
  rw [hcw]
  exact ⟨rfl, rfl, rfl, rfl, rfl⟩

/-- Witness of C11: two requests queued, the cursor on the second. -/
theorem client_write_exhausted_witness :
    fr_dlist_next exhausted_state.rc_request_list exhausted_state.current = none ∧
    (client_write sample_env (fun _ => 0) 0 exhausted_state).1 =
      { exhausted_state with write_paused := true } :=
  ⟨by decide, (client_write_exhausted sample_env (fun _ => 0) 0 exhausted_state
    (by decide)).2.2.2.2⟩

/-! ## Releasing the identifier -/

/-- C12.  For a request whose identifier is set (`packet->id >= 0`),
`deallocate_id` leaves the identifier at -1, no encoded data and no reply
packet, whatever the cancel routine does to the packet. -/
theorem deallocate_id_clears (cancel : fr_packet_t → fr_packet_t)
    (request : rc_request_t) (h : 0 ≤ request.packet.id) :
    (deallocate_id cancel request).packet.id = -1 ∧
    (deallocate_id cancel request).packet.data = none ∧
    (deallocate_id cancel request).reply = none := by
  have hlt : ¬ (request.packet.id < 0) := by omega
  simp [deallocate_id, hlt]

/-- Witness of C12: a request in flight with identifier 7. -/
theorem deallocate_id_clears_witness :
    (0 : Int) ≤ in_flight_request.packet.id ∧
    (deallocate_id (fun p => p) in_flight_request).packet.id = -1 :=
  ⟨by decide, (deallocate_id_clears (fun p => p) in_flight_request (by decide)).1⟩

/-! ## The exit status -/

/-- C16.  The status `main` returns is non-zero whenever `lost > 0` or
`failed > 0`, and it is zero only when both counters are zero. -/
theorem exit_status_reflects_failures (dict_autofree : Int) (stats : rc_stats_t) :
    ((stats.lost > 0 ∨ stats.failed > 0) → main_exit_status dict_autofree stats ≠ 0) ∧
    (main_exit_status dict_autofree stats = 0 → stats.lost = 0 ∧ stats.failed = 0) := by
  constructor
  · intro h
    simp [main_exit_status, h, EXIT_FAILURE]
  · intro h
    by_cases hc : stats.lost > 0 ∨ stats.failed > 0
    · simp [main_exit_status, hc, EXIT_FAILURE] at h
    · omega

/-! ## The read callback -/

/-- C19, evaluated on the code.  Whatever `fr_bio_packet_read` returns,
`client_read` changes no statistics counter and no request, cursor or other
global, but it does run into `fr_assert(0)`: it does not return normally in a
build with assertions. -/
theorem client_read_asserts (rcode : Int) (st : client_state) (stats : rc_stats_t) :
    (client_read rcode st stats).2 = stats ∧
    (client_read rcode st stats).1.rc_request_list = st.rc_request_list ∧
    (client_read rcode st stats).1 = { st with assert_failed := true } ∧
    (client_read rcode st stats).1.assert_failed = true := by
  unfold client_read
  refine ⟨rfl, ?_, ?_, rfl⟩
  · split <;> split <;> rfl
  · split <;> split <;> rfl

/-! ## Per-request data -/

theorem request_data_reference_add_same (unique_ptr : Nat) (unique_int : Int)
    (opaque_ptr : Nat) (free_opaque_flag : Bool) (data : List request_data_t) :
    request_data_reference_list unique_ptr unique_int
      (request_data_add_list unique_ptr unique_int opaque_ptr free_opaque_flag data) = opaque_ptr := by
  induction data with
  | nil => simp [request_data_add_list, request_data_reference_list]
  | cons this next ih =>
    unfold request_data_add_list
    split
    · simp [request_data_reference_list]
    · rename_i hne
      simp only [request_data_reference_list, hne, if_false]
      exact ih

theorem request_data_reference_add_other (unique_ptr : Nat) (unique_int : Int)
    (opaque_ptr : Nat) (free_opaque_flag : Bool) (data : List request_data_t)
    (ptr2 : Nat) (int2 : Int) (hne : ¬ (ptr2 = unique_ptr ∧ int2 = unique_int)) :
    request_data_reference_list ptr2 int2
      (request_data_add_list unique_ptr unique_int opaque_ptr free_opaque_flag data) =
    request_data_reference_list ptr2 int2 data := by
  induction data with
  | nil =>
    have h : ¬ (unique_ptr = ptr2 ∧ unique_int = int2) := fun h => hne ⟨h.1.symm, h.2.symm⟩
    simp [request_data_add_list, request_data_reference_list, h]
  | cons this next ih =>
    unfold request_data_add_list
    split
    · rename_i heq
      have h1 : ¬ (unique_ptr = ptr2 ∧ unique_int = int2) :=
        fun h => hne ⟨h.1.symm, h.2.symm⟩
      have h2 : ¬ (this.unique_ptr = ptr2 ∧ this.unique_int = int2) := by
        rw [heq.1, heq.2]
        exact h1
      simp only [request_data_reference_list, h1, h2, if_false]
    · by_cases hk : this.unique_ptr = ptr2 ∧ this.unique_int = int2
      · simp only [request_data_reference_list, hk, and_self, if_true]
      · simp only [request_data_reference_list, hk, if_false]
        exact ih

/-- C20.  `request_data_add` returns -1 and leaves the request as it was
exactly when the request or the opaque pointer is `NULL`, and returns 0
otherwise; after it has returned 0, `request_data_reference` gives the opaque
pointer for the key added and, for every other key, what it gave before. -/
theorem request_data_add_reference (request : Option REQUEST) (unique_ptr : Nat)
    (unique_int : Int) (opaque_ptr : Nat) (free_opaque_flag : Bool) :
    ((request_data_add request unique_ptr unique_int opaque_ptr free_opaque_flag).1 = -1 ↔
      (request = none ∨ opaque_ptr = 0)) ∧
    ((request_data_add request unique_ptr unique_int opaque_ptr free_opaque_flag).1 = -1 →
      (request_data_add request unique_ptr unique_int opaque_ptr free_opaque_flag).2 = request) ∧
    ((request_data_add request unique_ptr unique_int opaque_ptr free_opaque_flag).1 = -1 ∨
      (request_data_add request unique_ptr unique_int opaque_ptr free_opaque_flag).1 = 0) ∧
    ((request_data_add request unique_ptr unique_int opaque_ptr free_opaque_flag).1 = 0 →
      ∃ before after, request = some before ∧
        (request_data_add request unique_ptr unique_int opaque_ptr free_opaque_flag).2 =
          some after ∧
        request_data_reference after unique_ptr unique_int = opaque_ptr ∧
        ∀ ptr2 int2, ¬ (ptr2 = unique_ptr ∧ int2 = unique_int) →
          request_data_reference after ptr2 int2 =
            request_data_reference before ptr2 int2) := by
  cases request with
  | none => simp [request_data_add]
  | some req =>
    by_cases hz : opaque_ptr = 0
    · simp [request_data_add, hz]
    · simp only [request_data_add, hz, if_false]
      refine ⟨by simp, by simp, by simp, ?_⟩
      intro _
      refine ⟨req, _, rfl, rfl, ?_, ?_⟩
      · exact request_data_reference_add_same _ _ _ _ _
      · intro ptr2 int2 hne
        exact request_data_reference_add_other _ _ _ _ _ ptr2 int2 hne

/-! ## Sequence numbers -/

theorem password_update_num (request : rc_request_t) (vp : fr_pair_t) :
    (password_bstrndup (pair_update_request request attr_cleartext_password) vp).num =
      request.num := by
  unfold password_bstrndup pair_update_request
  split <;> split <;> simp_all

theorem special_attribute_num (request : rc_request_t) (i : Nat) (vp : fr_pair_t) :
    (special_attribute request i vp).num = request.num := by
  unfold special_attribute
  split
  · rfl
  · split
    · rfl
    · split
      · rfl
      · split
        · split
          · rfl
          · exact password_update_num request vp
        · split
          · exact password_update_num request vp
          · split
            · rfl
            · rfl

theorem special_attributes_from_num (fuel i : Nat) (request : rc_request_t) :
    (special_attributes_from fuel i request).num = request.num := by
  induction fuel generalizing i request with
  | zero => rfl
  | succ fuel ih =>
    unfold special_attributes_from
    split
    · rfl
    · rw [ih, special_attribute_num]

theorem infer_codes_num (ports : ports_t) (request r : rc_request_t)
    (h : infer_codes ports request = some r) : r.num = request.num := by
  unfold infer_codes at h
  repeat' split at h
  all_goals first
    | (cases h; rfl)
    | cases h

theorem set_dst_port_num (ports : ports_t) (request r : rc_request_t)
    (h : set_dst_port ports request = some r) : r.num = request.num := by
  unfold set_dst_port at h
  simp only at h
  repeat' split at h
  all_goals first
    | (cases h; rfl)
    | cases h

theorem radclient_init_request_num (cfg : loader_t) (name : List uint8_t)
    (request r : rc_request_t) (h : radclient_init_request cfg name request = some r) :
    r.num = request.num := by
  unfold radclient_init_request at h
  split at h
  · cases h
  · rename_i r1 h1
    rw [set_dst_port_num _ _ _ h, infer_codes_num _ _ _ h1]
    have hs : (special_attributes request).num = request.num :=
      special_attributes_from_num _ 0 request
    rw [← hs]
    unfold set_default_name set_packet_header set_default_code
    split <;> split <;> rfl

theorem load_filter_num (cfg : loader_t) (request : rc_request_t) (filter : List fr_pair_t) :
    (load_filter cfg request filter).num = request.num := by
  unfold load_filter
  simp only
  split <;> rfl

theorem read_filter_num (cfg : loader_t) (request : rc_request_t) (filters : Option rc_file)
    (packets_done : Bool) (r : rc_request_t) (rest : Option rc_file)
    (h : read_filter cfg request filters packets_done = some (r, rest)) :
    r.num = request.num := by
  unfold read_filter at h
  repeat' split at h
  all_goals first
    | (cases h; rfl)
    | (cases h; exact load_filter_num _ _ _)
    | cases h

/-- The loop of `radclient_init` has fuel enough when it is given one unit
more than the packets stream has records. -/
theorem radclient_init_loop_returns (cfg : loader_t) (name : List uint8_t) (fuel : Nat)
    (packets : rc_file) (filters : Option rc_file) (num : Nat) (list : List rc_request_t)
    (hfuel : packets.length + 1 ≤ fuel) :
    ∃ result, radclient_init_loop cfg name fuel packets filters num list = some result := by
  induction fuel generalizing packets filters num list with
  | zero => omega
  | succ fuel ih =>
    unfold radclient_init_loop
    cases packets with
    | nil =>
      simp [fr_pair_list_afrom_file]
    | cons record rest =>
      have hrest : rest.length + 1 ≤ fuel := by
        simp only [List.length_cons] at hfuel
        omega
      simp only [fr_pair_list_afrom_file]
      cases record with
      | none => exact ⟨_, rfl⟩
      | some pairs =>
        simp only
        split
        · split
          · exact ⟨_, rfl⟩
          · exact ih rest filters (num + 1) list hrest
        · split
          · exact ⟨_, rfl⟩
          · split
            · exact ⟨_, rfl⟩
            · split
              · exact ⟨_, rfl⟩
              · exact ih rest _ (num + 1) _ hrest

/-- The function `radclient_init` returns for every file pair. -/
theorem radclient_init_returns (cfg : loader_t) (files : rc_file_pair_t)
    (list : List rc_request_t) :
    ∃ result, radclient_init cfg files list = some result := by
  unfold radclient_init
  split
  · exact ⟨_, rfl⟩
  · split
    · exact radclient_init_loop_returns _ _ _ _ _ _ _ (Nat.le_refl _)
    · split
      · exact ⟨_, rfl⟩
      · exact radclient_init_loop_returns _ _ _ _ _ _ _ (Nat.le_refl _)
      · exact radclient_init_loop_returns _ _ _ _ _ _ _ (Nat.le_refl _)

/-- The requests one run of the loop appends carry increasing numbers, none
below the counter the run started with. -/
theorem radclient_init_loop_nums (cfg : loader_t) (name : List uint8_t) (fuel : Nat)
    (packets : rc_file) (filters : Option rc_file) (num : Nat) (list : List rc_request_t)
    (rcode : Int) (out : List rc_request_t)
    (h : radclient_init_loop cfg name fuel packets filters num list = some (rcode, out)) :
    ∃ queued, out = list ++ queued ∧
      List.Pairwise (fun a b : rc_request_t => a.num < b.num) queued ∧
      ∀ r ∈ queued, num ≤ r.num := by
  induction fuel generalizing packets filters num list with
  | zero => simp [radclient_init_loop] at h
  | succ fuel ih =>
    unfold radclient_init_loop at h
    have hnone : ∀ (l : List rc_request_t) (c : Int), some (c, l) = some (rcode, out) →
        l = list → ∃ queued, out = list ++ queued ∧
          List.Pairwise (fun a b : rc_request_t => a.num < b.num) queued ∧
          ∀ r ∈ queued, num ≤ r.num := by
      intro l c hl hlist
      cases hl
      exact ⟨[], by simp [hlist], List.Pairwise.nil, by simp⟩
    simp only at h
    split at h
    · exact hnone _ _ h rfl
    · rename_i pairs packets_done rest _
      split at h
      · split at h
        · exact hnone _ _ h rfl
        · obtain ⟨queued, hout, hpw, hge⟩ := ih rest filters (num + 1) list h
          exact ⟨queued, hout, hpw, fun r hr => Nat.le_of_succ_le (hge r hr)⟩
      · split at h
        · exact hnone _ _ h rfl
        · rename_i r1 filters1 hread
          have hn1 : r1.num = num := read_filter_num _ _ _ _ _ _ hread
          split at h
          · exact hnone _ _ h rfl
          · rename_i r2 hreq
            have hn2 : r2.num = num := by
              rw [radclient_init_request_num _ _ _ _ hreq, hn1]
            split at h
            · cases h
              refine ⟨[r2], rfl, List.pairwise_singleton _ _, ?_⟩
              intro r hr
              rw [List.mem_singleton.mp hr, hn2]
            · obtain ⟨queued, hout, hpw, hge⟩ := ih rest filters1 (num + 1) (list ++ [r2]) h
              refine ⟨r2 :: queued, by simp [hout], ?_, ?_⟩
              · refine List.Pairwise.cons ?_ hpw
                intro b hb
                have := hge b hb
                omega
              · intro r hr
                rcases List.mem_cons.mp hr with rfl | hr
                · omega
                · exact Nat.le_of_succ_le (hge r hr)

/-- C13, as stated, fails: with two file pairs of one packet record each, the
collection `main` builds holds two requests, and both carry number 0. -/
theorem sequence_numbers_counterexample :
    (main_load sample_loader [] [one_record_files, one_record_files]).map
        (fun list => list.map (fun r => r.num)) = some [0, 0] ∧
    ∃ list r1 r2,
      main_load sample_loader [] [one_record_files, one_record_files] = some list ∧
      list[0]? = some r1 ∧ list[1]? = some r2 ∧ r1.num = r2.num := by
  have h : main_load sample_loader [] [one_record_files, one_record_files] =
      some [ { (special_attributes { request_pairs := user_record }) with
                 packet := { code := FR_RADIUS_CODE_ACCESS_REQUEST, dst_port := 1812 }
                 name := some []
                 filter_code := FR_RADIUS_CODE_ACCESS_ACCEPT },
             { (special_attributes { request_pairs := user_record }) with
                 packet := { code := FR_RADIUS_CODE_ACCESS_REQUEST, dst_port := 1812 }
                 name := some []
                 filter_code := FR_RADIUS_CODE_ACCESS_ACCEPT } ] := by
    decide
  rw [h]
  exact ⟨rfl, _, _, _, rfl, rfl, rfl, rfl⟩

/-- C13, amended.  The requests that one `radclient_init` call appends to the
collection carry strictly increasing, hence pairwise different, sequence
numbers; the count starts again at 0 in each call. -/
theorem sequence_numbers_per_call (cfg : loader_t) (files : rc_file_pair_t)
    (list : List rc_request_t) (rcode : Int) (out : List rc_request_t)
    (h : radclient_init cfg files list = some (rcode, out)) :
    ∃ queued, out = list ++ queued ∧
      List.Pairwise (fun a b : rc_request_t => a.num < b.num) queued ∧
      ∀ (i j : Nat) (r1 r2 : rc_request_t), i ≠ j → queued[i]? = some r1 →
        queued[j]? = some r2 → r1.num ≠ r2.num := by
  have key : ∃ queued, out = list ++ queued ∧
      List.Pairwise (fun a b : rc_request_t => a.num < b.num) queued := by
    unfold radclient_init at h
    split at h
    · cases h
      exact ⟨[], by simp, List.Pairwise.nil⟩
    · split at h
      · obtain ⟨q, h1, h2, _⟩ := radclient_init_loop_nums _ _ _ _ _ _ _ _ _ h
        exact ⟨q, h1, h2⟩
      · split at h
        · cases h
          exact ⟨[], by simp, List.Pairwise.nil⟩
        · obtain ⟨q, h1, h2, _⟩ := radclient_init_loop_nums _ _ _ _ _ _ _ _ _ h
          exact ⟨q, h1, h2⟩
        · obtain ⟨q, h1, h2, _⟩ := radclient_init_loop_nums _ _ _ _ _ _ _ _ _ h
          exact ⟨q, h1, h2⟩
  obtain ⟨queued, hout, hpw⟩ := key
  refine ⟨queued, hout, hpw, ?_⟩
  intro i j r1 r2 hij h1 h2
  have hi : i < queued.length := by
    rcases Nat.lt_or_ge i queued.length with hlt | hge
    · exact hlt
    · rw [List.getElem?_eq_none hge] at h1
      cases h1
  have hj : j < queued.length := by
    rcases Nat.lt_or_ge j queued.length with hlt | hge
    · exact hlt
    · rw [List.getElem?_eq_none hge] at h2
      cases h2
  rw [List.getElem?_eq_getElem hi] at h1
  rw [List.getElem?_eq_getElem hj] at h2
  cases h1
  cases h2
  rcases Nat.lt_or_gt_of_ne hij with hlt | hgt
  · exact Nat.ne_of_lt (List.pairwise_iff_getElem.mp hpw i j hi hj hlt)
  · exact Nat.ne_of_gt (List.pairwise_iff_getElem.mp hpw j i hj hi hgt)

/-- Witness of C13 amended: a file pair with two packet records and their
filters. -/
theorem sequence_numbers_per_call_witness :
    radclient_init sample_loader two_record_files [] = some (0, two_record_requests) ∧
    two_record_requests.map (fun r => r.num) = [0, 1] ∧
    ∃ queued, two_record_requests = [] ++ queued ∧
      List.Pairwise (fun a b : rc_request_t => a.num < b.num) queued ∧
      ∀ (i j : Nat) (r1 r2 : rc_request_t), i ≠ j → queued[i]? = some r1 →
        queued[j]? = some r2 → r1.num ≠ r2.num :=
  ⟨by decide, by decide,
    sequence_numbers_per_call sample_loader two_record_files [] 0 two_record_requests
      (by decide)⟩

/-! ## Unequal record counts -/

/-- C15, evaluated on the code.  A packets file with one record and a blank
tail, paired with a filters file of three records, is loaded without error:
`radclient_init` returns 0 and queues one request.  Without the blank tail the
same pair is refused with -1. -/
theorem record_count_mismatch_accepted :
    (radclient_init sample_loader blank_tail_files []).map
        (fun result => (result.1, result.2.length)) = some (0, 1) ∧
    (radclient_init sample_loader no_tail_files []).map
        (fun result => (result.1, result.2.length)) = some (-1, 0) := by
  decide

/-! ## The expected reply code -/

theorem password_update_filter_code (request : rc_request_t) (vp : fr_pair_t) :
    (password_bstrndup (pair_update_request request attr_cleartext_password) vp).filter_code =
      request.filter_code := by
  unfold password_bstrndup pair_update_request
  split <;> split <;> simp_all

theorem special_attribute_filter_code (request : rc_request_t) (i : Nat) (vp : fr_pair_t) :
    (special_attribute request i vp).filter_code = request.filter_code := by
  unfold special_attribute
  split
  · rfl
  · split
    · rfl
    · split
      · rfl
      · split
        · split
          · rfl
          · exact password_update_filter_code request vp
        · split
          · exact password_update_filter_code request vp
          · split
            · rfl
            · rfl

theorem special_attributes_from_filter_code (fuel i : Nat) (request : rc_request_t) :
    (special_attributes_from fuel i request).filter_code = request.filter_code := by
  induction fuel generalizing i request with
  | zero => rfl
  | succ fuel ih =>
    unfold special_attributes_from
    split
    · rfl
    · rw [ih, special_attribute_filter_code]

/-- The steps of the loader between the filter read and the code switches
leave the expected reply code alone. -/
theorem filter_code_before_switch (cfg : loader_t) (name : List uint8_t)
    (request : rc_request_t) :
    (set_default_name name (set_packet_header cfg (set_default_code cfg
      (special_attributes request)))).filter_code = request.filter_code := by
  have hs : (special_attributes request).filter_code = request.filter_code :=
    special_attributes_from_filter_code _ 0 request
  rw [← hs]
  unfold set_default_name set_packet_header set_default_code
  split <;> split <;> rfl

/-- C14, as stated, fails: a filter that supplies Packet-Type = 0 does not fix
the expected reply code at 0; for an Access-Request the loader sets it to
Access-Accept. -/
theorem expected_reply_code_counterexample :
    fr_pair_find_by_da zero_type_filter attr_packet_type = some 0 ∧
    zero_type_filter[0]?.map (fun vp => vp.vp_uint32) = some 0 ∧
    (radclient_init sample_loader zero_type_files []).map
        (fun result => (result.1, result.2.map (fun r => (r.packet.code, r.filter_code)))) =
      some (0, [(FR_RADIUS_CODE_ACCESS_REQUEST, FR_RADIUS_CODE_ACCESS_ACCEPT)]) ∧
    FR_RADIUS_CODE_ACCESS_ACCEPT ≠ 0 := by
  decide

/-- C14, amended.  With no expected reply code set (the filter supplies no
Packet-Type, or supplies the value 0), the loader infers it from the request
code: Access-Request gives Access-Accept, Accounting-Request gives
Accounting-Response, CoA-Request gives CoA-ACK, Disconnect-Request gives
Disconnect-ACK, and for a request code that is none of these and not
Status-Server the load fails.  When the filter supplies a Packet-Type other
than 0, the expected reply code is that value whatever the request code, in
every request the loader keeps, and the code switches fail only when the
request code is undefined. -/
theorem expected_reply_code (cfg : loader_t) (name : List uint8_t) (request : rc_request_t)
    (filter : List fr_pair_t) :
    (request.filter_code = FR_RADIUS_CODE_UNDEFINED →
      (request.packet.code = FR_RADIUS_CODE_ACCESS_REQUEST →
        infer_codes cfg.ports request =
          some { request with filter_code := FR_RADIUS_CODE_ACCESS_ACCEPT }) ∧
      (request.packet.code = FR_RADIUS_CODE_ACCOUNTING_REQUEST →
        infer_codes cfg.ports request =
          some { request with filter_code := FR_RADIUS_CODE_ACCOUNTING_RESPONSE }) ∧
      (request.packet.code = FR_RADIUS_CODE_COA_REQUEST →
        infer_codes cfg.ports request =
          some { request with filter_code := FR_RADIUS_CODE_COA_ACK }) ∧
      (request.packet.code = FR_RADIUS_CODE_DISCONNECT_REQUEST →
        infer_codes cfg.ports request =
          some { request with filter_code := FR_RADIUS_CODE_DISCONNECT_ACK }) ∧
      (request.packet.code ≠ FR_RADIUS_CODE_ACCESS_REQUEST →
        request.packet.code ≠ FR_RADIUS_CODE_ACCOUNTING_REQUEST →
        request.packet.code ≠ FR_RADIUS_CODE_COA_REQUEST →
        request.packet.code ≠ FR_RADIUS_CODE_DISCONNECT_REQUEST →
        request.packet.code ≠ FR_RADIUS_CODE_STATUS_SERVER →
        infer_codes cfg.ports request = none)) ∧
    ((∀ p ∈ filter, p.da ≠ attr_packet_type) →
      (load_filter cfg request filter).filter_code = request.filter_code) ∧
    (∀ (i : Nat) (vp : fr_pair_t), fr_pair_find_by_da filter attr_packet_type = some i →
      filter[i]? = some vp →
      (load_filter cfg request filter).filter_code = vp.vp_uint32) ∧
    ((set_default_name name (set_packet_header cfg (set_default_code cfg
      (special_attributes request)))).filter_code = request.filter_code) ∧
    (request.filter_code ≠ FR_RADIUS_CODE_UNDEFINED →
      (∀ r, infer_codes cfg.ports request = some r → r.filter_code = request.filter_code) ∧
      (request.packet.code ≠ FR_RADIUS_CODE_UNDEFINED →
        infer_codes cfg.ports request = some request)) := by
  refine ⟨?_, ?_, ?_, filter_code_before_switch cfg name request, ?_⟩
  · intro hf
    refine ⟨?_, ?_, ?_, ?_, ?_⟩
    · intro hc
      simp [infer_codes, hf, hc]
    · intro hc
      simp [infer_codes, hf, hc, FR_RADIUS_CODE_ACCOUNTING_REQUEST,
        FR_RADIUS_CODE_ACCESS_REQUEST]
    · intro hc
      simp [infer_codes, hf, hc, FR_RADIUS_CODE_ACCOUNTING_REQUEST,
        FR_RADIUS_CODE_ACCESS_REQUEST, FR_RADIUS_CODE_COA_REQUEST]
    · intro hc
      simp [infer_codes, hf, hc, FR_RADIUS_CODE_ACCOUNTING_REQUEST,
        FR_RADIUS_CODE_ACCESS_REQUEST, FR_RADIUS_CODE_COA_REQUEST,
        FR_RADIUS_CODE_DISCONNECT_REQUEST]
    · intro h1 h2 h3 h4 h5
      simp [infer_codes, hf, h1, h2, h3, h4, h5]
  · intro hno
    simp [load_filter, fr_pair_find_by_da_eq_none _ _ hno]
  · intro i vp hfind hget
    simp [load_filter, hfind, hget]
  · intro hf
    constructor
    · intro r hr
      unfold infer_codes at hr
      simp only [hf, if_false] at hr
      repeat' split at hr
      all_goals first
        | (cases hr; rfl)
        | cases hr
    · intro hc
      simp [infer_codes, hf, hc]

/-! ## The reply verdict -/

theorem deallocate_id_filter_code (cancel : fr_packet_t → fr_packet_t)
    (request : rc_request_t) :
    (deallocate_id cancel request).filter_code = request.filter_code := by
  unfold deallocate_id
  split <;> rfl

theorem count_reply_code_verdicts (stats : rc_stats_t) (code : Nat) :
    (count_reply_code stats code).failed = stats.failed ∧
    (count_reply_code stats code).passed = stats.passed := by
  unfold count_reply_code
  split
  · exact ⟨rfl, rfl⟩
  · split <;> exact ⟨rfl, rfl⟩

theorem count_reply_code_sum (stats : rc_stats_t) (code : Nat) :
    (count_reply_code stats code).accepted + (count_reply_code stats code).rejected =
      stats.accepted + stats.rejected +
        (if code = FR_RADIUS_CODE_ACCESS_CHALLENGE then 0 else 1) := by
  by_cases ha : code = FR_RADIUS_CODE_ACCESS_ACCEPT ∨
      code = FR_RADIUS_CODE_ACCOUNTING_RESPONSE ∨
      code = FR_RADIUS_CODE_COA_ACK ∨ code = FR_RADIUS_CODE_DISCONNECT_ACK
  · have hne : code ≠ FR_RADIUS_CODE_ACCESS_CHALLENGE := by
      rcases ha with h | h | h | h <;> rw [h] <;> decide
    simp only [count_reply_code, ha, hne, if_true, if_false]
    omega
  · by_cases hc : code = FR_RADIUS_CODE_ACCESS_CHALLENGE
    · subst hc
      simp [count_reply_code, FR_RADIUS_CODE_ACCESS_CHALLENGE, FR_RADIUS_CODE_ACCESS_ACCEPT,
        FR_RADIUS_CODE_ACCOUNTING_RESPONSE, FR_RADIUS_CODE_COA_ACK,
        FR_RADIUS_CODE_DISCONNECT_ACK]
    · simp only [count_reply_code, ha, hc, if_false]
      omega

/-- The statistics after `recv_one_packet` on a reply that decodes: the
counter switch on the reply code, then one of `passed` and `failed`. -/
theorem recv_one_packet_decoded (renv : recv_env_t) (resend_count : Nat)
    (stats : rc_stats_t) (request : rc_request_t) (reply : fr_packet_t)
    (reply_pairs : List fr_pair_t)
    (hdec : renv.fr_radius_decode_simple
      (deallocate_id renv.fr_radius_client_fd_bio_cancel request).reply_pairs reply
      (deallocate_id renv.fr_radius_client_fd_bio_cancel request).packet.vector
        = some reply_pairs) :
    ((recv_one_packet renv resend_count stats request reply).1.accepted =
        (count_reply_code stats reply.code).accepted ∧
      (recv_one_packet renv resend_count stats request reply).1.rejected =
        (count_reply_code stats reply.code).rejected) ∧
    (request.filter_code ≠ FR_RADIUS_CODE_UNDEFINED ∧ reply.code ≠ request.filter_code →
      (recv_one_packet renv resend_count stats request reply).1.failed = stats.failed + 1 ∧
      (recv_one_packet renv resend_count stats request reply).1.passed = stats.passed) := by
  have hfc := deallocate_id_filter_code renv.fr_radius_client_fd_bio_cancel request
  have hv := count_reply_code_verdicts stats reply.code
  unfold recv_one_packet
  simp only [hdec, hfc]
  constructor
  · split
    · exact ⟨rfl, rfl⟩
    · split
      · exact ⟨rfl, rfl⟩
      · split <;> exact ⟨rfl, rfl⟩
  · intro hc
    simp only [hc, ne_eq, not_false_eq_true, and_self, if_true]
    exact ⟨by rw [hv.1], hv.2⟩

/-- C17, as stated, fails: a loaded Status-Server request to a port that is
neither an authentication nor an accounting port has no expected reply code
(it is undefined, 0); an Access-Accept reply differs from that code, and still
the reply passes: `passed` is incremented and `failed` is not. -/
theorem code_mismatch_counterexample :
    infer_codes sample_ports status_request = some status_request ∧
    accept_reply.code ≠ status_request.filter_code ∧
    (recv_one_packet sample_recv_env 1 {} status_request accept_reply).1.failed = 0 ∧
    (recv_one_packet sample_recv_env 1 {} status_request accept_reply).1.passed = 1 := by
  decide

/-- C17, amended.  In the verdict of `recv_one_packet`, for a reply that
decodes, when the request has an expected reply code (it is not undefined)
and the reply code differs from it, `failed` is incremented and `passed` is
not, whatever the filter list and the reply attributes hold. -/
theorem code_mismatch_fails (renv : recv_env_t) (resend_count : Nat)
    (stats : rc_stats_t) (request : rc_request_t) (reply : fr_packet_t)
    (reply_pairs : List fr_pair_t)
    (hdec : renv.fr_radius_decode_simple
      (deallocate_id renv.fr_radius_client_fd_bio_cancel request).reply_pairs reply
      (deallocate_id renv.fr_radius_client_fd_bio_cancel request).packet.vector
        = some reply_pairs)
    (hset : request.filter_code ≠ FR_RADIUS_CODE_UNDEFINED)
    (hne : reply.code ≠ request.filter_code) :
    (recv_one_packet renv resend_count stats request reply).1.failed = stats.failed + 1 ∧
    (recv_one_packet renv resend_count stats request reply).1.passed = stats.passed :=
  (recv_one_packet_decoded renv resend_count stats request reply reply_pairs hdec).2
    ⟨hset, hne⟩

/-- Witness of C17 amended: an Access-Challenge for a request that expects an
Access-Accept. -/
theorem code_mismatch_fails_witness :
    accept_expected_request.filter_code ≠ FR_RADIUS_CODE_UNDEFINED ∧
    challenge_reply.code ≠ accept_expected_request.filter_code ∧
    (recv_one_packet sample_recv_env 1 {} accept_expected_request challenge_reply).1.failed
      = 0 + 1 :=
  ⟨by decide, by decide,
    (code_mismatch_fails sample_recv_env 1 {} accept_expected_request challenge_reply []
      rfl (by decide) (by decide)).1⟩

/-! ## Accepted and rejected replies -/

/-- C18, as stated, fails: one correlated Access-Challenge reply that decodes
leaves `accepted + rejected` at 0. -/
theorem reply_count_counterexample :
    sample_recv_env.fr_radius_decode_simple
      (deallocate_id sample_recv_env.fr_radius_client_fd_bio_cancel
        accept_expected_request).reply_pairs challenge_reply
      (deallocate_id sample_recv_env.fr_radius_client_fd_bio_cancel
        accept_expected_request).packet.vector = some [] ∧
    [(accept_expected_request, challenge_reply)].length = 1 ∧
    (recv_packets sample_recv_env 1 {} [(accept_expected_request, challenge_reply)]).accepted +
      (recv_packets sample_recv_env 1 {} [(accept_expected_request, challenge_reply)]).rejected
      = 0 := by
  decide

/-- C18, amended.  Over a sequence of correlated replies that all decode,
`accepted + rejected` grows by one for each reply whose code is not
Access-Challenge and not at all for an Access-Challenge: at the end it has
grown by the number of replies other than Access-Challenge. -/
theorem reply_count (renv : recv_env_t) (resend_count : Nat) (stats : rc_stats_t)
    (replies : List (rc_request_t × fr_packet_t))
    (hdec : ∀ p ∈ replies, ∃ reply_pairs, renv.fr_radius_decode_simple
      (deallocate_id renv.fr_radius_client_fd_bio_cancel p.1).reply_pairs p.2
      (deallocate_id renv.fr_radius_client_fd_bio_cancel p.1).packet.vector
        = some reply_pairs) :
    (recv_packets renv resend_count stats replies).accepted +
      (recv_packets renv resend_count stats replies).rejected =
    stats.accepted + stats.rejected +
      (replies.filter (fun p => decide (p.2.code ≠ FR_RADIUS_CODE_ACCESS_CHALLENGE))).length := by
  induction replies generalizing stats with
  | nil => simp [recv_packets]
  | cons p rest ih =>
    obtain ⟨request, reply⟩ := p
    obtain ⟨reply_pairs, hp⟩ := hdec (request, reply) (List.mem_cons_self _ _)
    have hrest : ∀ q ∈ rest, ∃ reply_pairs, renv.fr_radius_decode_simple
        (deallocate_id renv.fr_radius_client_fd_bio_cancel q.1).reply_pairs q.2
        (deallocate_id renv.fr_radius_client_fd_bio_cancel q.1).packet.vector
          = some reply_pairs :=
      fun q hq => hdec q (List.mem_cons_of_mem _ hq)
    obtain ⟨⟨ha, hr⟩, _⟩ :=
      recv_one_packet_decoded renv resend_count stats request reply reply_pairs hp
    have hsum := count_reply_code_sum stats reply.code
    simp only [recv_packets]
    rw [ih _ hrest, ha, hr, hsum]
    by_cases hc : reply.code = FR_RADIUS_CODE_ACCESS_CHALLENGE
    · simp [hc]
    · simp [hc]
      omega

/-- Witness of C18 amended: an Access-Accept and then an Access-Challenge. -/
theorem reply_count_witness :
    (recv_packets sample_recv_env 1 {}
        [(accept_expected_request, accept_reply),
         (accept_expected_request, challenge_reply)]).accepted +
      (recv_packets sample_recv_env 1 {}
        [(accept_expected_request, accept_reply),
         (accept_expected_request, challenge_reply)]).rejected =
    (0 + 0) + 1 :=
  reply_count sample_recv_env 1 {}
    [(accept_expected_request, accept_reply), (accept_expected_request, challenge_reply)]
    (fun _ _ => ⟨_, rfl⟩)

/-! ## The authenticator preset -/

theorem set_vector_get (value : List uint8_t) (k : Nat) (hk : k < 16) :
    (set_vector value)[k]? = if k < value.length then value[k]? else some 0 := by
  unfold set_vector
  by_cases hlen : value.length > 16
  · have hkl : k < value.length := by omega
    simp only [hlen, if_true, hkl]
    rw [List.getElem?_take]
    simp [hk]
  · simp only [hlen, if_false]
    by_cases hkl : k < value.length
    · simp only [hkl, if_true]
      rw [List.getElem?_append_left hkl]
    · simp only [hkl, if_false]
      rw [List.getElem?_append_right (by omega)]
      rw [List.getElem?_replicate]
      have : k - value.length < 16 - value.length := by omega
      simp [this]

theorem set_vector_length (value : List uint8_t) : (set_vector value).length = 16 := by
  unfold set_vector
  split
  · simp
    omega
  · simp
    omega

/-- C29.  For a Request-Authenticator pair met by the special-attribute loop,
the authenticator vector of the packet becomes the value cut or zero-padded
to 16 octets: octet k of the vector, for k < 16, is octet k of the value when
the value has one and 0 otherwise. -/
theorem request_authenticator_vector (request : rc_request_t) (i : Nat) (vp : fr_pair_t)
    (hda : vp.da = attr_request_authenticator) :
    (special_attribute request i vp).packet.vector.length = 16 ∧
    ∀ k, k < 16 →
      (special_attribute request i vp).packet.vector[k]? =
        if k < vp.vp_length then vp.vp_octets[k]? else some 0 := by
  have hstep : (special_attribute request i vp).packet.vector = set_vector vp.vp_octets := by
    simp [special_attribute, hda]
  rw [hstep]
  exact ⟨set_vector_length _, fun k hk => set_vector_get _ k hk⟩

/-- Witness of C29: a value of three octets. -/
theorem request_authenticator_vector_witness :
    short_authenticator.da = attr_request_authenticator ∧
    (special_attribute {} 0 short_authenticator).packet.vector.length = 16 :=
  ⟨rfl, (request_authenticator_vector {} 0 short_authenticator rfl).1⟩

/-! ## A port that is set stays -/

/-- C30.  For every packet type and every port other than 0,
`radclient_get_port` leaves the port as it is. -/
theorem radclient_get_port_keeps (ports : ports_t) (type port : Nat) (h : port ≠ 0) :
    radclient_get_port ports type port = port := by
  simp [radclient_get_port, h]

/-- Witness of C30: port 1645 for an Accounting-Request. -/
theorem radclient_get_port_keeps_witness :
    radclient_get_port sample_ports FR_RADIUS_CODE_ACCOUNTING_REQUEST 1645 = 1645 :=
  radclient_get_port_keeps sample_ports FR_RADIUS_CODE_ACCOUNTING_REQUEST 1645 (by decide)

/-! ## Packets per second -/

/-- C25, evaluated on the code.  With 5000000 packets counted in the second
before and `tv_usec` 0, the product 1000 * 5000000 exceeds 2^32 and wraps:
`rad_pps` returns 705032, while the exact value is 5000000. -/
theorem rad_pps_wraps :
    (rad_pps 5000000 0 7 7 0).pps = 705032 ∧
    (rad_pps 5000000 0 7 7 0).past = 5000000 ∧
    (rad_pps 5000000 0 7 7 0).present = 0 ∧
    ((1000000 - 0) / 1000 * 5000000) / 1000 + 0 = 5000000 ∧
    2 ^ 32 ≤ (1000000 - 0) / 1000 * 5000000 ∧
    5000000 < 2 ^ 32 := by
  decide

/-! ## Taking per-request data out -/

theorem request_data_add_list_mem (unique_ptr : Nat) (unique_int : Int) (opaque_ptr : Nat)
    (free_opaque_flag : Bool) (data : List request_data_t) (e : request_data_t)
    (he : e ∈ request_data_add_list unique_ptr unique_int opaque_ptr free_opaque_flag data) :
    e ∈ data ∨ (e.unique_ptr = unique_ptr ∧ e.unique_int = unique_int) := by
  induction data with
  | nil =>
    simp only [request_data_add_list, List.mem_singleton] at he
    right
    rw [he]
    exact ⟨rfl, rfl⟩
  | cons this next ih =>
    unfold request_data_add_list at he
    split at he
    · rcases List.mem_cons.mp he with h | h
      · right
        rw [h]
        exact ⟨rfl, rfl⟩
      · left
        exact List.mem_cons_of_mem _ h
    · rcases List.mem_cons.mp he with h | h
      · left
        rw [h]
        exact List.mem_cons_self _ _
      · rcases ih h with h | h
        · left
          exact List.mem_cons_of_mem _ h
        · right
          exact h

/-- No two entries of a list built by `request_data_add` have the same key. -/
theorem request_data_add_list_unique (unique_ptr : Nat) (unique_int : Int) (opaque_ptr : Nat)
    (free_opaque_flag : Bool) (data : List request_data_t)
    (h : List.Pairwise (fun a b : request_data_t =>
      ¬ (a.unique_ptr = b.unique_ptr ∧ a.unique_int = b.unique_int)) data) :
    List.Pairwise (fun a b : request_data_t =>
      ¬ (a.unique_ptr = b.unique_ptr ∧ a.unique_int = b.unique_int))
      (request_data_add_list unique_ptr unique_int opaque_ptr free_opaque_flag data) := by
  induction data with
  | nil => simp [request_data_add_list]
  | cons this next ih =>
    obtain ⟨hhead, htail⟩ := List.pairwise_cons.mp h
    unfold request_data_add_list
    split
    · rename_i hkey
      refine List.pairwise_cons.mpr ⟨?_, htail⟩
      intro b hb hk
      exact hhead b hb ⟨hkey.1.trans hk.1, hkey.2.trans hk.2⟩
    · rename_i hkey
      refine List.pairwise_cons.mpr ⟨?_, ih htail⟩
      intro b hb hk
      rcases request_data_add_list_mem _ _ _ _ _ b hb with hmem | hnew
      · exact hhead b hmem hk
      · exact hkey ⟨hk.1.trans hnew.1, hk.2.trans hnew.2⟩

theorem request_data_adds_unique (calls : List (Nat × Int × Nat × Bool)) (req : REQUEST)
    (h : List.Pairwise (fun a b : request_data_t =>
      ¬ (a.unique_ptr = b.unique_ptr ∧ a.unique_int = b.unique_int)) req.data) :
    ∃ r, request_data_adds (some req) calls = some r ∧
      List.Pairwise (fun a b : request_data_t =>
        ¬ (a.unique_ptr = b.unique_ptr ∧ a.unique_int = b.unique_int)) r.data := by
  induction calls generalizing req with
  | nil => exact ⟨req, rfl, h⟩
  | cons call rest ih =>
    simp only [request_data_adds, request_data_add]
    split
    · exact ih req h
    · exact ih _ (request_data_add_list_unique _ _ _ _ _ h)

theorem request_data_get_list_reference (unique_ptr : Nat) (unique_int : Int)
    (data : List request_data_t) :
    (request_data_get_list unique_ptr unique_int data).1 =
      request_data_reference_list unique_ptr unique_int data := by
  induction data with
  | nil => rfl
  | cons this next ih =>
    unfold request_data_get_list request_data_reference_list
    split
    · rfl
    · exact ih

theorem request_data_get_list_filter (unique_ptr : Nat) (unique_int : Int)
    (data : List request_data_t)
    (h : List.Pairwise (fun a b : request_data_t =>
      ¬ (a.unique_ptr = b.unique_ptr ∧ a.unique_int = b.unique_int)) data) :
    (request_data_get_list unique_ptr unique_int data).2 =
      data.filter (fun e => !decide (e.unique_ptr = unique_ptr ∧ e.unique_int = unique_int)) := by
  induction data with
  | nil => rfl
  | cons this next ih =>
    obtain ⟨hhead, htail⟩ := List.pairwise_cons.mp h
    unfold request_data_get_list
    split
    · rename_i hkey
      simp only [List.filter_cons, hkey, and_self, decide_True, Bool.not_true,
        Bool.false_eq_true, if_false]
      symm
      rw [List.filter_eq_self]
      intro b hb
      have hne := hhead b hb
      rw [hkey.1, hkey.2] at hne
      simp only [Bool.not_eq_true', decide_eq_false_iff_not]
      intro hk
      exact hne ⟨hk.1.symm, hk.2.symm⟩
    · rename_i hkey
      simp only [List.filter_cons, hkey, decide_False, Bool.not_false, if_true]
      rw [ih htail]

theorem request_data_reference_filter_same (unique_ptr : Nat) (unique_int : Int)
    (data : List request_data_t) :
    request_data_reference_list unique_ptr unique_int
      (data.filter (fun e =>
        !decide (e.unique_ptr = unique_ptr ∧ e.unique_int = unique_int))) = 0 := by
  induction data with
  | nil => rfl
  | cons this next ih =>
    by_cases hkey : this.unique_ptr = unique_ptr ∧ this.unique_int = unique_int
    · simp only [List.filter_cons, hkey, and_self, decide_True, Bool.not_true,
        Bool.false_eq_true, if_false]
      exact ih
    · simp only [List.filter_cons, hkey, decide_False, Bool.not_false, if_true,
        request_data_reference_list, if_false]
      exact ih

theorem request_data_reference_filter_other (unique_ptr : Nat) (unique_int : Int)
    (data : List request_data_t) (ptr2 : Nat) (int2 : Int)
    (hne : ¬ (ptr2 = unique_ptr ∧ int2 = unique_int)) :
    request_data_reference_list ptr2 int2
      (data.filter (fun e =>
        !decide (e.unique_ptr = unique_ptr ∧ e.unique_int = unique_int))) =
    request_data_reference_list ptr2 int2 data := by
  induction data with
  | nil => rfl
  | cons this next ih =>
    by_cases hkey : this.unique_ptr = unique_ptr ∧ this.unique_int = unique_int
    · have h2 : ¬ (this.unique_ptr = ptr2 ∧ this.unique_int = int2) := by
        rw [hkey.1, hkey.2]
        exact fun h => hne ⟨h.1.symm, h.2.symm⟩
      have hf : List.filter (fun e =>
          !decide (e.unique_ptr = unique_ptr ∧ e.unique_int = unique_int)) (this :: next) =
          List.filter (fun e =>
            !decide (e.unique_ptr = unique_ptr ∧ e.unique_int = unique_int)) next := by
        rw [List.filter_cons]
        simp [hkey]
      rw [hf, ih]
      conv => rhs; unfold request_data_reference_list
      rw [if_neg h2]
    · simp only [List.filter_cons, hkey, decide_False, Bool.not_false, if_true,
        request_data_reference_list]
      split
      · rfl
      · exact ih

/-- C21.  On a data list built by `request_data_add` calls, `request_data_get`
returns what `request_data_reference` returns for the key and leaves the list
without the entry of that key and with every other entry, in the same order:
afterwards `request_data_reference` and `request_data_get` give `NULL` for the
key, and `request_data_reference` gives for every other key what it gave
before. -/
theorem request_data_get_removes (calls : List (Nat × Int × Nat × Bool))
    (unique_ptr : Nat) (unique_int : Int) :
    ∃ before after,
      request_data_adds (some {}) calls = some before ∧
      request_data_get (some before) unique_ptr unique_int =
        (request_data_reference before unique_ptr unique_int, some after) ∧
      after.data = before.data.filter
        (fun e => !decide (e.unique_ptr = unique_ptr ∧ e.unique_int = unique_int)) ∧
      request_data_reference after unique_ptr unique_int = 0 ∧
      (request_data_get (some after) unique_ptr unique_int).1 = 0 ∧
      ∀ ptr2 int2, ¬ (ptr2 = unique_ptr ∧ int2 = unique_int) →
        request_data_reference after ptr2 int2 =
          request_data_reference before ptr2 int2 := by
  obtain ⟨before, hbuilt, huniq⟩ := request_data_adds_unique calls {} List.Pairwise.nil
  have hfilter := request_data_get_list_filter unique_ptr unique_int before.data huniq
  have hsame := request_data_reference_filter_same unique_ptr unique_int before.data
  refine ⟨before, { before with data := (request_data_get_list unique_ptr unique_int
    before.data).2 }, hbuilt, ?_, hfilter, ?_, ?_, ?_⟩
  · simp only [request_data_get, request_data_reference,
      request_data_get_list_reference]
  · simp only [request_data_reference, hfilter, hsame]
  · simp only [request_data_get, request_data_get_list_reference, hfilter, hsame]
  · intro ptr2 int2 hne
    simp only [request_data_reference, hfilter]
    exact request_data_reference_filter_other _ _ _ ptr2 int2 hne

/-- Witness of C21: three calls under two keys, then the first key is taken
out. -/
theorem request_data_get_removes_witness :
    ∃ before after,
      request_data_adds (some {}) sample_data_calls = some before ∧
      request_data_get (some before) 100 1 =
        (request_data_reference before 100 1, some after) ∧
      after.data = before.data.filter
        (fun e => !decide (e.unique_ptr = 100 ∧ e.unique_int = 1)) ∧
      request_data_reference after 100 1 = 0 ∧
      (request_data_get (some after) 100 1).1 = 0 ∧
      ∀ ptr2 int2, ¬ (ptr2 = 100 ∧ int2 = 1) →
        request_data_reference after ptr2 int2 =
          request_data_reference before ptr2 int2 :=
  request_data_get_removes sample_data_calls 100 1

/-! ## The assertions of `send_one_packet` -/

theorem password_update_asserts (request : rc_request_t) (vp : fr_pair_t)
    (h : send_one_packet_asserts request) :
    send_one_packet_asserts
      (password_bstrndup (pair_update_request request attr_cleartext_password) vp) := by
  unfold password_bstrndup pair_update_request
  split <;> split <;> simp_all [send_one_packet_asserts]

theorem special_attribute_asserts (request : rc_request_t) (i : Nat) (vp : fr_pair_t)
    (h : send_one_packet_asserts request) :
    send_one_packet_asserts (special_attribute request i vp) := by
  unfold special_attribute
  split
  · exact h
  · split
    · exact h
    · split
      · exact h
      · split
        · split
          · exact h
          · exact password_update_asserts request vp h
        · split
          · exact password_update_asserts request vp h
          · split
            · exact h
            · exact h

theorem special_attributes_from_asserts (fuel i : Nat) (request : rc_request_t)
    (h : send_one_packet_asserts request) :
    send_one_packet_asserts (special_attributes_from fuel i request) := by
  induction fuel generalizing i request with
  | zero => exact h
  | succ fuel ih =>
    unfold special_attributes_from
    split
    · exact h
    · exact ih _ _ (special_attribute_asserts request i _ h)

theorem infer_codes_asserts (ports : ports_t) (request r : rc_request_t)
    (h : infer_codes ports request = some r) (ha : send_one_packet_asserts request) :
    send_one_packet_asserts r := by
  unfold infer_codes at h
  repeat' split at h
  all_goals first
    | (cases h; exact ha)
    | cases h

theorem set_dst_port_asserts (ports : ports_t) (request r : rc_request_t)
    (h : set_dst_port ports request = some r) (ha : send_one_packet_asserts request) :
    send_one_packet_asserts r := by
  unfold set_dst_port at h
  simp only at h
  repeat' split at h
  all_goals first
    | (cases h; exact ha)
    | cases h

theorem radclient_init_request_asserts (cfg : loader_t) (name : List uint8_t)
    (request r : rc_request_t)
    (hheader : ∀ packet list, (cfg.fr_packet_pairs_to_packet packet list).id = packet.id ∧
      (cfg.fr_packet_pairs_to_packet packet list).data = packet.data)
    (h : radclient_init_request cfg name request = some r)
    (ha : send_one_packet_asserts request) :
    send_one_packet_asserts r := by
  unfold radclient_init_request at h
  split at h
  · cases h
  · rename_i r1 h1
    apply set_dst_port_asserts _ _ _ h
    apply infer_codes_asserts _ _ _ h1
    have hs : send_one_packet_asserts (special_attributes request) :=
      special_attributes_from_asserts _ 0 request ha
    have hc : send_one_packet_asserts (set_default_code cfg (special_attributes request)) := by
      unfold set_default_code
      split
      · exact hs
      · exact hs
    have hh : send_one_packet_asserts
        (set_packet_header cfg (set_default_code cfg (special_attributes request))) := by
      obtain ⟨h1, h2, h3, h4⟩ := hc
      have hp := hheader (set_default_code cfg (special_attributes request)).packet
        (set_default_code cfg (special_attributes request)).request_pairs
      refine ⟨h1, h2, ?_, ?_⟩
      · simp only [set_packet_header, hp.1]
        exact h3
      · simp only [set_packet_header, hp.2]
        exact h4
    unfold set_default_name
    split
    · exact hh
    · exact hh

theorem read_filter_asserts (cfg : loader_t) (request : rc_request_t)
    (filters : Option rc_file) (packets_done : Bool) (r : rc_request_t)
    (rest : Option rc_file)
    (h : read_filter cfg request filters packets_done = some (r, rest))
    (ha : send_one_packet_asserts request) :
    send_one_packet_asserts r := by
  have hl : ∀ filter, send_one_packet_asserts (load_filter cfg request filter) := by
    intro filter
    unfold load_filter
    simp only
    split <;> exact ha
  unfold read_filter at h
  repeat' split at h
  all_goals first
    | (cases h; exact ha)
    | (cases h; exact hl _)
    | cases h

/-- Every request the loop of `radclient_init` queues meets the assertions of
`send_one_packet`, when the packet comes without encoded data from
`fr_packet_alloc` and the header routine leaves identifier and data alone. -/
theorem radclient_init_loop_asserts (cfg : loader_t) (name : List uint8_t) (fuel : Nat)
    (packets : rc_file) (filters : Option rc_file) (num : Nat) (list : List rc_request_t)
    (rcode : Int) (out : List rc_request_t)
    (halloc : cfg.fr_packet_alloc.data = none)
    (hheader : ∀ packet list, (cfg.fr_packet_pairs_to_packet packet list).id = packet.id ∧
      (cfg.fr_packet_pairs_to_packet packet list).data = packet.data)
    (h : radclient_init_loop cfg name fuel packets filters num list = some (rcode, out))
    (hlist : ∀ r ∈ list, send_one_packet_asserts r) :
    ∀ r ∈ out, send_one_packet_asserts r := by
  induction fuel generalizing packets filters num list with
  | zero => simp [radclient_init_loop] at h
  | succ fuel ih =>
    unfold radclient_init_loop at h
    simp only at h
    split at h
    · cases h
      exact hlist
    · rename_i pairs packets_done rest _
      split at h
      · split at h
        · cases h
          exact hlist
        · exact ih rest filters (num + 1) list h hlist
      · split at h
        · cases h
          exact hlist
        · rename_i r1 filters1 hread
          have hfresh : send_one_packet_asserts
              { packet := { cfg.fr_packet_alloc with dst_port := cfg.dst_port, id := -1 }
                num := num, request_pairs := pairs } :=
            ⟨rfl, rfl, by simp, halloc⟩
          have h1 : send_one_packet_asserts r1 :=
            read_filter_asserts _ _ _ _ _ _ hread hfresh
          split at h
          · cases h
            exact hlist
          · rename_i r2 hreq
            have h2 : send_one_packet_asserts r2 :=
              radclient_init_request_asserts _ _ _ _ hheader hreq h1
            have hnew : ∀ r ∈ list ++ [r2], send_one_packet_asserts r := by
              intro r hr
              rcases List.mem_append.mp hr with hr | hr
              · exact hlist r hr
              · rw [List.mem_singleton.mp hr]
                exact h2
            split at h
            · cases h
              exact hnew
            · exact ih rest filters1 (num + 1) (list ++ [r2]) h hnew

theorem radclient_init_asserts (cfg : loader_t) (files : rc_file_pair_t)
    (list : List rc_request_t) (rcode : Int) (out : List rc_request_t)
    (halloc : cfg.fr_packet_alloc.data = none)
    (hheader : ∀ packet list, (cfg.fr_packet_pairs_to_packet packet list).id = packet.id ∧
      (cfg.fr_packet_pairs_to_packet packet list).data = packet.data)
    (h : radclient_init cfg files list = some (rcode, out))
    (hlist : ∀ r ∈ list, send_one_packet_asserts r) :
    ∀ r ∈ out, send_one_packet_asserts r := by
  unfold radclient_init at h
  split at h
  · cases h
    exact hlist
  · split at h
    · exact radclient_init_loop_asserts _ _ _ _ _ _ _ _ _ halloc hheader h hlist
    · split at h
      · cases h
        exact hlist
      · exact radclient_init_loop_asserts _ _ _ _ _ _ _ _ _ halloc hheader h hlist
      · exact radclient_init_loop_asserts _ _ _ _ _ _ _ _ _ halloc hheader h hlist

theorem main_load_files_asserts (cfg : loader_t) (filenames : List rc_file_pair_t)
    (list out : List rc_request_t)
    (halloc : cfg.fr_packet_alloc.data = none)
    (hheader : ∀ packet list, (cfg.fr_packet_pairs_to_packet packet list).id = packet.id ∧
      (cfg.fr_packet_pairs_to_packet packet list).data = packet.data)
    (h : main_load_files cfg filenames list = some out)
    (hlist : ∀ r ∈ list, send_one_packet_asserts r) :
    ∀ r ∈ out, send_one_packet_asserts r := by
  induction filenames generalizing list with
  | nil =>
    simp only [main_load_files] at h
    cases h
    exact hlist
  | cons files rest ih =>
    unfold main_load_files at h
    split at h
    · rename_i rcode list1 hinit
      split at h
      · exact ih list1 h (radclient_init_asserts _ _ _ _ _ halloc hheader hinit hlist)
      · cases h
    · cases h

/-- C28.  In a run whose request list was built by `main` from the input file
pairs (every request created by `radclient_init`) and whose requests are sent
through `client_write` only, each invocation of `client_write` that sends
passes to `send_one_packet` a request that meets its assertions: not done, no
reply packet, a negative identifier, no encoded data.  The packet allocator is
taken to return a packet without encoded data, and the header routine to
leave identifier and data alone. -/
theorem send_assertions_hold (cfg : loader_t) (stdin : rc_file)
    (filenames : List rc_file_pair_t) (list : List rc_request_t)
    (env : env_t) (rand : Nat → Nat → Nat) (now : Nat → Nat) (st : client_state) (k : Nat)
    (halloc : cfg.fr_packet_alloc.data = none)
    (hheader : ∀ packet list, (cfg.fr_packet_pairs_to_packet packet list).id = packet.id ∧
      (cfg.fr_packet_pairs_to_packet packet list).data = packet.data)
    (hload : main_load cfg stdin filenames = some list)
    (hlist : st.rc_request_list = list) (hcur : st.current = none)
    (hk : k < list.length) :
    ∃ request,
      fr_dlist_next (client_write_iter env rand now k st).rc_request_list
        (client_write_iter env rand now k st).current = some k ∧
      (client_write_iter env rand now k st).rc_request_list[k]? = some request ∧
      (client_write env (rand k) (now k) (client_write_iter env rand now k st)).2 = some k ∧
      send_one_packet_asserts request := by
  have hall : ∀ r ∈ list, send_one_packet_asserts r := by
    unfold main_load at hload
    simp only at hload
    split at hload
    · cases hload
    · rename_i loaded hl
      split at hload
      · cases hload
      · cases hload
        split at hl
        · exact main_load_files_asserts _ _ _ _ halloc hheader hl (by simp)
        · exact main_load_files_asserts _ _ _ _ halloc hheader hl (by simp)
  obtain ⟨hlen, hnext, hkeep⟩ := client_write_iter_stage env rand now st hcur k
  have hkl : k < st.rc_request_list.length := by
    rw [hlist]
    exact hk
  simp only [hkl, if_true] at hnext
  have hget : st.rc_request_list[k]? = some (list[k]) := by
    rw [List.getElem?_eq_some]
    exact ⟨hkl, by simp [hlist]⟩
  have hstep := client_write_step env (rand k) (now k) (client_write_iter env rand now k st) k
    (by rw [hnext, hlen]; simp [hkl])
  refine ⟨list[k], hnext, ?_, ?_, hall _ (List.getElem_mem _)⟩
  · rw [hkeep k (Nat.le_refl _)]
    exact hget
  · rw [hstep.2.2.1, hlen]
    simp [hkl]

/-- Witness of C28: two file pairs, three requests; the third invocation. -/
theorem send_assertions_hold_witness :
    ∃ request,
      fr_dlist_next
        (client_write_iter sample_env (fun _ _ => 0) (fun _ => 0) 2
          { rc_request_list := two_record_requests ++ one_record_requests }).rc_request_list
        (client_write_iter sample_env (fun _ _ => 0) (fun _ => 0) 2
          { rc_request_list := two_record_requests ++ one_record_requests }).current
        = some 2 ∧
      (client_write_iter sample_env (fun _ _ => 0) (fun _ => 0) 2
        { rc_request_list := two_record_requests ++ one_record_requests }).rc_request_list[2]?
        = some request ∧
      (client_write sample_env (fun _ => 0) 0
        (client_write_iter sample_env (fun _ _ => 0) (fun _ => 0) 2
          { rc_request_list := two_record_requests ++ one_record_requests })).2 = some 2 ∧
      send_one_packet_asserts request :=
  send_assertions_hold sample_loader [] two_pair_filenames
    (two_record_requests ++ one_record_requests) sample_env (fun _ _ => 0) (fun _ => 0)
    { rc_request_list := two_record_requests ++ one_record_requests } 2
    rfl (fun _ _ => ⟨rfl, rfl⟩) (by decide) rfl rfl (by decide)

/-! ## Quoted strings -/

theorem rad_copy_string_bare_loop_cons (q c : uint8_t) (rest out : List uint8_t) :
    rad_copy_string_bare_loop q (c :: rest) out =
      if c ≠ 0 ∧ c ≠ q then
        if c = 92 then
          match rest with
          | [] => none
          | d :: rest2 => rad_copy_string_bare_loop q rest2 (out ++ [c, d])
        else rad_copy_string_bare_loop q rest (out ++ [c])
      else if c ≠ q then some (-1, out)
      else some (out.length, out ++ [0]) := by
  rw [rad_copy_string_bare_loop.eq_def]

theorem rad_copy_string_bare_loop_units (q : uint8_t) (rest : List uint8_t) :
    ∀ (units : List (List uint8_t)) (out : List uint8_t),
      (∀ u ∈ units, (∃ c, u = [c] ∧ c ≠ 0 ∧ c ≠ 92 ∧ c ≠ q) ∨
        (∃ d, u = [92, d] ∧ d ≠ 0 ∧ q ≠ 92)) →
      rad_copy_string_bare_loop q (units.flatten ++ rest) out =
        rad_copy_string_bare_loop q rest (out ++ units.flatten) := by
  intro units
  induction units with
  | nil => intro out _; simp
  | cons u units ih =>
    intro out h
    have hu := h u (List.mem_cons_self _ _)
    have hrest := ih
    rcases hu with ⟨c, rfl, h0, h92, hq⟩ | ⟨d, rfl, _, hq⟩
    · simp only [List.flatten_cons, List.singleton_append, List.cons_append, List.nil_append]
      rw [rad_copy_string_bare_loop_cons]
      rw [if_pos ⟨h0, hq⟩, if_neg h92]
      rw [ih (out ++ [c]) (fun v hv => h v (List.mem_cons_of_mem _ hv))]
      simp
    · simp only [List.flatten_cons, List.cons_append, List.nil_append]
      rw [rad_copy_string_bare_loop_cons]
      have h92 : (92 : uint8_t) ≠ 0 := by decide
      rw [if_pos ⟨h92, fun e => hq e.symm⟩, if_pos rfl]
      simp only
      rw [ih (out ++ [92, d]) (fun v hv => h v (List.mem_cons_of_mem _ hv))]
      simp

/-- C22, counterexample: the input `"a\` ends before a closing quote, yet the
function does not return -1.  The backslash makes it copy the terminating NUL
and read on: with nothing accessible after the NUL the result is undefined,
and with `b"` in the memory after it the function returns 4. -/
theorem rad_copy_string_bare_escaped_end :
    rad_copy_string_bare [34, 97, 92, 0] = none ∧
    rad_copy_string_bare [34, 97, 92, 0, 98, 34, 0] = some (4, [97, 92, 0, 98, 0]) := by
  decide

/-- C22, amended: for an input that begins with a quote character `q`, goes on
with plain characters (neither NUL, backslash nor `q`) and escapes (a
backslash and one character that is not NUL), and then has `q`,
`rad_copy_string_bare` returns the number of characters between the two
quotes and writes exactly these characters, backslashes kept, followed by
NUL; when the NUL that ends the input stands where the closing `q` would, it
returns -1. -/
theorem rad_copy_string_bare_quoted (q : uint8_t) (units : List (List uint8_t))
    (tail : List uint8_t) (hq : q ≠ 0)
    (hunits : ∀ u ∈ units, (∃ c, u = [c] ∧ c ≠ 0 ∧ c ≠ 92 ∧ c ≠ q) ∨
      (∃ d, u = [92, d] ∧ d ≠ 0 ∧ q ≠ 92)) :
    rad_copy_string_bare (q :: (units.flatten ++ q :: tail)) =
        some ((units.flatten.length : Int), units.flatten ++ [0]) ∧
      rad_copy_string_bare (q :: (units.flatten ++ 0 :: tail)) = some (-1, units.flatten) := by
  have h0 : (0 : uint8_t) ≠ q := fun e => hq e.symm
  constructor
  · simp only [rad_copy_string_bare]
    rw [rad_copy_string_bare_loop_units q (q :: tail) units [] hunits]
    rw [rad_copy_string_bare_loop_cons]
    simp
  · simp only [rad_copy_string_bare]
    rw [rad_copy_string_bare_loop_units q (0 :: tail) units [] hunits]
    rw [rad_copy_string_bare_loop_cons]
    simp [h0]

theorem rad_copy_string_bare_quoted_witness :
    rad_copy_string_bare (34 :: ([[97], [92, 34], [98]].flatten ++ 34 :: [0])) =
        some ((([[97], [92, 34], [98]] : List (List uint8_t)).flatten.length : Int),
          [[97], [92, 34], [98]].flatten ++ [0]) ∧
      rad_copy_string_bare (34 :: ([[97], [92, 34], [98]].flatten ++ 0 :: [0])) =
        some (-1, [[97], [92, 34], [98]].flatten) :=
  rad_copy_string_bare_quoted 34 [[97], [92, 34], [98]] [0] (by decide)
    (by
      intro u hu
      simp only [List.mem_cons, List.mem_singleton, List.not_mem_nil, or_false] at hu
      rcases hu with rfl | rfl | rfl
      · exact Or.inl ⟨97, rfl, by decide, by decide, by decide⟩
      · exact Or.inr ⟨34, rfl, by decide, by decide⟩
      · exact Or.inl ⟨98, rfl, by decide, by decide, by decide⟩)

/-! ## List names -/

theorem strchr_none (s : List uint8_t) (c : uint8_t) (h : c ∉ s) : strchr s c = none := by
  induction s with
  | nil => rfl
  | cons x rest ih =>
    have hx : x ≠ c := fun e => h (e ▸ List.mem_cons_self _ _)
    have hrest : c ∉ rest := fun m => h (List.mem_cons_of_mem _ m)
    simp [strchr, hx, ih hrest]

theorem strchr_append (s rest : List uint8_t) (c : uint8_t) (h : c ∉ s) :
    strchr (s ++ c :: rest) c = some s.length := by
  induction s with
  | nil => simp [strchr]
  | cons x s ih =>
    have hx : x ≠ c := fun e => h (e ▸ List.mem_cons_self _ _)
    have hrest : c ∉ s := fun m => h (List.mem_cons_of_mem _ m)
    simp [strchr, hx, ih hrest]

theorem tag_follows_split (after : List uint8_t) (h : tag_follows after = true) :
    ∃ digits tail, after = digits ++ tail ∧ digits ≠ [] ∧
      (∀ c ∈ digits, isdigit c = true) ∧ (tail = [] ∨ tail.head? = some 91) := by
  cases after with
  | nil => simp [tag_follows] at h
  | cons first rest =>
    simp only [tag_follows] at h
    by_cases hd : isdigit first = true
    · rw [if_pos hd] at h
      refine ⟨(first :: rest).takeWhile isdigit, (first :: rest).dropWhile isdigit,
        (List.takeWhile_append_dropWhile _ _).symm, ?_, ?_, ?_⟩
      · rw [List.takeWhile_cons_of_pos hd]; exact List.cons_ne_nil _ _
      · intro c hc; exact List.mem_takeWhile_imp hc
      · generalize (first :: rest).dropWhile isdigit = tail at h
        cases tail with
        | nil => exact Or.inl rfl
        | cons d tail2 =>
          simp only [decide_eq_true_eq] at h
          exact Or.inr (by simp [h])
    · rw [if_neg hd] at h
      cases h

theorem pair_lists_names (with_proxy with_coa : Bool) :
    ∀ e ∈ pair_lists with_proxy with_coa,
      (58 : uint8_t) ∉ e.1 ∧ e.2 ≠ pair_lists_t.PAIR_LIST_UNKNOWN := by
  cases with_proxy <;> cases with_coa <;> decide

/-- C23: when the table lookup finds each name of `pair_lists`, then for a
name `L:rest` with `L` in the table and `rest` not starting with a decimal tag
(digits running to the end of the string or to '[') `radius_list_name` returns
the list of `L` and advances `*name` to `rest`; for a name that is exactly a
name of the table it returns its list and advances `*name` to the end of the
string; and for a name with no ':' that the lookup does not find it returns
`default_list` and leaves `*name` unchanged. -/
theorem radius_list_name_prefix
    (fr_substr2int : List (List uint8_t × pair_lists_t) → List uint8_t → pair_lists_t →
      pair_lists_t)
    (with_proxy with_coa : Bool) (default_list : pair_lists_t)
    (hlookup : ∀ e ∈ pair_lists with_proxy with_coa,
      fr_substr2int (pair_lists with_proxy with_coa) e.1 pair_lists_t.PAIR_LIST_UNKNOWN =
        e.2) :
    (∀ (e : List uint8_t × pair_lists_t) (rest : List uint8_t),
        e ∈ pair_lists with_proxy with_coa →
        (¬ ∃ digits tail, rest = digits ++ tail ∧ digits ≠ [] ∧
          (∀ c ∈ digits, isdigit c = true) ∧ (tail = [] ∨ tail.head? = some 91)) →
        radius_list_name fr_substr2int with_proxy with_coa (e.1 ++ 58 :: rest)
          default_list = (e.2, rest)) ∧
      (∀ (e : List uint8_t × pair_lists_t), e ∈ pair_lists with_proxy with_coa →
        radius_list_name fr_substr2int with_proxy with_coa e.1 default_list = (e.2, [])) ∧
      (∀ (name : List uint8_t), (58 : uint8_t) ∉ name →
        fr_substr2int (pair_lists with_proxy with_coa) name
          pair_lists_t.PAIR_LIST_UNKNOWN = pair_lists_t.PAIR_LIST_UNKNOWN →
        radius_list_name fr_substr2int with_proxy with_coa name default_list =
          (default_list, name)) := by
  refine ⟨?_, ?_, ?_⟩
  · intro e rest he hrest
    have hn := pair_lists_names with_proxy with_coa e he
    have htag : tag_follows rest = false := by
      cases ht : tag_follows rest with
      | false => rfl
      | true => exact absurd (tag_follows_split rest ht) hrest
    simp only [radius_list_name, strchr_append e.1 rest 58 hn.1]
    have hdrop : (e.1 ++ 58 :: rest).drop (e.1.length + 1) = rest := by
      rw [show e.1 ++ 58 :: rest = (e.1 ++ [58]) ++ rest by simp]
      rw [List.drop_append_of_le_length (by simp)]
      simp
    have htake : (e.1 ++ 58 :: rest).take e.1.length = e.1 := by
      rw [List.take_append_of_le_length (le_refl _)]
      simp
    rw [hdrop, htag, htake, hlookup e he]
    simp [hn.2]
  · intro e he
    have hn := pair_lists_names with_proxy with_coa e he
    simp only [radius_list_name, strchr_none e.1 58 hn.1, hlookup e he]
    simp [hn.2]
  · intro name hname hnone
    simp only [radius_list_name, strchr_none name 58 hname, hnone]
    simp

theorem radius_list_name_prefix_witness :
    (∀ e ∈ pair_lists true true,
      sample_substr2int (pair_lists true true) e.1 pair_lists_t.PAIR_LIST_UNKNOWN = e.2) ∧
    radius_list_name sample_substr2int true true (str "reply:Reply-Message")
      pair_lists_t.PAIR_LIST_REQUEST =
        (pair_lists_t.PAIR_LIST_REPLY, str "Reply-Message") ∧
    radius_list_name sample_substr2int true true (str "control")
      pair_lists_t.PAIR_LIST_REQUEST = (pair_lists_t.PAIR_LIST_CONTROL, []) ∧
    radius_list_name sample_substr2int true true (str "User-Name")
      pair_lists_t.PAIR_LIST_REQUEST = (pair_lists_t.PAIR_LIST_REQUEST, str "User-Name") :=
  have h := radius_list_name_prefix sample_substr2int true true
    pair_lists_t.PAIR_LIST_REQUEST (by decide)
  ⟨by decide,
    h.1 (str "reply", pair_lists_t.PAIR_LIST_REPLY) (str "Reply-Message") (by decide)
      (by
        rintro ⟨digits, tail, hsplit, hne, hdig, _⟩
        cases digits with
        | nil => exact hne rfl
        | cons d ds =>
          have hd := hdig d (List.mem_cons_self _ _)
          have : d = 82 := by
            have := congrArg List.head? hsplit
            simpa [str] using this.symm
          subst this
          exact absurd hd (by decide)),
    h.2.1 (str "control", pair_lists_t.PAIR_LIST_CONTROL) (by decide),
    h.2.2 (str "User-Name") (by decide) (by decide)⟩

/-! ## Splitting a command line -/

/-- C24: the command `a  b` (two spaces) is made of 2 plain words, and with
`max_argc` = 3 and a buffer of 16 octets `rad_expand_xlat` returns 2, yet
`argv[1]` points at the string ` b` with a leading space, not at a copy of
the word `b`: the loop stops before it copies the word number
`max_argc - 1`, so its entry points into the copy of the whole command.  With
`max_argc` = 4 both entries point at copies of the words. -/
theorem rad_expand_xlat_last_word
    (radius_xlat : Int → REQUEST → List uint8_t → Int × List uint8_t) :
    (rad_expand_xlat radius_xlat none (str "a  b") 3 false (List.replicate 16 0)).map
        (Option.map (fun r => (r.1, argv_strings r.2.1 r.2.2))) =
      some (some (2, [some (str "a"), some (str " b"), none])) ∧
    (rad_expand_xlat radius_xlat none (str "a  b") 4 false (List.replicate 16 0)).map
        (Option.map (fun r => (r.1, argv_strings r.2.1 r.2.2))) =
      some (some (2, [some (str "a"), some (str "b"), none])) := by
  constructor <;> rfl

/-! ## The CSV module -/

/-- C26: with the header `key,value` (2 fields, the first one the key) the
line `,x` has exactly 2 unquoted fields, an empty one and `x`, yet `file2csv`
fails with "Too few fields": `buf2entry` looks for the delimiter from the
second character of a field on, so it takes `,x` as one field.  The line `k,x`
is stored as the claim says. -/
theorem file2csv_empty_field (rbtree_insert : rlm_csv_entry_t → Bool) :
    mod_instantiate_header sample_csv_config = some (0, sample_csv) ∧
    file2csv rbtree_insert sample_csv (str ",x") =
      some (file2csv_result.failed csv_error.too_few_fields) ∧
    file2csv (fun _ => true) sample_csv (str "k,x") =
      some (file2csv_result.entry { key := some (str "k"), data := [some (str "x")] }) := by
  refine ⟨by decide, by rfl, by decide⟩

/-- C27: with the header `k,value` and the key `k` the first field name is
not empty and equal to the key, yet the mark-up leaves it unmapped and
`mod_instantiate` fails for want of a key field: a field before the last one
is marked only when its name has 2 characters or more.  In the same way the
name `v` in `key,v,w` gets no offset.  With the header `kk,value` and the key
`kk` the key field is field 0. -/
theorem mark_up_short_name :
    mod_instantiate_header
        { delimiter := str ",", header := str "k,value", key := str "k" } =
      some (-1, {
        delimiter := str ",", header := str "k,value", key := str "k",
        num_fields := 2, used_fields := 1, key_field := -1,
        field_names := [str "k", str "value"], field_offsets := [-1, 0] }) ∧
    mod_instantiate_header
        { delimiter := str ",", header := str "key,v,w", key := str "key" } =
      some (0, {
        delimiter := str ",", header := str "key,v,w", key := str "key",
        num_fields := 3, used_fields := 1, key_field := 0,
        field_names := [str "key", str "v", str "w"], field_offsets := [-1, -1, 0] }) ∧
    mod_instantiate_header
        { delimiter := str ",", header := str "kk,value", key := str "kk" } =
      some (0, {
        delimiter := str ",", header := str "kk,value", key := str "kk",
        num_fields := 2, used_fields := 1, key_field := 0,
        field_names := [str "kk", str "value"], field_offsets := [-1, 0] }) := by
  decide

/-! ## Ports and packet codes -/

/-- C31: `radclient_get_code` gives the undefined code for port 0, and when
the services database lacks "radius" or maps it to 1812, and lacks "radacct"
or maps it to 1813, then for each type among Access-Request,
Accounting-Request and CoA-Request `radclient_get_code` gives the type back
from the port that `radclient_get_port` chooses for it from a zero port.  The
port constants of the protocol header are taken with 1812 and 1813 as the
authentication and accounting ports, an alternate authentication port other
than 1813, and a CoA port that is none of these four and not 0. -/
theorem radclient_get_code_of_port (ports : ports_t)
    (hauth : ports.FR_AUTH_UDP_PORT = 1812) (hacct : ports.FR_ACCT_UDP_PORT = 1813)
    (halt : ports.FR_AUTH_UDP_PORT_ALT ≠ 1813)
    (hcoa : ports.FR_COA_UDP_PORT ≠ 0 ∧ ports.FR_COA_UDP_PORT ≠ 1812 ∧
      ports.FR_COA_UDP_PORT ≠ ports.FR_AUTH_UDP_PORT_ALT ∧ ports.FR_COA_UDP_PORT ≠ 1813 ∧
      ports.FR_COA_UDP_PORT ≠ ports.FR_ACCT_UDP_PORT_ALT)
    (hradius : ports.getport_radius = 0 ∨ ports.getport_radius = 1812)
    (hradacct : ports.getport_radacct = 0 ∨ ports.getport_radacct = 1813) :
    radclient_get_code ports 0 = FR_RADIUS_CODE_UNDEFINED ∧
      ∀ t : Nat, t = FR_RADIUS_CODE_ACCESS_REQUEST ∨ t = FR_RADIUS_CODE_ACCOUNTING_REQUEST ∨
          t = FR_RADIUS_CODE_COA_REQUEST →
        radclient_get_code ports (radclient_get_port ports t 0) = t := by
  obtain ⟨hcoa0, hcoa1, hcoa2, hcoa3, hcoa4⟩ := hcoa
  refine ⟨by simp [radclient_get_code], ?_⟩
  intro t ht
  rcases ht with rfl | rfl | rfl
  · have hport : radclient_get_port ports FR_RADIUS_CODE_ACCESS_REQUEST 0 = 1812 := by
      rcases hradius with h | h <;>
        simp [radclient_get_port, FR_RADIUS_CODE_ACCESS_REQUEST,
          FR_RADIUS_CODE_ACCOUNTING_REQUEST, FR_RADIUS_CODE_DISCONNECT_REQUEST,
          FR_RADIUS_CODE_COA_REQUEST, FR_RADIUS_CODE_UNDEFINED, h, hauth]
    rw [hport]
    simp [radclient_get_code, hauth]
  · have hport : radclient_get_port ports FR_RADIUS_CODE_ACCOUNTING_REQUEST 0 = 1813 := by
      rcases hradacct with h | h <;> simp [radclient_get_port, h, hacct]
    rw [hport]
    have h1 : (1813 : Nat) ≠ ports.getport_radius := by
      rcases hradius with h | h <;> rw [h] <;> decide
    have h2 : (1813 : Nat) ≠ ports.FR_AUTH_UDP_PORT_ALT := fun e => halt e.symm
    simp [radclient_get_code, hauth, hacct, h1, h2]
  · have hport : radclient_get_port ports FR_RADIUS_CODE_COA_REQUEST 0 =
        ports.FR_COA_UDP_PORT := by
      simp [radclient_get_port, FR_RADIUS_CODE_ACCOUNTING_REQUEST,
        FR_RADIUS_CODE_DISCONNECT_REQUEST, FR_RADIUS_CODE_COA_REQUEST]
    rw [hport]
    have h1 : ports.FR_COA_UDP_PORT ≠ ports.getport_radius := by
      rcases hradius with h | h <;> rw [h] <;> assumption
    have h2 : ports.FR_COA_UDP_PORT ≠ ports.getport_radacct := by
      rcases hradacct with h | h <;> rw [h] <;> assumption
    simp [radclient_get_code, hauth, hacct, hcoa0, hcoa1, hcoa2, hcoa3, hcoa4, h1, h2]

theorem radclient_get_code_of_port_witness :
    radclient_get_code sample_ports 0 = FR_RADIUS_CODE_UNDEFINED ∧
      ∀ t : Nat, t = FR_RADIUS_CODE_ACCESS_REQUEST ∨ t = FR_RADIUS_CODE_ACCOUNTING_REQUEST ∨
          t = FR_RADIUS_CODE_COA_REQUEST →
        radclient_get_code sample_ports (radclient_get_port sample_ports t 0) = t :=
  radclient_get_code_of_port sample_ports rfl rfl (by decide) (by decide) (by decide)
    (by decide)

/-- C32: the two code inferences of `radclient_init` agree.  For a request
whose code is Access-Request, Accounting-Request, CoA-Request or
Disconnect-Request and that has no expected reply code, the first switch sets
an expected reply code from which the second switch, on a request without a
code, infers that request code again; and on a request without a code the
second switch infers the same request code from Access-Accept and
Access-Reject, from Disconnect-ACK and Disconnect-NAK, and from CoA-ACK and
CoA-NAK. -/
theorem infer_codes_consistent (ports : ports_t) (request reverse : rc_request_t)
    (hcode : request.packet.code = FR_RADIUS_CODE_ACCESS_REQUEST ∨
      request.packet.code = FR_RADIUS_CODE_ACCOUNTING_REQUEST ∨
      request.packet.code = FR_RADIUS_CODE_COA_REQUEST ∨
      request.packet.code = FR_RADIUS_CODE_DISCONNECT_REQUEST)
    (hfilter : request.filter_code = FR_RADIUS_CODE_UNDEFINED)
    (hreverse : reverse.packet.code = FR_RADIUS_CODE_UNDEFINED) :
    (∃ r1 r2, infer_codes ports request = some r1 ∧
        r1.packet.code = request.packet.code ∧
        infer_codes ports { reverse with filter_code := r1.filter_code } = some r2 ∧
        r2.filter_code = r1.filter_code ∧
        r2.packet.code = request.packet.code) ∧
      ∀ pair ∈ [(FR_RADIUS_CODE_ACCESS_ACCEPT, FR_RADIUS_CODE_ACCESS_REJECT),
          (FR_RADIUS_CODE_DISCONNECT_ACK, FR_RADIUS_CODE_DISCONNECT_NAK),
          (FR_RADIUS_CODE_COA_ACK, FR_RADIUS_CODE_COA_NAK)],
        ∃ code,
          (infer_codes ports { reverse with filter_code := pair.1 }).map
              (fun r => r.packet.code) = some code ∧
            (infer_codes ports { reverse with filter_code := pair.2 }).map
              (fun r => r.packet.code) = some code := by
  constructor
  · rcases hcode with h | h | h | h
    · refine ⟨{ request with filter_code := FR_RADIUS_CODE_ACCESS_ACCEPT },
        { reverse with
          filter_code := FR_RADIUS_CODE_ACCESS_ACCEPT,
          packet := { reverse.packet with code := FR_RADIUS_CODE_ACCESS_REQUEST } },
        ?_, rfl, ?_, rfl, h.symm⟩
      · simp [infer_codes, hfilter, h]
      · simp [infer_codes, hreverse, FR_RADIUS_CODE_ACCESS_ACCEPT, FR_RADIUS_CODE_UNDEFINED]
    · refine ⟨{ request with filter_code := FR_RADIUS_CODE_ACCOUNTING_RESPONSE },
        { reverse with
          filter_code := FR_RADIUS_CODE_ACCOUNTING_RESPONSE,
          packet := { reverse.packet with code := FR_RADIUS_CODE_ACCOUNTING_REQUEST } },
        ?_, rfl, ?_, rfl, h.symm⟩
      · simp [infer_codes, hfilter, h, FR_RADIUS_CODE_ACCOUNTING_REQUEST,
          FR_RADIUS_CODE_ACCESS_REQUEST]
      · simp [infer_codes, hreverse, FR_RADIUS_CODE_ACCOUNTING_RESPONSE,
          FR_RADIUS_CODE_ACCESS_ACCEPT, FR_RADIUS_CODE_ACCESS_REJECT,
          FR_RADIUS_CODE_UNDEFINED]
    · refine ⟨{ request with filter_code := FR_RADIUS_CODE_COA_ACK },
        { reverse with
          filter_code := FR_RADIUS_CODE_COA_ACK,
          packet := { reverse.packet with code := FR_RADIUS_CODE_COA_REQUEST } },
        ?_, rfl, ?_, rfl, h.symm⟩
      · simp [infer_codes, hfilter, h, FR_RADIUS_CODE_ACCOUNTING_REQUEST,
          FR_RADIUS_CODE_ACCESS_REQUEST, FR_RADIUS_CODE_COA_REQUEST]
      · simp [infer_codes, hreverse, FR_RADIUS_CODE_ACCOUNTING_RESPONSE,
          FR_RADIUS_CODE_ACCESS_ACCEPT, FR_RADIUS_CODE_ACCESS_REJECT,
          FR_RADIUS_CODE_DISCONNECT_ACK, FR_RADIUS_CODE_DISCONNECT_NAK,
          FR_RADIUS_CODE_COA_ACK, FR_RADIUS_CODE_UNDEFINED]
    · refine ⟨{ request with filter_code := FR_RADIUS_CODE_DISCONNECT_ACK },
        { reverse with
          filter_code := FR_RADIUS_CODE_DISCONNECT_ACK,
          packet := { reverse.packet with code := FR_RADIUS_CODE_DISCONNECT_REQUEST } },
        ?_, rfl, ?_, rfl, h.symm⟩
      · simp [infer_codes, hfilter, h, FR_RADIUS_CODE_ACCOUNTING_REQUEST,
          FR_RADIUS_CODE_ACCESS_REQUEST, FR_RADIUS_CODE_COA_REQUEST,
          FR_RADIUS_CODE_DISCONNECT_REQUEST]
      · simp [infer_codes, hreverse, FR_RADIUS_CODE_ACCOUNTING_RESPONSE,
          FR_RADIUS_CODE_ACCESS_ACCEPT, FR_RADIUS_CODE_ACCESS_REJECT,
          FR_RADIUS_CODE_DISCONNECT_ACK, FR_RADIUS_CODE_UNDEFINED]
  · intro pair hpair
    simp only [List.mem_cons, List.mem_singleton, List.not_mem_nil, or_false] at hpair
    rcases hpair with rfl | rfl | rfl
    · refine ⟨FR_RADIUS_CODE_ACCESS_REQUEST, ?_, ?_⟩ <;>
        simp [infer_codes, hreverse, FR_RADIUS_CODE_ACCESS_ACCEPT,
          FR_RADIUS_CODE_ACCESS_REJECT, FR_RADIUS_CODE_UNDEFINED]
    · refine ⟨FR_RADIUS_CODE_DISCONNECT_REQUEST, ?_, ?_⟩ <;>
        simp [infer_codes, hreverse, FR_RADIUS_CODE_DISCONNECT_NAK,
          FR_RADIUS_CODE_DISCONNECT_ACK, FR_RADIUS_CODE_ACCOUNTING_RESPONSE,
          FR_RADIUS_CODE_ACCESS_ACCEPT, FR_RADIUS_CODE_ACCESS_REJECT,
          FR_RADIUS_CODE_UNDEFINED]
    · refine ⟨FR_RADIUS_CODE_COA_REQUEST, ?_, ?_⟩ <;>
        simp [infer_codes, hreverse, FR_RADIUS_CODE_COA_NAK, FR_RADIUS_CODE_COA_ACK,
          FR_RADIUS_CODE_DISCONNECT_NAK, FR_RADIUS_CODE_DISCONNECT_ACK,
          FR_RADIUS_CODE_ACCOUNTING_RESPONSE, FR_RADIUS_CODE_ACCESS_ACCEPT,
          FR_RADIUS_CODE_ACCESS_REJECT, FR_RADIUS_CODE_UNDEFINED]

theorem infer_codes_consistent_witness :
    (∃ r1 r2, infer_codes sample_ports access_request = some r1 ∧
        r1.packet.code = access_request.packet.code ∧
        infer_codes sample_ports { ({} : rc_request_t) with filter_code := r1.filter_code } =
          some r2 ∧
        r2.filter_code = r1.filter_code ∧
        r2.packet.code = access_request.packet.code) ∧
      ∀ pair ∈ [(FR_RADIUS_CODE_ACCESS_ACCEPT, FR_RADIUS_CODE_ACCESS_REJECT),
          (FR_RADIUS_CODE_DISCONNECT_ACK, FR_RADIUS_CODE_DISCONNECT_NAK),
          (FR_RADIUS_CODE_COA_ACK, FR_RADIUS_CODE_COA_NAK)],
        ∃ code,
          (infer_codes sample_ports { ({} : rc_request_t) with filter_code := pair.1 }).map
              (fun r => r.packet.code) = some code ∧
            (infer_codes sample_ports { ({} : rc_request_t) with filter_code := pair.2 }).map
              (fun r => r.packet.code) = some code :=
  infer_codes_consistent sample_ports access_request {} (by decide) (by decide) (by decide)

end Radclient
